import Mathlib

/-!
# OpenDungeons creature behaviour engine: a shallow embedding of `Creature.cpp`

The definitions below follow `src/src/Creature.cpp` function by function; the
`switch` of `Creature::doTurn` is split into one definition per `case`.

Conventions of the embedding
* `double` quantities (hp, mana, experience, rates, weapon stats, random draws)
  are exact rationals `ℚ`; the decimal literals of the source (`0.25`, `0.1`, ...)
  are the corresponding fractions, and `powl(x, 2)` is `x ^ 2`.
* The libm functions the source calls (`log`, `sqrt`, `powl` with exponent `1.3`) and
  the global `maxGoldCarriedByWorkers` are parameters (`Ext`); nothing is assumed
  about them unless a theorem says so.
* `level` is the `unsigned int` counter of `Creature.h`: a natural number whose
  arithmetic (`level++`, `5*level`) is taken modulo `2^32`. The field types of hp,
  mana, maxHP, maxMana and gold are read off their use in `Creature.cpp` (`getHP`
  returns `double`, `hp -= damage` with `double damage`, `gold/(double)...`): the
  header under `src/include` predates this `.cpp`. `gold` is an `int`, so that
  `gold += ...` with a `double` operand truncates the sum; an `int` is an unbounded
  integer here (overflow of `int` is undefined in C++ and not modelled).
* `position` is an `Ogre::Vector3`, whose components are `Ogre::Real`: the conversion
  from `double` on assignment is a parameter (`toReal`) of `setPosition`.
* `actionQueue` is a `List` whose head is `actionQueue.front()`.
* Pointers to tiles are tile coordinates, pointers to attackable objects are
  identities (`Nat`); the records behind them live in `World`.
* Random draws and the answers of the functions that are not among the sources (map,
  path finding, rooms, walk queue) are fields of an environment record (`Env`)
  supplied afresh to every pass of the dispatch loop, and of `TickEnv` for the part of
  `doTurn` before the loop. Render requests and console output are left out.

The file is in two parts: all definitions first, then all theorems.
-/

namespace OpenDungeons

/-! ## Data model -/

/-- Tile pointers are modelled by the tile's map coordinates. -/
abbrev Pos := Int × Int

/-- The action kinds held on a creature's action queue (`CreatureAction::type`). -/
inductive ActionType where
  | idle
  | walkToTile
  | claimTile
  | digTile
  | depositGold
  | findHome
  | attackObject
  | maneuver
  deriving DecidableEq, Repr

/-- Tile kinds; `Creature.cpp` tests for `Tile::dirt` and `Tile::gold` only. -/
inductive TileType where
  | dirt
  | gold
  | rock
  | water
  | lava
  | claimed
  deriving DecidableEq, Repr

/-- Room kinds; `Creature.cpp` tests for `Room::treasury` and `Room::quarters`. -/
inductive RoomType where
  | treasury
  | quarters
  | other
  deriving DecidableEq, Repr

/-- The record of one tile as read and written by `Creature.cpp` through the
accessors of `Tile` (plain field reads and writes): `getType`/`setType`,
`getFullness`/`setFullness` (an `int`: the source casts it to `double` before taking
`min` with the dig rate), `color`, `colorDouble`, `getMarkedForDigging(p)` for the
controlling player of the acting creature, and
`getTilePassability() == Tile::walkableTile`. -/
structure Tile where
  type : TileType
  fullness : Int
  color : Int
  colorDouble : ℚ
  marked : Bool
  walkable : Bool

/-- An object seen through the `AttackableObject` interface: first covered tile,
`getLevel()`, hp, experience, `getDefense()`, and whether it is a creature with
`digRate > 0.1`. `takeDamage` and `recieveExp` follow `Creature`, the implementation
of the interface in the sources. -/
structure AttackableObject where
  coveredTile : Pos
  level : Nat
  hp : ℚ
  exp : ℚ
  defense : ℚ
  isWorker : Bool

/-- The mutable world outside the acting creature: tile records by coordinates,
which coordinates hold a tile (`gameMap.getTile` returns non-NULL), and the
attackable objects by identity. -/
structure World where
  tile : Pos → Tile
  tileExists : Pos → Bool
  object : Nat → AttackableObject

/-- Overwrite the record of one tile. -/
def World.setTile (W : World) (p : Pos) (t : Tile) : World :=
  { W with tile := fun q => if q = p then t else W.tile q }

/-- Overwrite the record of one object. -/
def World.setObject (W : World) (i : Nat) (o : AttackableObject) : World :=
  { W with object := fun j => if j = i then o else W.object j }

/-- A weapon: `Weapon.cpp` fields `name`, `damage`, `range`, `defense`. -/
structure Weapon where
  name : String
  damage : ℚ
  range : ℚ
  defense : ℚ

/-- Modelled from the spec: the `Field` class (`Field.h` is not among the sources),
"a sparse tile→score map"; entries are kept in the order of their first `set`. -/
structure Field where
  entries : List (Pos × ℚ)

/-- Modelled from the spec: `Field::clear` removes every entry ("rebuilt from scratch"). -/
def Field.clear (_ : Field) : Field := ⟨[]⟩

/-- Insert-or-replace in an association list. -/
def Field.setEntries : List (Pos × ℚ) → Pos → ℚ → List (Pos × ℚ)
  | [], p, v => [(p, v)]
  | (q, w) :: rest, p, v =>
    if q = p then (p, v) :: rest else (q, w) :: Field.setEntries rest p v

/-- Modelled from the spec: `Field::set(x, y, f)` stores the score of one tile,
replacing an earlier score of the same tile. -/
def Field.set (f : Field) (p : Pos) (v : ℚ) : Field := ⟨Field.setEntries f.entries p v⟩

/-- Modelled from the spec: `Field::get(x, y)` looks a tile up; `none` when the tile
has no entry. -/
def Field.get (f : Field) (p : Pos) : Option ℚ :=
  (f.entries.find? (fun e => e.1 = p)).map Prod.snd

/-- Modelled from the spec: `Field::min`, "the global extreme tile and score; ties
broken by encounter order". -/
def Field.min (f : Field) : Option (Pos × ℚ) :=
  f.entries.foldl
    (fun acc e => match acc with
      | none => some e
      | some a => if e.2 < a.2 then some e else some a) none

/-- Modelled from the spec: `Field::max`, "the global extreme tile and score; ties
broken by encounter order". -/
def Field.max (f : Field) : Option (Pos × ℚ) :=
  f.entries.foldl
    (fun acc e => match acc with
      | none => some e
      | some a => if e.2 > a.2 then some e else some a) none

/-- The part of a `Creature` that `doTurn` and its helpers read and write. The
perception lists hold object identities and tile coordinates (the pointers of the
source). -/
structure Creature where
  className : String
  name : String
  actionQueue : List ActionType
  hp : ℚ
  mana : ℚ
  maxHP : ℚ
  maxMana : ℚ
  hpPerLevel : ℚ
  manaPerLevel : ℚ
  exp : ℚ
  level : Nat
  digRate : ℚ
  danceRate : ℚ
  gold : Int
  color : Int
  weaponL : Option Weapon
  weaponR : Option Weapon
  posX : ℚ
  posY : ℚ
  posZ : ℚ
  walkQueue : List Pos
  homeTile : Option Pos
  visibleTiles : List Pos
  visibleEnemyObjects : List Nat
  reachableEnemyObjects : List Nat
  enemyObjectsInRange : List Nat
  visibleAlliedObjects : List Nat
  reachableAlliedObjects : List Nat
  battleField : Field

/-- The state set up by the constructor `Creature::Creature()`. -/
def Creature.new : Creature where
  className := ""
  name := ""
  actionQueue := [ActionType.idle]
  hp := 10
  mana := 10
  maxHP := 10
  maxMana := 10
  hpPerLevel := 0
  manaPerLevel := 0
  exp := 0
  level := 1
  digRate := 10
  danceRate := 35 / 100
  gold := 0
  color := 0
  weaponL := none
  weaponR := none
  posX := 0
  posY := 0
  posZ := 0
  walkQueue := []
  homeTile := none
  visibleTiles := []
  visibleEnemyObjects := []
  reachableEnemyObjects := []
  enemyObjectsInRange := []
  visibleAlliedObjects := []
  reachableAlliedObjects := []
  battleField := ⟨[]⟩

/-- Functions and constants the sources use but do not define: the libm functions
`log`, `sqrt`, `powl` (with a non-integer exponent) and the global
`maxGoldCarriedByWorkers`. -/
structure Ext where
  log : ℚ → ℚ
  sqrt : ℚ → ℚ
  powl : ℚ → ℚ → ℚ
  maxGoldCarriedByWorkers : ℚ

/-! ## Numeric helpers -/

/-- Conversion of a `double` to an integer type: truncation toward zero. -/
def truncToInt (q : ℚ) : Int := if q ≥ 0 then ⌊q⌋ else ⌈q⌉

/-- Modelled from the spec: `randomDouble(lo, hi)` is a uniform draw on `[lo, hi)`,
the unit draw `u` of `[0, 1)` scaled to the interval. -/
def randomDouble (lo hi u : ℚ) : ℚ := lo + u * (hi - lo)

/-- Modelled from the spec: `randomUint(lo, hi)` is a uniform draw among the integers
`lo..hi`, obtained from an arbitrary raw draw. -/
def randomUint (raw lo hi : Nat) : Nat := lo + raw % (hi - lo + 1)

/-! ## Combat (`getHitroll`, `getDefense`, `takeDamage`, `recieveExp`) -/

/-- The function `Creature::getHitroll(range)`. -/
def getHitroll (log : ℚ → ℚ) (c : Creature) (range : ℚ) : ℚ :=
  let tempHitroll : ℚ := 1
  let tempHitroll :=
    match c.weaponL with
    | some w => if w.range ≥ range then tempHitroll + w.damage else tempHitroll
    | none => tempHitroll
  let tempHitroll :=
    match c.weaponR with
    | some w => if w.range ≥ range then tempHitroll + w.damage else tempHitroll
    | none => tempHitroll
  tempHitroll * log (log ((c.level : ℚ) + 1) + 1)

/-- The function `Creature::getDefense()`. -/
def getDefense (c : Creature) : ℚ :=
  let returnValue : ℚ := 3
  let returnValue :=
    match c.weaponL with
    | some w => returnValue + w.defense
    | none => returnValue
  let returnValue :=
    match c.weaponR with
    | some w => returnValue + w.defense
    | none => returnValue
  returnValue

/-- The function `Creature::takeDamage`: `hp -= damage`. -/
def takeDamage (c : Creature) (damage : ℚ) : Creature := { c with hp := c.hp - damage }

/-- The function `Creature::recieveExp`: `exp += experience`. -/
def recieveExp (c : Creature) (experience : ℚ) : Creature :=
  { c with exp := c.exp + experience }

/-- The tile `Creature::positionTile()` asks the map for: `((int)x, (int)y)`. -/
def positionCoords (c : Creature) : Pos := (truncToInt c.posX, truncToInt c.posY)

/-- A creature standing on tile `t`, seen through the `AttackableObject` interface. -/
def Creature.toObject (c : Creature) (t : Pos) : AttackableObject where
  coveredTile := t
  level := c.level
  hp := c.hp
  exp := c.exp
  defense := getDefense c
  isWorker := decide (c.digRate > 1 / 10)

/-- The call `takeDamage` through the interface, as `Creature::takeDamage`. -/
def AttackableObject.takeDamage (o : AttackableObject) (damage : ℚ) : AttackableObject :=
  { o with hp := o.hp - damage }

/-- The call `recieveExp` through the interface, as `Creature::recieveExp`. -/
def AttackableObject.recieveExp (o : AttackableObject) (experience : ℚ) :
    AttackableObject :=
  { o with exp := o.exp + experience }

/-- The damage of one attack (`doTurn` lines 1162-1167): `u1` and `u2` are the values
returned by `randomDouble(0.0, 1.0)` and `randomDouble(0.0, 0.4)`. -/
def damageDone (log : ℚ → ℚ) (c : Creature) (defense u1 u2 : ℚ) : ℚ :=
  let d := getHitroll log c 0
  let d := d * u1
  let d := d - u2 ^ 2 * defense
  if d < 0 then 0 else d

/-- The experience base of one attack (line 1172): `1.0 + 0.2*powl(damageDone, 1.3)`. -/
def expBase (X : Ext) (damage : ℚ) : ℚ := 1 + 2 / 10 * X.powl damage (13 / 10)

/-- The experience the attacker gives itself (lines 1177-1184). -/
def attackerExp (base : ℚ) (attackerLevel defenderLevel : Nat) : ℚ :=
  if defenderLevel ≥ attackerLevel then
    base * (1 + ((defenderLevel - attackerLevel : Nat) : ℚ) / 10)
  else
    base / (1 + ((attackerLevel - defenderLevel : Nat) : ℚ) / 10)

/-- The result of resolving one attack: attacker and defender afterwards. -/
structure AttackResult where
  attacker : Creature
  defender : AttackableObject
  damage : ℚ

/-- One resolved attack (`doTurn` lines 1160-1184) of `c` on the object `o`. -/
def resolveAttack (X : Ext) (c : Creature) (o : AttackableObject) (u1 u2 : ℚ) :
    AttackResult :=
  let d := damageDone X.log c o.defense u1 u2
  let o := o.takeDamage d
  let expGained := expBase X d
  let o := o.recieveExp (15 / 100 * expGained)
  let expGained := attackerExp expGained c.level o.level
  { attacker := recieveExp c expGained, defender := o, damage := d }

/-! ## Battlefield (`computeBattlefield`) -/

/-- The value the enemy and ally loops of `computeBattlefield` accumulate for the
tile `t` (lines 1792-1823). -/
def tileValue (sqrt : ℚ → ℚ) (W : World) (c : Creature) (t : Pos) : ℚ :=
  let tileValue : ℚ := 0
  let tileValue :=
    c.reachableEnemyObjects.foldl
      (fun v j =>
        let t2 := (W.object j).coveredTile
        let xDist := t.1 - t2.1
        let yDist := t.2 - t2.2
        v - 1 / sqrt (((xDist * xDist + yDist * yDist + 1 : Int) : ℚ))) tileValue
  let tileValue :=
    c.visibleAlliedObjects.foldl
      (fun v j =>
        let t2 := (W.object j).coveredTile
        let xDist := t.1 - t2.1
        let yDist := t.2 - t2.2
        v + (1 / 2) / sqrt (((xDist * xDist + yDist * yDist + 1 : Int) : ℚ))) tileValue
  tileValue

/-- The loop over `visibleTiles` of `computeBattlefield`; `i` is the index of the
next tile, `jitterDraw i` the unit draw behind its `randomDouble(-jitter, jitter)`
with `jitter = 0.00`, and `0.5` is `tileScaleFactor`. -/
def battlefieldLoop (sqrt : ℚ → ℚ) (jitterDraw : Nat → ℚ) (W : World) (c : Creature) :
    List Pos → Nat → Field → Field
  | [], _, f => f
  | t :: rest, i, f =>
    battlefieldLoop sqrt jitterDraw W c rest (i + 1)
      (Field.set f t ((tileValue sqrt W c t + randomDouble (-1 * 0) 0 (jitterDraw i)) * (1 / 2)))

/-- The function `Creature::computeBattlefield`: clear the field, then score every
visible tile. -/
def computeBattlefield (sqrt : ℚ → ℚ) (jitterDraw : Nat → ℚ) (W : World) (c : Creature) :
    Creature :=
  { c with
    battleField :=
      battlefieldLoop sqrt jitterDraw W c c.visibleTiles 0 (Field.clear c.battleField) }

/-! ## Perception helpers -/

/-- The scan of `getReachableAttackableObjects`: the objects with a path of at least
two tiles, the smallest such path length (`999999` when there is none) and the
first object attaining it. -/
def reachableLoop (W : World) (path : Option Pos → Option Pos → List Pos)
    (myTile : Option Pos) :
    List Nat → List Nat × Nat × Option Nat × Bool → List Nat × Nat × Option Nat × Bool
  | [], acc => acc
  | o :: rest, (vec, minRange, nearest, minRangeSet) =>
    let tempPath := path myTile (some (W.object o).coveredTile)
    if tempPath.length ≥ 2 then
      if !minRangeSet then
        reachableLoop W path myTile rest (vec ++ [o], tempPath.length, some o, true)
      else if tempPath.length < minRange then
        reachableLoop W path myTile rest (vec ++ [o], tempPath.length, some o, true)
      else
        reachableLoop W path myTile rest (vec ++ [o], minRange, nearest, true)
    else
      reachableLoop W path myTile rest (vec, minRange, nearest, minRangeSet)

/-- The function `Creature::getReachableAttackableObjects`, returning the vector,
`*minRange` and `*nearestObject`. -/
def getReachableAttackableObjects (W : World) (path : Option Pos → Option Pos → List Pos)
    (myTile : Option Pos) (objectsToCheck : List Nat) : List Nat × Nat × Option Nat :=
  let r := reachableLoop W path myTile objectsToCheck ([], 0, none, false)
  (r.1, (if r.2.2.2 then r.2.1 else 999999), r.2.2.1)

/-- The function `Creature::getEnemyObjectsInRange`; `none` stands for the
dereference of a NULL weapon or of a NULL position tile, which the source does not
guard. -/
def getEnemyObjectsInRange (W : World) (c : Creature) (myTile : Option Pos)
    (enemyObjectsToCheck : List Nat) : Option (List Nat) :=
  if enemyObjectsToCheck.length = 0 then some []
  else
    match c.weaponL, c.weaponR, myTile with
    | some wl, some wr, some my =>
      let weaponRangeSquared := max wl.range wr.range
      let weaponRangeSquared := weaponRangeSquared * weaponRangeSquared
      some (enemyObjectsToCheck.filter (fun o =>
        let tempTile := (W.object o).coveredTile
        let rSquared : ℚ := (((my.1 - tempTile.1) ^ 2 + (my.2 - tempTile.2) ^ 2 : Int) : ℚ)
        decide (rSquared < weaponRangeSquared)))
    | _, _, _ => none

/-- The function `Creature::getVisibleMarkedTiles`, run on the member `visibleTiles`. -/
def getVisibleMarkedTiles (W : World) (hasPlayer : Bool) (visibleTiles : List Pos) :
    List Pos :=
  visibleTiles.filter (fun t => hasPlayer && (W.tile t).marked)

/-! ## Regeneration and levelling (`doTurn` lines 371-387, `doLevelUp`) -/

/-- The heal and mana regeneration steps at the top of `doTurn`. -/
def regenerate (c : Creature) : Creature :=
  let hp := c.hp + 1 / 4
  let hp := if hp > c.maxHP then c.maxHP else hp
  let mana := c.mana + 3 / 4
  let mana := if mana > c.maxMana then c.maxMana else mana
  { c with hp := hp, mana := mana }

/-- The number of values of the `unsigned int` member `level`: `2^32`. -/
def levelModulus : Nat := 4294967296

/-- The bound of the level-up loop, `5*level + 5*powl(level/3, 2)`: `5*level` is a
product of `unsigned int` and wraps modulo `2^32`, `level/3` is the integer division
of `unsigned int`, and the sum is formed in `long double` (the x87 extended format,
whose 64-bit significand holds every value the expression takes for a 32-bit `level`
exactly). -/
def levelThreshold (level : Nat) : ℚ :=
  (((5 * level) % levelModulus : Nat) : ℚ) + 5 * (((level / 3 : Nat) : ℚ)) ^ 2

/-- One call of `Creature::doLevelUp` (the render request it queues has no effect on
the creature); `level++` wraps modulo `2^32`, and `(double)level+1` is formed after
the conversion to `double`. -/
def doLevelUp (log : ℚ → ℚ) (c : Creature) : Creature :=
  let level := (c.level + 1) % levelModulus
  let digRate :=
    if c.digRate > 1 / 10 then c.digRate * (1 + log (log ((level : ℚ) + 1) + 1))
    else c.digRate
  let digRate := if digRate > 60 then 60 else digRate
  { c with
    level := level
    digRate := digRate
    maxHP := c.maxHP + c.hpPerLevel
    maxMana := c.maxMana + c.manaPerLevel }

/-- The loop `while(exp >= 5*level + 5*powl(level/3, 2)) doLevelUp();` run for at
most `fuel` iterations. -/
def levelUpLoopFuel (log : ℚ → ℚ) : Nat → Creature → Creature
  | 0, c => c
  | fuel + 1, c =>
    if c.exp ≥ levelThreshold c.level then levelUpLoopFuel log fuel (doLevelUp log c)
    else c

/-- The level-up loop of `doTurn`, run for at most `2^32` passes. The condition of
the loop depends on `exp`, which `doLevelUp` leaves alone, and on `level`, which
takes `2^32` values in turn: when the condition still holds after `2^32` passes it
holds at every level and the loop of the source never ends
(`levelUpLoop_never_ends`); otherwise the result is the state in which the loop
ends (`levelUpLoop_indep`). -/
def levelUpLoop (log : ℚ → ℚ) (c : Creature) : Creature :=
  levelUpLoopFuel log levelModulus c

/-- Whether the level-up loop has ended in the state `c`: its condition is false. -/
def levelled (c : Creature) : Bool := decide (c.exp < levelThreshold c.level)

/-- The start of `doTurn`: regeneration followed by the level-up loop. -/
def regenerateAndLevel (log : ℚ → ℚ) (c : Creature) : Creature :=
  levelUpLoop log (regenerate c)

/-! ## The environment of one evaluation -/

/-- A treasury as `depositGold` queries it: its covered tiles and its
`emptyStorageSpace()`. -/
structure Treasury where
  coveredTiles : List Pos
  emptyStorageSpace : ℚ

/-- A quarters room as `findHome` queries it: the answers of
`getLocationForBed(bedDim1, bedDim2)` and `getLocationForBed(bedDim2, bedDim1)`. -/
structure Quarters where
  bed12 : Option Pos
  bed21 : Option Pos

/-- Everything one pass through the `switch` of `doTurn` obtains from outside the
creature: the unit draws behind its `randomDouble` calls, the raw draws behind its
`randomUint` calls, its `gaussianRandomDouble` values, the indeterminate values of
the locals `tempX`, `tempY` while unassigned, and the answers of the map, room and
walk-queue functions that are not among the sources. Draws made inside loops are
indexed by the pass of the loop. -/
structure Env where
  diceRoll : ℚ
  followDraw : ℚ
  gauss : Nat → ℚ
  maxLoopCount : Nat
  stopDraw : ℚ
  stopDraw2 : ℚ
  neighbourPick : Nat → Nat
  candidatePick : Nat → Nat → Nat
  acceptDraw : Nat → Nat → ℚ
  pathPick : Nat
  treasuryPick : Nat → Nat
  quitDraw : ℚ
  hitDraw : ℚ
  defenseDraw : ℚ
  breakOffDraw : ℚ
  strafeDraw : ℚ
  strafeLength : ℚ
  strafeSide : ℚ
  jitterDraw : Nat → ℚ
  destDrawX : ℚ
  destDrawY : ℚ
  uninitX : Int
  uninitY : Int
  positionTile : Option Pos
  hasPlayer : Bool
  neighborTiles : Pos → List Pos
  neighborTilesXY : ℚ → ℚ → List Pos
  path : Option Pos → Option Pos → List Pos
  pathXY : Int → Int → Int → Int → List Pos
  cutCorners : List Pos → List Pos
  setWalkPath : List Pos → List Pos → Nat → Bool → Bool × List Pos
  addDestination : List Pos → Int → Int → List Pos
  clearDestinations : List Pos → List Pos
  claimForColor : Tile → Int → ℚ → Tile
  coveringRoom : Option RoomType
  depositGold : Int → Int
  treasuriesOwned : List Treasury
  claimTileForSleeping : Bool
  quartersShuffled : List Quarters

/-- The locals of `doTurn` filled in by the perception phase and read by the
dispatch loop. -/
structure Snapshot where
  markedTiles : List Pos
  rangeToNearestEnemyObject : Nat
  nearestEnemyObject : Option Nat

/-- The result of one pass through the `switch`: the new creature and world and the
value of `loopBack`, or `undefined` when the pass executes a step C++ leaves
undefined (a NULL dereference, a read past the end of a container). -/
inductive Step where
  | next (c : Creature) (W : World) (loopBack : Bool)
  | undefined

/-! ## `case CreatureAction::idle` -/

/-- The loop over `reachableAlliedObjects` (lines 507-527); the state is the pair
`tempX, tempY` (`none` while unassigned), `workerFound` and the number of Gaussian
values drawn so far. -/
def followLoop (W : World) (E : Env) (c : Creature) :
    List Nat → Option Int × Option Int → Bool → Nat → Option Int × Option Int
  | [], t, _, _ => t
  | o :: rest, t, workerFound, k =>
    let obj := W.object o
    let found := obj.isWorker
    let t1 : Option Int × Option Int :=
      if found then
        (some (truncToInt ((obj.coveredTile.1 : ℚ) + 3 * E.gauss k)),
         some (truncToInt ((obj.coveredTile.2 : ℚ) + 3 * E.gauss (k + 1))))
      else t
    let k1 := if found then k + 2 else k
    let workerFound1 := workerFound || found
    let t2 : Option Int × Option Int :=
      if !workerFound1 then
        (some (truncToInt (c.posX + 2 * E.gauss k1)),
         some (truncToInt (c.posY + 2 * E.gauss (k1 + 1))))
      else t1
    let k2 := if !workerFound1 then k1 + 2 else k1
    followLoop W E c rest t2 workerFound1 k2

/-- The search for the longest path to an unclaimed dug-out tile (lines 536-544). -/
def exploreLoop (W : World) (E : Env) (myTile : Option Pos) :
    List Pos → List Pos → Nat → List Pos × Nat
  | [], longestPath, longestPathLength => (longestPath, longestPathLength)
  | v :: rest, longestPath, longestPathLength =>
    let tempPath := E.path myTile (some v)
    if (W.tile v).type = TileType.dirt ∧ (W.tile v).fullness = 0 ∧ tempPath.length ≥ 2
        ∧ tempPath.length > longestPath.length then
      exploreLoop W E myTile rest tempPath tempPath.length
    else
      exploreLoop W E myTile rest longestPath longestPathLength

/-- The walk queue after the last lines of the wander branch (lines 556-565) for the
target `tempX, tempY`; an unassigned coordinate is read as the indeterminate value. -/
def wanderTo (E : Env) (c : Creature) (t : Option Int × Option Int) : List Pos :=
  let tempX := t.1.getD E.uninitX
  let tempY := t.2.getD E.uninitY
  let result : List Pos :=
    match E.positionTile with
    | some p => E.pathXY p.1 p.2 tempX tempY
    | none => []
  (E.setWalkPath c.walkQueue (E.cutCorners result) 2 false).2

/-- The walk queue after the wander branch of idle (lines 498-565). -/
def idleWander (W : World) (E : Env) (c : Creature) : List Pos :=
  if c.digRate < 1 / 10 then
    if randomDouble 0 1 E.followDraw < 3 / 10 then
      wanderTo E c (followLoop W E c c.reachableAlliedObjects (none, none) false 0)
    else
      let maxLoopCount := randomUint E.maxLoopCount 5 15
      let r := exploreLoop W E E.positionTile (c.visibleTiles.take maxLoopCount) [] 0
      if r.2 ≥ 2 then
        (E.setWalkPath c.walkQueue (E.cutCorners r.1) 2 false).2
      else
        wanderTo E c (none, none)
  else
    wanderTo E c (none, none)

/-- The case `idle` of the switch; `rest` is the queue below the idle entry. -/
def evalIdle (X : Ext) (W : World) (E : Env) (c : Creature) (rest : List ActionType) :
    Step :=
  let diceRoll := randomDouble 0 1 E.diceRoll
  if diceRoll < 2 / 10 ∧ c.danceRate > 1 / 10 then
    Step.next { c with actionQueue := ActionType.claimTile :: ActionType.idle :: rest } W true
  else if diceRoll < 4 / 10 ∧ c.digRate > 1 / 10 then
    Step.next { c with actionQueue := ActionType.digTile :: ActionType.idle :: rest } W true
  else if diceRoll < 4 / 10 + 6 / 10 * ((c.gold : ℚ) / X.maxGoldCarriedByWorkers)
      ∧ c.digRate > 1 / 10 then
    Step.next { c with actionQueue := ActionType.depositGold :: ActionType.idle :: rest } W true
  else if diceRoll < 6 / 10 then
    Step.next
      { c with
        actionQueue := ActionType.walkToTile :: ActionType.idle :: rest
        walkQueue := idleWander W E c } W true
  else
    Step.next c W false

/-! ## `case CreatureAction::walkToTile` -/

/-- The case `walkToTile`; `rest` is the queue below the entry, whose head is
`actionQueue[1]`. -/
def evalWalkToTile (W : World) (E : Env) (c : Creature) (rest : List ActionType) : Step :=
  match rest with
  | [] => Step.undefined
  | below :: _ =>
    let walkQueue :=
      if below = ActionType.digTile then
        match c.walkQueue.getLast? with
        | none => c.walkQueue
        | some d =>
          if W.tileExists d ∧ E.hasPlayer ∧ ¬ (W.tile d).marked then
            E.clearDestinations c.walkQueue
          else c.walkQueue
      else c.walkQueue
    if walkQueue.length = 0 then
      Step.next { c with walkQueue := walkQueue, actionQueue := rest } W true
    else
      Step.next { c with walkQueue := walkQueue } W false

/-! ## `case CreatureAction::claimTile` -/

/-- The test `tile->color == color && tile->colorDouble >= 1.0`: the tile is fully
claimed for the faction `color`. -/
def claimedFor (W : World) (color : Int) (p : Pos) : Bool :=
  decide ((W.tile p).color = color) && decide ((W.tile p).colorDouble ≥ 1)

/-- The test `tile->getTilePassability() == Tile::walkableTile &&
(tile->color != color || tile->colorDouble < 1.0)`. -/
def claimable (W : World) (color : Int) (p : Pos) : Bool :=
  (W.tile p).walkable && (decide ((W.tile p).color ≠ color) || decide ((W.tile p).colorDouble < 1))

/-- The loop over the neighbours of the creature's tile (lines 680-705): `k` counts
the passes, `fuel` is the number of neighbours left; the result is the neighbour the
creature starts walking to, if any. -/
def claimNeighbourLoop (W : World) (E : Env) (color : Int) :
    Nat → Nat → List Pos → Option Pos
  | 0, _, _ => none
  | fuel + 1, k, neighbors =>
    if neighbors.length = 0 then none
    else
      let tempInt := randomUint (E.neighbourPick k) 0 (neighbors.length - 1)
      let tempTile := neighbors.getD tempInt (0, 0)
      if claimable W color tempTile ∧ (E.neighborTiles tempTile).any (claimedFor W color) then
        some tempTile
      else
        claimNeighbourLoop W E color fuel (k + 1) (neighbors.eraseIdx tempInt)

/-- The candidate pool built by the loop over `visibleTiles` (lines 709-726): for
every claimable visible tile, the entries pushed are its neighbours `neighbors[j]`
that are fully claimed (the source reassigns `tempTile` before `push_back`). -/
def claimableTiles (W : World) (E : Env) (color : Int) (visibleTiles : List Pos) :
    List Pos :=
  visibleTiles.foldl
    (fun acc v =>
      if claimable W color v then
        acc ++ (E.neighborTiles v).filter (claimedFor W color)
      else acc) []

/-- The value of the `double` variable `bar` of line 757, whose computation divides
by `size - 1`: a finite value, minus infinity (a positive count divided by zero is
subtracted), or not-a-number (`0/0.0`). -/
inductive Bar where
  | finite (q : ℚ)
  | negInf
  | nan

/-- The comparison `bar <= 0` on `double`: false for not-a-number. -/
def Bar.leZero : Bar → Bool
  | Bar.finite q => decide (q ≤ 0)
  | Bar.negInf => true
  | Bar.nan => false

/-- The comparison `u >= bar` of line 758 on `double`: false for not-a-number. -/
def Bar.reachedBy (u : ℚ) : Bar → Bool
  | Bar.finite q => decide (u ≥ q)
  | Bar.negInf => true
  | Bar.nan => false

/-- The acceptance bar of line 757,
`1.0 - (numNeighborsClaimed/4.0) - (tempUnsigned/(double)(claimableTiles.size()-1))`,
for a candidate with `numNeighborsClaimed` claimed neighbours after `tempUnsigned`
rejections in a pool of `size` tiles. -/
def claimBar (numNeighborsClaimed tempUnsigned size : Nat) : Bar :=
  if size - 1 = 0 then
    if tempUnsigned = 0 then Bar.nan else Bar.negInf
  else
    Bar.finite (1 - (numNeighborsClaimed : ℚ) / 4 - (tempUnsigned : ℚ) / ((size - 1 : Nat) : ℚ))

/-- The `do ... while(true)` selection loop (lines 735-767) in pass `outer` of the
enclosing loop, entered with `tempUnsigned` rejections; it returns the candidate it
leaves in `tempTile` and the number of rejections on exit. The counter stops at
`size - 1`, so `fuel = size` passes are never exceeded. -/
def selectCandidate (W : World) (E : Env) (color : Int) (pool : List Pos) (outer : Nat) :
    Nat → Nat → Pos × Nat
  | 0, tempUnsigned =>
    (pool.getD (randomUint (E.candidatePick outer tempUnsigned) 0 (pool.length - 1)) (0, 0),
      tempUnsigned)
  | fuel + 1, tempUnsigned =>
    let tempTile :=
      pool.getD (randomUint (E.candidatePick outer tempUnsigned) 0 (pool.length - 1)) (0, 0)
    let numNeighborsClaimed := ((E.neighborTiles tempTile).filter (claimedFor W color)).length
    let bar := claimBar numNeighborsClaimed tempUnsigned pool.length
    if bar.reachedBy (randomDouble 0 1 (E.acceptDraw outer tempUnsigned)) then
      (tempTile, tempUnsigned)
    else if tempUnsigned ≥ pool.length - 1 then (tempTile, tempUnsigned)
    else selectCandidate W E color pool outer fuel (tempUnsigned + 1)

/-- The loop `while(claimableTiles.size() > 0)` (lines 730-794): the result tells
whether `setWalkPath` accepted a path, together with the walk queue left behind. -/
def claimFarLoop (W : World) (E : Env) (color : Int) (myTile : Pos) :
    Nat → Nat → List Pos → List Pos → Bool × List Pos
  | 0, _, _, walkQueue => (false, walkQueue)
  | fuel + 1, outer, pool, walkQueue =>
    if pool.length = 0 then (false, walkQueue)
    else
      let tempTile := (selectCandidate W E color pool outer pool.length 0).1
      let tempPath := E.cutCorners (E.path (some myTile) (some tempTile))
      let r := E.setWalkPath walkQueue tempPath 2 false
      if r.1 then (true, r.2)
      else claimFarLoop W E color myTile fuel (outer + 1) (pool.erase tempTile) r.2

/-- The case `claimTile`; note the `push_back` of line 778. -/
def evalClaimTile (W : World) (E : Env) (S : Snapshot) (c : Creature)
    (rest : List ActionType) : Step :=
  match E.positionTile with
  | none => Step.next { c with actionQueue := rest } W false
  | some myTile =>
    if randomDouble 0 1 E.stopDraw < 1 / 10 + 2 / 10 * (S.markedTiles.length : ℚ) then
      if S.markedTiles.length > 0 then
        Step.next { c with actionQueue := ActionType.digTile :: rest } W true
      else
        Step.next { c with actionQueue := rest } W true
    else if ((W.tile myTile).color ≠ c.color ∨ (W.tile myTile).colorDouble < 1)
        ∧ (E.neighborTiles myTile).any (claimedFor W c.color) then
      Step.next c (W.setTile myTile (E.claimForColor (W.tile myTile) c.color c.danceRate)) false
    else
      let neighbors := E.neighborTiles myTile
      match claimNeighbourLoop W E c.color neighbors.length 0 neighbors with
      | some tempTile =>
        Step.next
          { c with
            walkQueue :=
              E.addDestination (E.clearDestinations c.walkQueue) tempTile.1 tempTile.2 }
          W false
      | none =>
        let pool := claimableTiles W E c.color c.visibleTiles
        let r := claimFarLoop W E c.color myTile pool.length 0 pool c.walkQueue
        if r.1 then
          Step.next
            { c with
              walkQueue := r.2
              actionQueue := (ActionType.claimTile :: rest) ++ [ActionType.walkToTile] }
            W false
        else
          Step.next { c with walkQueue := r.2, actionQueue := rest } W false

/-! ## `case CreatureAction::digTile` -/

/-- The scan of lines 913-922 for the entry to evict: `size` is `shortPaths.size()`,
which the source stores into `longestLength` on every update. -/
def longestScan (size : Nat) : List (List Pos) → Nat → Nat → Nat → Nat
  | [], _, _, longestIndex => longestIndex
  | p :: rest, j, longestLength, longestIndex =>
    if p.length > longestLength then longestScan size rest (j + 1) size j
    else longestScan size rest (j + 1) longestLength longestIndex

/-- The index erased from `shortPaths` when it holds more than five paths. -/
def longestIndex (shortPaths : List (List Pos)) : Nat :=
  match shortPaths with
  | [] => 0
  | p0 :: rest => longestScan shortPaths.length rest 1 p0.length 0

/-- One pass of the loop over `possiblePaths` (lines 899-927). -/
def pruneStep (shortPaths : List (List Pos)) (p : List Pos) : List (List Pos) :=
  if p.length ≥ 2 then
    let shortPaths := shortPaths ++ [p]
    if shortPaths.length > 5 then shortPaths.eraseIdx (longestIndex shortPaths)
    else shortPaths
  else shortPaths

/-- The vector `shortPaths` after the loop over `possiblePaths`. -/
def shortPathsOf (possiblePaths : List (List Pos)) : List (List Pos) :=
  possiblePaths.foldl pruneStep []

/-- The vector `possiblePaths` (lines 881-892): a path to every dug-out neighbour of
every marked tile. -/
def possiblePathsOf (W : World) (E : Env) (markedTiles : List Pos) : List (List Pos) :=
  markedTiles.foldl
    (fun acc m =>
      acc ++ ((E.neighborTiles m).filter (fun n => decide ((W.tile n).fullness = 0))).map
        (fun n => E.path E.positionTile (some n))) []

/-- The part of `digTile` after no neighbour was dug (lines 872-955); `c` already
carries the queue left by the gold check of lines 861-866, whose head is `top`. -/
def digSearch (W : World) (E : Env) (S : Snapshot) (c : Creature) (top : ActionType)
    (rest : List ActionType) : Step :=
  if randomDouble 0 1 E.stopDraw2 < 3 / 10 then
    Step.next { c with actionQueue := rest } W true
  else
    let shortPaths := shortPathsOf (possiblePathsOf W E S.markedTiles)
    let r : Bool × List Pos :=
      if shortPaths.length > 0 then
        let shortestIndex := randomUint E.pathPick 0 (shortPaths.length - 1)
        E.setWalkPath c.walkQueue (E.cutCorners (shortPaths.getD shortestIndex [])) 2 false
      else (false, c.walkQueue)
    if r.1 then
      Step.next
        { c with walkQueue := r.2, actionQueue := ActionType.walkToTile :: top :: rest } W false
    else if top = ActionType.digTile then
      Step.next { c with walkQueue := r.2, actionQueue := rest } W true
    else
      Step.next { c with walkQueue := r.2, actionQueue := top :: rest } W false

/-- The case `digTile`; `rest` is the queue below the entry. The member `gold` is an
`int`: `gold += 25*min(digRate, fullness)` (line 824) forms the sum in `double` and
stores it truncated toward zero. -/
def evalDigTile (X : Ext) (W : World) (E : Env) (S : Snapshot) (c : Creature)
    (rest : List ActionType) : Step :=
  if randomDouble 0 1 E.stopDraw < 1 / 2 - 2 / 10 * (S.markedTiles.length : ℚ) then
    Step.next { c with actionQueue := rest } W true
  else
    let creatureNeighbors := E.neighborTilesXY c.posX c.posY
    match creatureNeighbors.find? (fun p => E.hasPlayer && (W.tile p).marked) with
    | some p =>
      let t := W.tile p
      let gold : Int :=
        if t.type = TileType.gold then
          truncToInt ((c.gold : ℚ) + 25 * min c.digRate (t.fullness : ℚ))
        else c.gold
      let fullness := truncToInt (max 0 ((t.fullness : ℚ) - c.digRate))
      let W1 := W.setTile p { t with fullness := fullness }
      let dugOut := fullness = 0
      let c1 : Creature :=
        if dugOut then
          { recieveExp { c with gold := gold } 2 with
            walkQueue := E.addDestination c.walkQueue p.1 p.2
            actionQueue := ActionType.walkToTile :: rest }
        else { c with gold := gold }
      let W2 := if dugOut then W1.setTile p { W1.tile p with type := TileType.dirt } else W1
      let c2 : Creature :=
        if (c1.gold : ℚ) ≥ X.maxGoldCarriedByWorkers then
          { c1 with actionQueue := ActionType.depositGold :: rest }
        else c1
      Step.next c2 W2 false
    | none =>
      if (c.gold : ℚ) ≥ X.maxGoldCarriedByWorkers then
        digSearch W E S { c with actionQueue := ActionType.depositGold :: rest }
          ActionType.depositGold rest
      else
        digSearch W E S c ActionType.digTile rest

/-! ## `case CreatureAction::depositGold` -/

/-- The tile `treasury->getCoveredTile(randomUint(0, numCoveredTiles()-1))`; the
subtraction is on `unsigned int`. -/
def treasuryTile (E : Env) (i : Nat) (t : Treasury) : Option Pos :=
  t.coveredTiles.get?
    (randomUint (E.treasuryPick i) 0 ((t.coveredTiles.length + 2 ^ 32 - 1) % 2 ^ 32))

/-- The loop over `treasuriesOwned` (lines 993-1020); the state is
`validPathFound`, `tempPath`, `nearestTreasuryDistance`. -/
def treasuryLoop (E : Env) (myTile : Pos) :
    List Treasury → Nat → Bool × List Pos × Nat → Bool × List Pos × Nat
  | [], _, acc => acc
  | t :: rest, i, (validPathFound, tempPath, nearestTreasuryDistance) =>
    let p := E.path (some myTile) (treasuryTile E i t)
    if !validPathFound then
      if p.length ≥ 2 ∧ t.emptyStorageSpace > 0 then
        treasuryLoop E myTile rest (i + 1) (true, p, p.length)
      else
        treasuryLoop E myTile rest (i + 1) (false, p, nearestTreasuryDistance)
    else if p.length ≥ 2 ∧ p.length < nearestTreasuryDistance ∧ t.emptyStorageSpace > 0 then
      treasuryLoop E myTile rest (i + 1) (true, p, p.length)
    else
      treasuryLoop E myTile rest (i + 1) (true, tempPath, nearestTreasuryDistance)

/-- The case `depositGold`; `rest` is the queue below the entry. -/
def evalDepositGold (X : Ext) (W : World) (E : Env) (c : Creature)
    (rest : List ActionType) : Step :=
  match E.positionTile with
  | none => Step.next c W false
  | some myTile =>
    let inTreasury := E.coveringRoom = some RoomType.treasury
    let gold := if inTreasury then c.gold - E.depositGold c.gold else c.gold
    if inTreasury ∧ randomDouble 1 X.maxGoldCarriedByWorkers E.quitDraw > (gold : ℚ) then
      Step.next { c with gold := gold, actionQueue := rest } W false
    else if E.treasuriesOwned.length > 0 then
      let s := treasuryLoop E myTile E.treasuriesOwned 0 (false, [], 0)
      if s.1 then
        let r := E.setWalkPath c.walkQueue (E.cutCorners s.2.1) 2 false
        if r.1 then
          Step.next
            { c with
              gold := gold
              walkQueue := r.2
              actionQueue := ActionType.walkToTile :: ActionType.depositGold :: rest } W true
        else
          Step.next { c with gold := gold, walkQueue := r.2, actionQueue := rest } W true
      else
        Step.next { c with gold := gold, actionQueue := rest } W true
    else
      Step.next { c with gold := gold, actionQueue := rest } W true

/-! ## `case CreatureAction::findHome` -/

/-- The loop over the shuffled quarters (lines 1081-1118); the state is
`validPathFound`, `tempPath`, `nearestQuartersDistance`. -/
def quartersLoop (E : Env) (myTile : Pos) :
    List Quarters → Bool × List Pos × Nat → Bool × List Pos × Nat
  | [], acc => acc
  | q :: rest, (validPathFound, tempPath, nearestQuartersDistance) =>
    let tempTile := match q.bed12 with
      | some t => some t
      | none => q.bed21
    match tempTile with
    | none => quartersLoop E myTile rest (validPathFound, tempPath, nearestQuartersDistance)
    | some t =>
      let tempPath2 := E.path (some myTile) (some t)
      if !validPathFound then
        if tempPath2.length ≥ 2 then
          quartersLoop E myTile rest (true, tempPath2, tempPath2.length)
        else
          quartersLoop E myTile rest (false, tempPath, nearestQuartersDistance)
      else if tempPath2.length ≥ 2 ∧ tempPath2.length < nearestQuartersDistance then
        quartersLoop E myTile rest (true, tempPath2, tempPath2.length)
      else
        quartersLoop E myTile rest (true, tempPath, nearestQuartersDistance)

/-- The case `findHome`; `rest` is the queue below the entry. -/
def evalFindHome (W : World) (E : Env) (c : Creature) (rest : List ActionType) : Step :=
  match E.positionTile with
  | none => Step.next c W false
  | some myTile =>
    let homeTile :=
      if E.coveringRoom = some RoomType.quarters ∧ E.claimTileForSleeping then some myTile
      else c.homeTile
    if homeTile ≠ none then
      Step.next { c with homeTile := homeTile, actionQueue := rest } W true
    else
      let s := quartersLoop E myTile E.quartersShuffled (false, [], 0)
      if s.1 then
        let r := E.setWalkPath c.walkQueue (E.cutCorners s.2.1) 2 false
        if r.1 then
          Step.next
            { c with
              walkQueue := r.2
              actionQueue := ActionType.walkToTile :: ActionType.findHome :: rest } W true
        else
          Step.next { c with walkQueue := r.2, actionQueue := rest } W true
      else
        Step.next { c with actionQueue := rest } W true

/-! ## `case CreatureAction::attackObject` -/

/-- The case `attackObject`; `rest` is the queue below the entry. -/
def evalAttackObject (X : Ext) (W : World) (E : Env) (c : Creature)
    (rest : List ActionType) : Step :=
  if c.reachableEnemyObjects.length = 0 then
    Step.next { c with actionQueue := rest } W true
  else
    match c.enemyObjectsInRange with
    | target :: _ =>
      let r := resolveAttack X c (W.object target)
        (randomDouble 0 1 E.hitDraw) (randomDouble 0 (4 / 10) E.defenseDraw)
      let actionQueue :=
        if randomDouble 0 1 E.breakOffDraw ≤ 6 / 10 then rest
        else ActionType.attackObject :: rest
      Step.next { r.attacker with actionQueue := actionQueue }
        (W.setObject target r.defender) false
    | [] =>
      Step.next
        { c with actionQueue := ActionType.maneuver :: ActionType.attackObject :: rest } W true

/-! ## `case CreatureAction::maneuver` -/

/-- The walk queue after the strafe attempt (lines 1213-1232); `none` when the
attempt dereferences a NULL pointer. `Ogre::Vector3::normalise` divides by the
length when it exceeds `1e-08`; the quaternion built at line 1223 is not applied. -/
def strafe (X : Ext) (W : World) (E : Env) (S : Snapshot) (c : Creature) :
    Option (List Pos) :=
  if randomDouble 0 1 E.strafeDraw < 3 / 10 then
    match S.nearestEnemyObject, E.positionTile with
    | some e, some my =>
      let tempTile := (W.object e).coveredTile
      let vx : ℚ := (tempTile.1 : ℚ) - c.posX
      let vy : ℚ := (tempTile.2 : ℚ) - c.posY
      let vz : ℚ := 0 - c.posZ
      let len := X.sqrt (vx * vx + vy * vy + vz * vz)
      let nx := if len > 1 / 100000000 then vx * (1 / len) else vx
      let ny := if len > 1 / 100000000 then vy * (1 / len) else vy
      let m := randomDouble 0 3 E.strafeLength
      let target : Pos := (truncToInt ((my.1 : ℚ) + nx * m), truncToInt ((my.2 : ℚ) + ny * m))
      if W.tileExists target then
        some (E.setWalkPath c.walkQueue (E.path (some my) (some target)) 2 false).2
      else some c.walkQueue
    | _, _ => none
  else some c.walkQueue

/-- The cap on the walk path of line 1275: `max((double)5, range/0.4)` stored in an
`unsigned int`. -/
def maneuverCap (rangeToNearestEnemyObject : Nat) : Nat :=
  (truncToInt (max 5 ((rangeToNearestEnemyObject : ℚ) / (4 / 10)))).toNat

/-- The part of `maneuver` that moves over the battlefield (lines 1247-1292), entered
with the walk queue left by the strafe attempt. -/
def maneuverMove (X : Ext) (W : World) (E : Env) (S : Snapshot) (c : Creature)
    (walkQueue : List Pos) (rest : List ActionType) : Step :=
  let c1 := computeBattlefield X.sqrt E.jitterDraw W c
  match E.positionTile, c.weaponL, c.weaponR with
  | some my, some wl, some wr =>
    let score := (c1.battleField.get my).getD 0
    let extreme := if score > 0 then c1.battleField.min else c1.battleField.max
    match extreme with
    | none => Step.undefined
    | some minimumFieldValue =>
      let walkQueue := E.clearDestinations walkQueue
      let tempDouble := X.sqrt (max wl.range wr.range)
      let tempPath :=
        E.pathXY my.1 my.2
          (truncToInt ((minimumFieldValue.1.1 : ℚ)
            + randomDouble (-1 * tempDouble) tempDouble E.destDrawX))
          (truncToInt ((minimumFieldValue.1.2 : ℚ)
            + randomDouble (-1 * tempDouble) tempDouble E.destDrawY))
      let tempUnsigned := maneuverCap S.rangeToNearestEnemyObject
      let tempPath := if tempPath.length ≥ tempUnsigned then tempPath.take tempUnsigned
        else tempPath
      let r := E.setWalkPath walkQueue (E.cutCorners tempPath) 2 false
      Step.next
        { c1 with
          walkQueue := r.2
          actionQueue := ActionType.walkToTile :: ActionType.maneuver :: rest } W false
  | _, _, _ => Step.undefined

/-- The case `maneuver`; `rest` is the queue below the entry. -/
def evalManeuver (X : Ext) (W : World) (E : Env) (S : Snapshot) (c : Creature)
    (rest : List ActionType) : Step :=
  if c.reachableEnemyObjects.length = 0 then
    Step.next { c with actionQueue := rest } W true
  else
    match strafe X W E S c with
    | none => Step.undefined
    | some walkQueue =>
      if c.enemyObjectsInRange.length > 0 then
        match rest with
        | [] => Step.undefined
        | below :: _ =>
          if below ≠ ActionType.attackObject then
            Step.next
              { c with walkQueue := walkQueue, actionQueue := ActionType.attackObject :: rest }
              W true
          else
            Step.next { c with walkQueue := walkQueue, actionQueue := rest } W true
      else
        maneuverMove X W E S c walkQueue rest

/-! ## The dispatch loop and `doTurn` -/

/-- The `switch` of `doTurn` on the front entry `a` of the queue `a :: rest`. -/
def evalAction (X : Ext) (W : World) (E : Env) (S : Snapshot) (c : Creature)
    (a : ActionType) (rest : List ActionType) : Step :=
  match a with
  | ActionType.idle => evalIdle X W E c rest
  | ActionType.walkToTile => evalWalkToTile W E c rest
  | ActionType.claimTile => evalClaimTile W E S c rest
  | ActionType.digTile => evalDigTile X W E S c rest
  | ActionType.depositGold => evalDepositGold X W E c rest
  | ActionType.findHome => evalFindHome W E c rest
  | ActionType.attackObject => evalAttackObject X W E c rest
  | ActionType.maneuver => evalManeuver X W E S c rest

/-- How a run of `doTurn` ends: normally, in the `exit(1)` of the empty-queue branch,
in a step C++ leaves undefined, never because the level-up loop of line 386 does not
end, or (in the model only) cut off after the allowed number of passes of the
`do ... while(loopBack)` loop. -/
inductive Outcome where
  | done (c : Creature) (W : World)
  | emptyQueue
  | undefined
  | levelLoop
  | outOfFuel (c : Creature) (W : World)

/-- The loop `do { ... } while(loopBack)` of `doTurn` (lines 443-1306), cut off after
`fuel` passes; `envs i` is the environment of pass `i`. -/
def dispatchLoop (X : Ext) (S : Snapshot) (envs : Nat → Env) :
    Nat → Nat → Creature → World → Outcome
  | 0, _, c, W => Outcome.outOfFuel c W
  | fuel + 1, i, c, W =>
    match c.actionQueue with
    | [] => Outcome.emptyQueue
    | a :: rest =>
      match evalAction X W (envs i) S c a rest with
      | Step.undefined => Outcome.undefined
      | Step.next c1 W1 true => dispatchLoop X S envs fuel (i + 1) c1 W1
      | Step.next c1 W1 false => Outcome.done c1 W1

/-- What the part of `doTurn` before the dispatch loop obtains from outside the
creature (lines 389-439). -/
structure TickEnv where
  positionTile : Option Pos
  visibleTiles : List Pos
  visibleEnemyObjects : List Nat
  visibleAlliedObjects : List Nat
  path : Option Pos → Option Pos → List Pos
  hasPlayer : Bool
  maneuverDraw : ℚ
  homeDraw : ℚ
  reachableQuarters : Nat

/-- The perception phase of `doTurn` (lines 393-401): the creature with its
perception lists refreshed and the locals; `none` when `getEnemyObjectsInRange`
dereferences a NULL weapon. -/
def perceive (W : World) (T : TickEnv) (c : Creature) : Option (Creature × Snapshot) :=
  let re := getReachableAttackableObjects W T.path T.positionTile T.visibleEnemyObjects
  match getEnemyObjectsInRange W c T.positionTile T.visibleEnemyObjects with
  | none => none
  | some inRange =>
    let ra := getReachableAttackableObjects W T.path T.positionTile T.visibleAlliedObjects
    let markedTiles :=
      if c.digRate > 1 / 10 then getVisibleMarkedTiles W T.hasPlayer T.visibleTiles else []
    some
      ({ c with
          visibleTiles := T.visibleTiles
          visibleEnemyObjects := T.visibleEnemyObjects
          reachableEnemyObjects := re.1
          enemyObjectsInRange := inRange
          visibleAlliedObjects := T.visibleAlliedObjects
          reachableAlliedObjects := ra.1 },
        { markedTiles := markedTiles
          rangeToNearestEnemyObject := re.2.1
          nearestEnemyObject := re.2.2 })

/-- The push of `maneuver` before the dispatch loop (lines 403-426). -/
def pushManeuver (T : TickEnv) (S : Snapshot) (c : Creature) : Creature :=
  if c.reachableEnemyObjects.length > 0 then
    let alreadyFighting :=
      c.actionQueue.any (fun a => a = ActionType.attackObject || a = ActionType.maneuver)
    if !alreadyFighting then
      if randomDouble 0 1 T.maneuverDraw
          < 1 / (S.rangeToNearestEnemyObject : ℚ) - c.digRate / 80 then
        { c with actionQueue := ActionType.maneuver :: c.actionQueue }
      else c
    else c
  else c

/-- The push of `findHome` before the dispatch loop (lines 428-439); `none` when
`actionQueue.front()` is read on an empty queue. -/
def pushFindHome (T : TickEnv) (c : Creature) : Option Creature :=
  if c.digRate ≤ 1 / 10 ∧ randomDouble 0 1 T.homeDraw < 3 / 100 ∧ c.homeTile = none then
    match c.actionQueue with
    | [] => none
    | a :: _ =>
      if a ≠ ActionType.findHome ∧ T.reachableQuarters > 0 then
        some { c with actionQueue := ActionType.findHome :: c.actionQueue }
      else some c
  else some c

/-- The function `Creature::doTurn`, with the dispatch loop cut off after `fuel`
passes. The run gets past line 387 only when the level-up loop ends. The render
requests and the visual-debugging refresh are not modelled. -/
def doTurn (X : Ext) (T : TickEnv) (envs : Nat → Env) (fuel : Nat) (c : Creature)
    (W : World) : Outcome :=
  let c := regenerateAndLevel X.log c
  if levelled c then
    match T.positionTile with
    | none => Outcome.done c W
    | some _ =>
      match perceive W T c with
      | none => Outcome.undefined
      | some (c, S) =>
        let c := pushManeuver T S c
        match pushFindHome T c with
        | none => Outcome.undefined
        | some c => dispatchLoop X S envs fuel 0 c W
  else Outcome.levelLoop

/-- The function `Creature::clearActionQueue`. -/
def clearActionQueue (c : Creature) : Creature :=
  { c with actionQueue := [ActionType.idle] }

/-! ## Reachable creature states -/

/-- The action queue an outcome leaves, when the run produced a state. -/
def Outcome.queue : Outcome → Option (List ActionType)
  | Outcome.done c _ => some c.actionQueue
  | Outcome.outOfFuel c _ => some c.actionQueue
  | Outcome.emptyQueue => none
  | Outcome.undefined => none
  | Outcome.levelLoop => none

/-- The creature states reachable from construction: the constructor leaves the queue
`[idle]` (the other fields are set by the constructor, a class description or the
stream reader); `clearActionQueue` and completed runs of `doTurn` lead from reachable
states to reachable states; code outside `doTurn` (attackers calling `takeDamage` and
`recieveExp`, the walk along the walk queue, `setPosition`) changes fields other than
the action queue. -/
inductive Reachable (X : Ext) : Creature → Prop where
  | construct (c : Creature) : c.actionQueue = [ActionType.idle] → Reachable X c
  | clear (c : Creature) : Reachable X c → Reachable X (clearActionQueue c)
  | tick (c c1 : Creature) (W W1 : World) (T : TickEnv) (envs : Nat → Env) (fuel : Nat) :
      Reachable X c → doTurn X T envs fuel c W = Outcome.done c1 W1 → Reachable X c1
  | external (c c1 : Creature) :
      Reachable X c → c1.actionQueue = c.actionQueue → Reachable X c1

/-! ## The spec's wording of the combat and battlefield formulas -/

/-- The damage a weapon slot adds to the hitroll at range `r`: an absent weapon
contributes 0. -/
def slotDamage (w : Option Weapon) (r : ℚ) : ℚ :=
  match w with
  | some w => if w.range ≥ r then w.damage else 0
  | none => 0

/-- The defense of a weapon slot: an absent weapon contributes 0. -/
def slotDefense (w : Option Weapon) : ℚ :=
  match w with
  | some w => w.defense
  | none => 0

/-- The term `1/√(dx²+dy²+1)` of the battlefield score for the tile `t` and an object
whose first covered tile is `t2`. -/
def invDist (sqrt : ℚ → ℚ) (t t2 : Pos) : ℚ :=
  1 / sqrt ((((t.1 - t2.1) ^ 2 + (t.2 - t2.2) ^ 2 + 1 : Int) : ℚ))

/-- The score of the spec for the tile `t`: the sum over the reachable enemies of
`-1/√(dx²+dy²+1)` plus the sum over the visible allies of `+0.5/√(dx²+dy²+1)`,
scaled by 0.5. -/
def specScore (sqrt : ℚ → ℚ) (W : World) (c : Creature) (t : Pos) : ℚ :=
  1 / 2 *
    ((c.reachableEnemyObjects.map (fun j => -(invDist sqrt t (W.object j).coveredTile))).sum
      + (c.visibleAlliedObjects.map
          (fun j => 1 / 2 * invDist sqrt t (W.object j).coveredTile)).sum)

/-! ## Concrete inputs -/

/-- A concrete choice of the external functions: identity in place of `log` and
`sqrt`, the base in place of `powl`, and 1500 gold as carrying capacity. -/
def sampleExt : Ext where
  log := fun x => x
  sqrt := fun x => x
  powl := fun x _ => x
  maxGoldCarriedByWorkers := 1500

/-- A tile fully claimed for faction 0. -/
def claimedTile : Tile where
  type := TileType.claimed
  fullness := 0
  color := 0
  colorDouble := 1
  marked := false
  walkable := true

/-- An unclaimed walkable dirt tile. -/
def openTile : Tile where
  type := TileType.dirt
  fullness := 0
  color := 7
  colorDouble := 0
  marked := false
  walkable := true

/-- An object of level 1 with 10 hp standing on tile (3, 0). -/
def sampleObject : AttackableObject where
  coveredTile := (3, 0)
  level := 1
  hp := 10
  exp := 0
  defense := 3
  isWorker := false

/-- A corridor along the x axis: the tiles with `x ≤ 1` are claimed for faction 0,
the others are open. -/
def sampleWorld : World where
  tile := fun p => if p.1 ≤ 1 then claimedTile else openTile
  tileExists := fun _ => true
  object := fun _ => sampleObject

/-- An environment over the corridor: every draw is 1/2, the neighbours of `(x, y)`
are `(x-1, y)` and `(x+1, y)` within `0 ≤ x ≤ 2`, a path is its two end points, and
`setWalkPath` queues a path of at least `minDestinations` tiles without its first
tile. -/
def sampleEnv : Env where
  diceRoll := 1 / 2
  followDraw := 1 / 2
  gauss := fun _ => 0
  maxLoopCount := 0
  stopDraw := 1 / 2
  stopDraw2 := 1 / 2
  neighbourPick := fun _ => 0
  candidatePick := fun _ _ => 0
  acceptDraw := fun _ _ => 1 / 2
  pathPick := 0
  treasuryPick := fun _ => 0
  quitDraw := 1 / 2
  hitDraw := 1 / 2
  defenseDraw := 1 / 2
  breakOffDraw := 1 / 2
  strafeDraw := 1 / 2
  strafeLength := 1 / 2
  strafeSide := 1 / 2
  jitterDraw := fun _ => 1 / 2
  destDrawX := 1 / 2
  destDrawY := 1 / 2
  uninitX := 0
  uninitY := 0
  positionTile := some (0, 0)
  hasPlayer := true
  neighborTiles := fun p =>
    (if 0 < p.1 then [(p.1 - 1, p.2)] else []) ++ (if p.1 < 2 then [(p.1 + 1, p.2)] else [])
  neighborTilesXY := fun _ _ => [(1, 0)]
  path := fun a b =>
    match a, b with
    | some a, some b => [a, b]
    | _, _ => []
  pathXY := fun x1 y1 x2 y2 => [(x1, y1), (x2, y2)]
  cutCorners := fun p => p
  setWalkPath := fun _ p n _ => if n ≤ p.length then (true, p.tail) else (false, [])
  addDestination := fun q x y => q ++ [(x, y)]
  clearDestinations := fun _ => []
  claimForColor := fun t _ _ => t
  coveringRoom := none
  depositGold := fun _ => 0
  treasuriesOwned := []
  claimTileForSleeping := false
  quartersShuffled := []

/-- A tick environment over the corridor: the creature stands on `(0, 0)` and sees the
three tiles of the corridor and no object. -/
def sampleTick : TickEnv where
  positionTile := some (0, 0)
  visibleTiles := [(0, 0), (1, 0), (2, 0)]
  visibleEnemyObjects := []
  visibleAlliedObjects := []
  path := fun a b =>
    match a, b with
    | some a, some b => [a, b]
    | _, _ => []
  hasPlayer := true
  maneuverDraw := 1 / 2
  homeDraw := 1 / 2
  reachableQuarters := 0

/-- The environments of a tick in which idle decides to claim (dice roll 0) and the
claim search is not given up. -/
def claimEnvs : Nat → Env :=
  fun i => if i = 0 then { sampleEnv with diceRoll := 0 } else sampleEnv

/-- A freshly constructed creature of a class that loses one hit point of its maximum
per level, holding just enough experience for level 2. -/
def drainedCreature : Creature :=
  { Creature.new with hpPerLevel := -1, exp := 5 }

/-- A freshly constructed creature of level 4 with per-level growth 2 and 3. -/
def levelFourCreature : Creature :=
  { Creature.new with level := 4, hpPerLevel := 2, manaPerLevel := 3 }

/-- A creature at level 858993460, the first level at which `5*level` exceeds `2^32`,
holding the experience `5*L + 5*(L div 3)^2` of that level. -/
def veteran : Creature :=
  { Creature.new with level := 858993460, exp := 5 * 858993460 + 5 * 286331153 ^ 2 }

/-- A fresh creature holding the experience `2 * 10^19`. -/
def sage : Creature :=
  { Creature.new with exp := 20000000000000000000 }

/-- A sword: damage 4, range 2, defense 1. -/
def sword : Weapon where
  name := "sword"
  damage := 4
  range := 2
  defense := 1

/-- A level-3 creature with a sword in its left hand and nothing in its right, with
`attackObject` on top of its queue and object 0 reachable and in range. -/
def fighter : Creature :=
  { Creature.new with
    level := 3
    weaponL := some sword
    actionQueue := [ActionType.attackObject, ActionType.idle]
    visibleEnemyObjects := [0]
    reachableEnemyObjects := [0]
    enemyObjectsInRange := [0] }

/-- A creature that sees the three corridor tiles, has enemy 0 reachable and ally 1
visible, and holds a battlefield left over from an earlier computation. -/
def scout : Creature :=
  { Creature.new with
    visibleTiles := [(0, 0), (1, 0), (2, 0)]
    reachableEnemyObjects := [0]
    visibleAlliedObjects := [1]
    battleField := ⟨[((9, 9), 5)]⟩ }

/-- The action queue a step leaves, when the step is defined. -/
def Step.queue : Step → Option (List ActionType)
  | Step.next c _ _ => some c.actionQueue
  | Step.undefined => none

/-- The corridor with a gold tile of fullness 5, marked for digging, at (1, 0). -/
def goldWorld : World :=
  sampleWorld.setTile (1, 0)
    { type := TileType.gold, fullness := 5, color := 7, colorDouble := 0, marked := true
      walkable := false }

/-- The corridor with a dirt tile of fullness 5, marked for digging, at (1, 0). -/
def dirtWorld : World :=
  sampleWorld.setTile (1, 0)
    { type := TileType.dirt, fullness := 5, color := 7, colorDouble := 0, marked := true
      walkable := false }

/-- A worker with dig rate 10 carrying 1400 gold, with `digTile` on top of its queue. -/
def goldDigger : Creature :=
  { Creature.new with gold := 1400, actionQueue := [ActionType.digTile, ActionType.idle] }

/-- A worker with dig rate 10 carrying no gold, with `digTile` on top of its queue. -/
def digger : Creature :=
  { Creature.new with actionQueue := [ActionType.digTile, ActionType.idle] }

/-- The locals of a tick in which the marked tile (1, 0) is visible and no enemy is
reachable. -/
def digSnapshot : Snapshot where
  markedTiles := [(1, 0)]
  rangeToNearestEnemyObject := 999999
  nearestEnemyObject := none

/-- The property `P` holds of the creature a step leaves (vacuously when the step is
undefined). -/
def Step.Holds (P : Creature → Prop) : Step → Prop
  | Step.next c _ _ => P c
  | Step.undefined => True

/-- Whether a run of `doTurn` completed normally. -/
def Outcome.isDone : Outcome → Bool
  | Outcome.done _ _ => true
  | _ => false

/-- The action queue contains the idle entry. -/
def HasIdle (c : Creature) : Prop := ActionType.idle ∈ c.actionQueue

/-! ## Further concrete inputs -/

/-- A creature with `maneuver` on top of `walkToTile` and `idle`, seeing no enemy. -/
def calmManeuverer : Creature :=
  { Creature.new with
    actionQueue := [ActionType.maneuver, ActionType.walkToTile, ActionType.idle] }

/-- A world in which every tile is fully claimed for faction 0. -/
def claimedWorld : World where
  tile := fun _ => claimedTile
  tileExists := fun _ => true
  object := fun _ => sampleObject

/-- An environment over the full grid: the neighbours of a tile are the four tiles
that share an edge with it; everything else as in `sampleEnv`. -/
def gridEnv : Env :=
  { sampleEnv with
    neighborTiles := fun p =>
      [(p.1 - 1, p.2), (p.1 + 1, p.2), (p.1, p.2 - 1), (p.1, p.2 + 1)] }

/-! ## Fields that the start of `doTurn` leaves alone -/

/-- The bar of line 420: `1.0/rangeToNearestEnemyObject - digRate/80.0`. -/
def maneuverBar (rangeToNearestEnemyObject : Nat) (digRate : ℚ) : ℚ :=
  1 / (rangeToNearestEnemyObject : ℚ) - digRate / 80

/-- The condition under which lines 403-426 push `maneuver`: a reachable enemy
exists, no `attackObject` or `maneuver` entry occurs in the queue, and the draw is
below the bar. -/
def maneuverPushed (T : TickEnv) (S : Snapshot) (c : Creature) : Prop :=
  c.reachableEnemyObjects ≠ []
    ∧ (∀ a, a ∈ c.actionQueue → a ≠ ActionType.attackObject ∧ a ≠ ActionType.maneuver)
    ∧ randomDouble 0 1 T.maneuverDraw < maneuverBar S.rangeToNearestEnemyObject c.digRate

/-! ## `Creature::setPosition` -/

/-- The tile `positionTile()` returns for the position `(x, y)`: the tile at
`((int)x, (int)y)` when the map holds one. -/
def tileAt (tileExists : Pos → Bool) (x y : ℚ) : Option Pos :=
  if tileExists (truncToInt x, truncToInt y) then some (truncToInt x, truncToInt y) else none

/-- Modelled from the spec: `Tile::removeCreature` (`Tile.cpp` is not among the
sources) takes the creature out of the tile's members ("remove from old tile"). -/
def removeCreature (members : List Nat) (self : Nat) : List Nat :=
  members.filter (fun m => m ≠ self)

/-- Modelled from the spec: `Tile::addCreature` (`Tile.cpp` is not among the sources)
puts the creature among the tile's members ("add to new tile"). -/
def addCreature (members : List Nat) (self : Nat) : List Nat :=
  members ++ [self]

/-- Replace the member list of one tile. -/
def setMembers (members : Pos → List Nat) (p : Pos) (l : List Nat) : Pos → List Nat :=
  fun q => if q = p then l else members q

/-- The function `Creature::setPosition(x, y, z)` of the creature with identity `self`:
`onMap` is `gameMap.getCreature(name) != NULL` and `members` holds the creatures of
every tile. The member `position` is an `Ogre::Vector3`: `toReal` is the conversion of
the `double` arguments to its component type `Ogre::Real` (single precision unless
Ogre is built for double precision), and the second call of `positionTile()` reads
the position as stored. The render request is left out. -/
def setPosition (toReal : ℚ → ℚ) (tileExists : Pos → Bool) (onMap : Bool) (self : Nat)
    (members : Pos → List Nat) (c : Creature) (x y z : ℚ) : Creature × (Pos → List Nat) :=
  let moved : Creature := { c with posX := toReal x, posY := toReal y, posZ := toReal z }
  if onMap then
    let oldPositionTile := tileAt tileExists c.posX c.posY
    let newPositionTile := tileAt tileExists moved.posX moved.posY
    if oldPositionTile ≠ newPositionTile then
      let members1 :=
        match oldPositionTile with
        | some o => setMembers members o (removeCreature (members o) self)
        | none => members
      let members2 :=
        match newPositionTile with
        | some n => setMembers members1 n (addCreature (members1 n) self)
        | none => members1
      (moved, members2)
    else
      (moved, members)
  else
    (moved, members)

/-- Halve or double a positive number until it lies in `[2^23, 2^24)`, the range of a
24-bit significand; the second component is the weight of the last bit. -/
def scaleToSignificand : Nat → ℚ → ℚ → ℚ × ℚ
  | 0, a, ulp => (a, ulp)
  | fuel + 1, a, ulp =>
    if a ≥ 16777216 then scaleToSignificand fuel (a / 2) (ulp * 2)
    else if a < 8388608 then scaleToSignificand fuel (a * 2) (ulp / 2)
    else (a, ulp)

/-- Rounding to the nearest whole number, a tie going to the even neighbour. -/
def roundHalfEven (q : ℚ) : Int :=
  if q - (⌊q⌋ : ℚ) < 1 / 2 then ⌊q⌋
  else if q - (⌊q⌋ : ℚ) > 1 / 2 then ⌊q⌋ + 1
  else if ⌊q⌋ % 2 = 0 then ⌊q⌋
  else ⌊q⌋ + 1

/-- The conversion of a `double` to single precision, the default `Ogre::Real`:
IEEE 754 rounding to the nearest number with a 24-bit significand, ties to even, for
arguments in the normal range of `float` (no overflow to infinity, no subnormals). -/
def toSingle (x : ℚ) : ℚ :=
  if x = 0 then 0
  else
    let r := scaleToSignificand 300 |x| 1
    let n : ℚ := (roundHalfEven r.1 : ℚ) * r.2
    if x < 0 then -n else n

/-- A map in which the tiles with `0 ≤ x ≤ 2` and `y = 0` exist. -/
def corridorExists : Pos → Bool := fun p => decide (0 ≤ p.1) && decide (p.1 ≤ 2) && decide (p.2 = 0)

/-- Creature 7 is a member of tile (0, 0); no other tile has members. -/
def corridorMembers : Pos → List Nat := fun p => if p = (0, 0) then [7] else []

/-- A tick environment whose pre-dispatch draws are 1/4 and 1/100, with one reachable
quarters room. -/
def alertTick : TickEnv :=
  { sampleTick with maneuverDraw := 1 / 4, homeDraw := 1 / 100, reachableQuarters := 1 }

/-- The locals of a tick in which the nearest reachable enemy, object 0, is two tiles
away. -/
def alertSnapshot : Snapshot where
  markedTiles := []
  rangeToNearestEnemyObject := 2
  nearestEnemyObject := some 0

/-- A fresh creature that has enemy 0 reachable. -/
def alertCreature : Creature :=
  { Creature.new with visibleEnemyObjects := [0], reachableEnemyObjects := [0] }

/-! ## How one pass of the switch can change the action queue -/

/-- The changes of the action queue that one pass through the switch can make: the
first argument is the queue before the pass, the second the queue after it. -/
inductive QStep : List ActionType → List ActionType → Prop where
  | stay (q : List ActionType) : QStep q q
  | pop (a : ActionType) (rest : List ActionType) : a ≠ ActionType.idle → QStep (a :: rest) rest
  | idlePush (x : ActionType) (rest : List ActionType) :
      x = ActionType.claimTile ∨ x = ActionType.digTile ∨ x = ActionType.depositGold
        ∨ x = ActionType.walkToTile →
      QStep (ActionType.idle :: rest) (x :: ActionType.idle :: rest)
  | claimToDig (rest : List ActionType) :
      QStep (ActionType.claimTile :: rest) (ActionType.digTile :: rest)
  | claimBack (rest : List ActionType) :
      QStep (ActionType.claimTile :: rest)
        ((ActionType.claimTile :: rest) ++ [ActionType.walkToTile])
  | digReplace (x : ActionType) (rest : List ActionType) :
      x = ActionType.walkToTile ∨ x = ActionType.depositGold →
      QStep (ActionType.digTile :: rest) (x :: rest)
  | digDepositWalk (rest : List ActionType) :
      QStep (ActionType.digTile :: rest)
        (ActionType.walkToTile :: ActionType.depositGold :: rest)
  | walkPush (a : ActionType) (rest : List ActionType) :
      a = ActionType.digTile ∨ a = ActionType.depositGold ∨ a = ActionType.findHome
        ∨ a = ActionType.maneuver →
      QStep (a :: rest) (ActionType.walkToTile :: a :: rest)
  | attackToManeuver (rest : List ActionType) :
      QStep (ActionType.attackObject :: rest)
        (ActionType.maneuver :: ActionType.attackObject :: rest)
  | maneuverToAttack (below : ActionType) (rest : List ActionType) :
      below ≠ ActionType.attackObject →
      QStep (ActionType.maneuver :: below :: rest)
        (ActionType.attackObject :: below :: rest)

/-- No `attackObject` and no `maneuver` entry occurs in the queue. -/
def noCombat (q : List ActionType) : Bool :=
  q.all (fun a => decide (a ≠ ActionType.attackObject) && decide (a ≠ ActionType.maneuver))

/-- The combat entries of the queue are at most one `maneuver` and at most one
`attackObject`, and when both occur `maneuver` lies directly on top of
`attackObject`. -/
def combatOK : List ActionType → Bool
  | [] => true
  | ActionType.maneuver :: ActionType.attackObject :: rest => noCombat rest
  | ActionType.maneuver :: rest => noCombat rest
  | ActionType.attackObject :: rest => noCombat rest
  | _ :: rest => combatOK rest

/-! ## Runs of several ticks -/

/-- Run one tick from the state left by the previous one; `none` when a tick did not
complete. -/
def runTick (X : Ext) (T : TickEnv) (envs : Nat → Env) (fuel : Nat)
    (s : Option (Creature × World)) : Option (Creature × World) :=
  match s with
  | none => none
  | some (c, W) =>
    match doTurn X T envs fuel c W with
    | Outcome.done c1 W1 => some (c1, W1)
    | _ => none

/-- A fresh creature of a class that neither digs nor claims. -/
def homeless : Creature :=
  { Creature.new with digRate := 0, danceRate := 0 }

/-- The corridor environment with one quarters room that has a free bed place at
(2, 0). -/
def homeEnv : Env :=
  { sampleEnv with quartersShuffled := [{ bed12 := some (2, 0), bed21 := none }] }

/-! ## Measuring the dispatch loop -/

/-- Whether the run of the dispatch loop came to an end within the allowed passes. -/
def Outcome.ended : Outcome → Bool
  | Outcome.outOfFuel _ _ => false
  | Outcome.levelLoop => false
  | _ => true

/-- The weight of a queue entry: `claimTile` can be replaced by `digTile` without the
loop ending, so it counts twice; `idle` counts nothing. -/
def weight : ActionType → Nat
  | ActionType.idle => 0
  | ActionType.claimTile => 2
  | _ => 1

/-- The rank of a queue: the sum of the weights of its entries. -/
def rank (q : List ActionType) : Nat := (q.map weight).sum

/-- The states in which the next pass of the switch ends the loop (given that idle
pushes nothing and that an accepted walk path leaves the walk queue non-empty): idle on
top; `walkToTile` on top of an entry other than `digTile` with a non-empty walk
queue; `attackObject` on top with an enemy reachable and one in range; `maneuver` on
top with an enemy reachable and none in range. -/
def settled (c : Creature) : Bool :=
  match c.actionQueue with
  | ActionType.idle :: _ => true
  | ActionType.walkToTile :: below :: _ =>
    decide (below ≠ ActionType.digTile) && !c.walkQueue.isEmpty
  | ActionType.attackObject :: _ =>
    !c.reachableEnemyObjects.isEmpty && !c.enemyObjectsInRange.isEmpty
  | ActionType.maneuver :: _ =>
    !c.reachableEnemyObjects.isEmpty && c.enemyObjectsInRange.isEmpty
  | _ => false

/-- The property `P` holds of the creature and the `loopBack` flag a step leaves
(vacuously when the step is undefined). -/
def Step.Sat (P : Creature → Bool → Prop) : Step → Prop
  | Step.next c _ loopBack => P c loopBack
  | Step.undefined => True

/-- What one pass from the creature `c` to the creature `c1` does to the measure: a
pass that signals re-evaluation leaves a settled state or a queue of smaller rank, and
a pass from a settled state does not signal re-evaluation. -/
def Progress (c c1 : Creature) (loopBack : Bool) : Prop :=
  (loopBack = true → settled c1 = true ∨ rank c1.actionQueue < rank c.actionQueue)
    ∧ (settled c = true → loopBack = false)

/-- Whether a step signals re-evaluation (`loopBack`). -/
def Step.loops : Step → Bool
  | Step.next _ _ loopBack => loopBack
  | Step.undefined => false

/-- Whether pass number `k` of the dispatch loop, counted from the pass with
environment `envs i` that starts in the state `c`, `W`, leaves the queue alone in case
it evaluates `idle`: the case takes its last branch, which pushes nothing and does not
signal re-evaluation. The value is `true` as well when the loop does not get as far
as pass `k` or when that pass finds another entry on top. -/
def idleRestsAt (X : Ext) (S : Snapshot) (envs : Nat → Env) :
    Nat → Nat → Creature → World → Bool
  | 0, i, c, W =>
    match c.actionQueue with
    | ActionType.idle :: rest => !(evalIdle X W (envs i) c rest).loops
    | _ => true
  | k + 1, i, c, W =>
    match c.actionQueue with
    | [] => true
    | a :: rest =>
      match evalAction X W (envs i) S c a rest with
      | Step.next c1 W1 true => idleRestsAt X S envs k (i + 1) c1 W1
      | _ => true

/-- The environments of a tick in which idle always decides to claim (dice roll 0) and
`claimTile` always gives up at once (stop draw 0). -/
def pingEnvs : Nat → Env :=
  fun _ => { sampleEnv with diceRoll := 0, stopDraw := 0 }

/-- The locals of a tick without marked tiles and without enemies. -/
def calmSnapshot : Snapshot where
  markedTiles := []
  rangeToNearestEnemyObject := 999999
  nearestEnemyObject := none

/-- The environments of a tick in which idle always stays idle (dice roll 7/10) and
`digTile` and `claimTile` give up at once (stop draw 0). -/
def restEnvs : Nat → Env :=
  fun _ => { sampleEnv with diceRoll := 7 / 10, stopDraw := 0 }

/-- A worker (the freshly constructed creature, dig rate 10) with a walk, a deposit, a
dig and a claim stacked on idle, and an empty walk queue. -/
def busyCreature : Creature :=
  { Creature.new with
    actionQueue :=
      [ActionType.walkToTile, ActionType.depositGold, ActionType.digTile,
        ActionType.claimTile, ActionType.idle] }

/-- The environments of a tick in which the creature owns a treasury with free space
at (2, 0) and `setWalkPath` accepts every path but leaves the walk queue empty. -/
def emptyWalkEnvs : Nat → Env :=
  fun _ =>
    { sampleEnv with
      treasuriesOwned := [{ coveredTiles := [(2, 0)], emptyStorageSpace := 1 }]
      setWalkPath := fun _ _ _ _ => (true, []) }

/-- The freshly constructed creature about to deposit its gold. -/
def depositor : Creature :=
  { Creature.new with actionQueue := [ActionType.depositGold, ActionType.idle] }

/-! ## Serialization (`operator<<`, `operator>>`, `getFormat`)

A stream is the list of its characters. -/

/-- How the stream library formats and parses numbers (the sources use the library
and do not define it): the text `operator<<` writes for a `double` and for an `int`,
and the value and remaining stream `operator>>` obtains at the first character that
is not whitespace (`none` when the extraction fails). -/
structure StreamFormat where
  showDouble : ℚ → List Char
  showInt : Int → List Char
  parseDouble : List Char → Option (ℚ × List Char)
  parseInt : List Char → Option (Int × List Char)

/-- The function `Weapon::getFormat()`. -/
def Weapon.getFormat : String := "name\tdamage\trange\tdefense"

/-- The function `Creature::getFormat()` (lines 77-87). -/
def Creature.getFormat : String :=
  "className\tname\tposX\tposY\tposZ\tcolor\tweaponL" ++ Weapon.getFormat
    ++ "\tweaponR" ++ Weapon.getFormat ++ "\tHP\tmana"

/-- The text `operator<<(std::ostream&, Weapon*)` appends to the stream. -/
def writeWeapon (F : StreamFormat) (w : Weapon) : List Char :=
  w.name.data ++ ['\t'] ++ F.showDouble w.damage ++ ['\t'] ++ F.showDouble w.range ++ ['\t']
    ++ F.showDouble w.defense

/-- The text `operator<<(ostream&, Creature*)` appends to the stream (lines 92-112);
`none` when a weapon pointer is NULL, which the weapon's `operator<<` dereferences. -/
def writeCreature (F : StreamFormat) (c : Creature) : Option (List Char) :=
  match c.weaponL, c.weaponR with
  | some weaponL, some weaponR =>
    some
      (c.className.data ++ ['\t'] ++ c.name.data ++ ['\t']
        ++ F.showDouble c.posX ++ ['\t'] ++ F.showDouble c.posY ++ ['\t']
        ++ F.showDouble c.posZ ++ ['\t']
        ++ F.showInt c.color ++ ['\t']
        ++ writeWeapon F weaponL ++ ['\t'] ++ writeWeapon F weaponR ++ ['\t']
        ++ F.showDouble c.hp ++ ['\t']
        ++ F.showDouble c.mana)
  | _, _ => none

/-- The fields concatenated with a tab between neighbours. -/
def joinTabs (fields : List (List Char)) : List Char :=
  List.intercalate ['\t'] fields

/-- The fields of a text, cut at every tab. -/
def splitTabs : List Char → List (List Char)
  | [] => [[]]
  | ch :: rest =>
    if ch = '\t' then [] :: splitTabs rest
    else
      match splitTabs rest with
      | first :: more => (ch :: first) :: more
      | [] => [[ch]]

/-- The 16 fields of the record of a creature holding the weapons `weaponL` and
`weaponR`, in the order in which they are written. -/
def recordFields (F : StreamFormat) (c : Creature) (weaponL weaponR : Weapon) :
    List (List Char) :=
  [c.className.data, c.name.data, F.showDouble c.posX, F.showDouble c.posY,
    F.showDouble c.posZ, F.showInt c.color,
    weaponL.name.data, F.showDouble weaponL.damage, F.showDouble weaponL.range,
    F.showDouble weaponL.defense,
    weaponR.name.data, F.showDouble weaponR.damage, F.showDouble weaponR.range,
    F.showDouble weaponR.defense,
    F.showDouble c.hp, F.showDouble c.mana]

/-- The whitespace characters formatted extraction skips and stops at (`isspace` in
the "C" locale). -/
def isSpace (ch : Char) : Bool :=
  ch = ' ' || ch = '\t' || ch = '\n' || ch = '\r' || ch = Char.ofNat 11 || ch = Char.ofNat 12

/-- The stream after the leading whitespace is skipped. -/
def skipSpace : List Char → List Char
  | [] => []
  | ch :: rest => if isSpace ch then skipSpace rest else ch :: rest

/-- The characters up to the next whitespace, and the stream from there. -/
def takeToken : List Char → List Char × List Char
  | [] => ([], [])
  | ch :: rest =>
    if isSpace ch then ([], ch :: rest)
    else ((ch :: (takeToken rest).1), (takeToken rest).2)

/-- The extraction `is >> string`: skips whitespace and takes the characters up to the
next whitespace; fails (`none`) when there are none. -/
def readString (s : List Char) : Option (String × List Char) :=
  let r := takeToken (skipSpace s)
  if r.1 = [] then none else some (String.mk r.1, r.2)

/-- The extraction `is >> double`. -/
def readDouble (F : StreamFormat) (s : List Char) : Option (ℚ × List Char) :=
  F.parseDouble (skipSpace s)

/-- The extraction `is >> int`. -/
def readInt (F : StreamFormat) (s : List Char) : Option (Int × List Char) :=
  F.parseInt (skipSpace s)

/-- The extraction `operator>>(std::istream&, Weapon*)`. -/
def readWeapon (F : StreamFormat) (s : List Char) : Option (Weapon × List Char) :=
  match readString s with
  | none => none
  | some (name, s) =>
    match readDouble F s with
    | none => none
    | some (damage, s) =>
      match readDouble F s with
      | none => none
      | some (range, s) =>
        match readDouble F s with
        | none => none
        | some (defense, s) =>
          some ({ name := name, damage := damage, range := range, defense := defense }, s)

/-- The fields of a `CreatureClass` that `Creature::operator=` copies into fields of
the model. -/
structure CreatureClass where
  className : String
  digRate : ℚ
  danceRate : ℚ
  hpPerLevel : ℚ
  manaPerLevel : ℚ
  maxHP : ℚ
  maxMana : ℚ

/-- The assignment `Creature::operator=(CreatureClass c2)` (lines 165-183). -/
def Creature.assign (c : Creature) (c2 : CreatureClass) : Creature :=
  { c with
    className := c2.className
    digRate := c2.digRate
    danceRate := c2.danceRate
    hpPerLevel := c2.hpPerLevel
    manaPerLevel := c2.manaPerLevel
    maxHP := c2.maxHP
    maxMana := c2.maxMana }

/-- The name `getUniqueCreatureName()` returns when the static counter holds
`uniqueNumber` (lines 1614-1620). -/
def getUniqueCreatureName (F : StreamFormat) (className : String) (uniqueNumber : Int) :
    String :=
  className ++ String.mk (F.showInt uniqueNumber)

/-- The extraction `operator>>(istream&, Creature*)` into the creature `c` (lines
117-163), with the creature it leaves and the rest of the stream; `none` when an
extraction fails. `getClassDescription` is the lookup of `gameMap`. -/
def readCreature (F : StreamFormat) (getClassDescription : String → Option CreatureClass)
    (uniqueNumber : Int) (c : Creature) (s : List Char) : Option (Creature × List Char) :=
  match readString s with
  | none => none
  | some (className, s) =>
    match readString s with
    | none => none
    | some (tempString, s) =>
      let tempString :=
        if tempString = "autoname" then getUniqueCreatureName F className uniqueNumber
        else tempString
      match readDouble F s with
      | none => none
      | some (xLocation, s) =>
        match readDouble F s with
        | none => none
        | some (yLocation, s) =>
          match readDouble F s with
          | none => none
          | some (zLocation, s) =>
            match readInt F s with
            | none => none
            | some (color, s) =>
              match readWeapon F s with
              | none => none
              | some (weaponL, s) =>
                match readWeapon F s with
                | none => none
                | some (weaponR, s) =>
                  let c1 : Creature :=
                    { c with
                      className := className
                      name := tempString
                      posX := xLocation
                      posY := yLocation
                      posZ := zLocation
                      color := color
                      weaponL := some weaponL
                      weaponR := some weaponR }
                  let c2 : Creature :=
                    match getClassDescription className with
                    | some creatureClass => c1.assign creatureClass
                    | none => c1
                  match readDouble F s with
                  | none => none
                  | some (hp, s) =>
                    match readDouble F s with
                    | none => none
                    | some (mana, s) => some ({ c2 with hp := hp, mana := mana }, s)

/-- A sample number format: whole numbers in decimal, written as the stream library
writes whole numbers of up to six digits; other values are cut to the whole number
below, so only whole numbers survive a round trip through this format. -/
def showWhole (n : Int) : List Char :=
  if n < 0 then '-' :: Nat.toDigits 10 (-n).toNat else Nat.toDigits 10 n.toNat

/-- The value of the leading decimal digits of the stream (on top of `acc`), and the
stream after them. -/
def digitsValue : List Char → Nat → Nat × List Char
  | [], acc => (acc, [])
  | ch :: rest, acc =>
    if ch.isDigit then digitsValue rest (acc * 10 + (ch.toNat - 48)) else (acc, ch :: rest)

/-- The whole number at the head of the stream: an optional minus sign and at least
one decimal digit. -/
def parseWhole : List Char → Option (Int × List Char)
  | [] => none
  | ch :: rest =>
    if ch = '-' then
      match rest with
      | [] => none
      | d :: _ =>
        if d.isDigit then some (-((digitsValue rest 0).1 : Int), (digitsValue rest 0).2)
        else none
    else if ch.isDigit then
      some (((digitsValue (ch :: rest) 0).1 : Int), (digitsValue (ch :: rest) 0).2)
    else none

/-- The sample number format of the stream library. -/
def sampleFormat : StreamFormat where
  showDouble := fun q => showWhole ⌊q⌋
  showInt := showWhole
  parseDouble := fun s => (parseWhole s).map (fun r => ((r.1 : ℚ), r.2))
  parseInt := parseWhole

/-- A club. -/
def club : Weapon := { name := "club", damage := 2, range := 1, defense := 0 }

/-- The empty hand, as level files write it. -/
def noWeapon : Weapon := { name := "none", damage := 0, range := 0, defense := 0 }

/-- A kobold named Bob at (1, 2, 0) with a club in the left hand. -/
def kobold : Creature :=
  { Creature.new with
    className := "Kobold"
    name := "Bob"
    posX := 1
    posY := 2
    color := 1
    weaponL := some club
    weaponR := some noWeapon }

/-- The kobold with a tab inside its name. -/
def tabbed : Creature :=
  { kobold with name := "Bo\tb" }

/-- The text written for `kobold` in the sample format. -/
def koboldRecord : String :=
  "Kobold\tBob\t1\t2\t0\t1\tclub\t2\t1\t0\tnone\t0\t0\t0\t10\t10"

/-- A token of the stream: a non-empty text without whitespace. -/
def isToken (s : List Char) : Bool :=
  !s.isEmpty && s.all (fun ch => !isSpace ch)

/-- The text written for the `double` `x` is read back as `x`, in front of a tab as at
the end of the stream. -/
def StreamFormat.keepsDouble (F : StreamFormat) (x : ℚ) : Prop :=
  (∀ rest, readDouble F (F.showDouble x ++ '\t' :: rest) = some (x, '\t' :: rest))
    ∧ readDouble F (F.showDouble x) = some (x, [])

/-- The text written for the `int` `n` is read back as `n` in front of a tab. -/
def StreamFormat.keepsInt (F : StreamFormat) (n : Int) : Prop :=
  ∀ rest, readInt F (F.showInt n ++ '\t' :: rest) = some (n, '\t' :: rest)

/-- Writing the creature `c` with `operator<<` and reading the text back into the
creature `c0` with `operator>>` succeeds and reproduces class name, name, position,
color, both weapons, hp and mana of `c`. -/
def RoundTrips (F : StreamFormat) (getClassDescription : String → Option CreatureClass)
    (uniqueNumber : Int) (c0 c : Creature) : Prop :=
  ∃ text c1 rest, writeCreature F c = some text
    ∧ readCreature F getClassDescription uniqueNumber c0 text = some (c1, rest)
    ∧ c1.className = c.className ∧ c1.name = c.name
    ∧ c1.posX = c.posX ∧ c1.posY = c.posY ∧ c1.posZ = c.posZ
    ∧ c1.color = c.color
    ∧ c1.weaponL = c.weaponL ∧ c1.weaponR = c.weaponR
    ∧ c1.hp = c.hp ∧ c1.mana = c.mana

/-- The kobold of `kobold` under the name a level file uses for "name me". -/
def autonamed : Creature := { kobold with name := "autoname" }

/-- The kobold of `kobold` with the empty string as its name. -/
def unnamed : Creature := { kobold with name := "" }

/-- A map without class descriptions. -/
def noClasses : String → Option CreatureClass := fun _ => none

/-! ## The walk toward a dig order -/

/-- The condition for abandoning the walk, in the words of the spec: the entry
directly below `walkToTile` is `digTile`, a controlling player exists, and the tile at
the last queued destination exists and is not marked for digging by that player. -/
def specWalkAborted (W : World) (E : Env) (c : Creature) (below : ActionType) : Prop :=
  below = ActionType.digTile ∧ E.hasPlayer = true
    ∧ ∃ d, c.walkQueue.getLast? = some d ∧ W.tileExists d = true ∧ (W.tile d).marked = false

/-- A creature walking toward the dig order at (1, 0), with `walkToTile` on top of
`digTile`. -/
def digWalker : Creature :=
  { Creature.new with
    walkQueue := [(1, 0)]
    actionQueue := [ActionType.walkToTile, ActionType.digTile, ActionType.idle] }

/-! ## Inputs for the path pruning of `digTile` -/

/-- A path of `n` tiles along the row `y`. -/
def rowPath (y : Int) (n : Nat) : List Pos :=
  (List.range n).map (fun i => ((i : Int), y))

/-- Six candidate paths with 2, 3, 5, 2, 2 and 2 tiles, in this order. -/
def sixPaths : List (List Pos) :=
  [rowPath 0 2, rowPath 1 3, rowPath 2 5, rowPath 3 2, rowPath 4 2, rowPath 5 2]

/-! ## Gold -/

/-- The gold carried by the creature a step leaves. -/
def Step.gold : Step → Option Int
  | Step.next c _ _ => some c.gold
  | Step.undefined => none

/-- A worker with dig rate 2.5 carrying no gold, with `digTile` on top of its queue. -/
def slowDigger : Creature :=
  { Creature.new with digRate := 5 / 2, actionQueue := [ActionType.digTile, ActionType.idle] }

/-- A worker with dig rate 10 carrying 1500 gold, the sample ceiling, with `digTile` on
top of its queue. -/
def ladenDigger : Creature :=
  { Creature.new with gold := 1500, actionQueue := [ActionType.digTile, ActionType.idle] }

/-- A room as `depositGold` meets it: its type and the color of the faction that owns
it. -/
structure Room where
  type : RoomType
  color : Int

/-- The environment of a creature standing on the tile `p` covered by the room `r`:
`positionTile()` answers `p` and `getCoveringRoom()->getType()` answers the type of
`r`; the case `depositGold` asks the covering room nothing else. -/
def Env.standingOn (E : Env) (p : Pos) (r : Room) : Env :=
  { E with positionTile := some p, coveringRoom := some r.type }

/-- A creature of faction 1 carrying 100 gold with `depositGold` on top of its queue. -/
def carrier : Creature :=
  { Creature.new with
    color := 1
    gold := 100
    actionQueue := [ActionType.depositGold, ActionType.idle] }

/-- An environment in which the treasury takes all the gold offered. -/
def greedyEnv : Env :=
  { sampleEnv with depositGold := fun g => g }

/-! ## The move over the battlefield -/

/-- The path `tempPath` of lines 1267-1277 toward the battlefield entry `extreme`, as
it is handed to `cutCorners`: the path to a point drawn around the tile of `extreme`,
cut to the cap when it has at least that many tiles. -/
def maneuverPath (X : Ext) (E : Env) (S : Snapshot) (my : Pos) (weaponL weaponR : Weapon)
    (extreme : Pos × ℚ) : List Pos :=
  let tempDouble := X.sqrt (max weaponL.range weaponR.range)
  let tempPath :=
    E.pathXY my.1 my.2
      (truncToInt ((extreme.1.1 : ℚ) + randomDouble (-1 * tempDouble) tempDouble E.destDrawX))
      (truncToInt ((extreme.1.2 : ℚ) + randomDouble (-1 * tempDouble) tempDouble E.destDrawY))
  let tempUnsigned := maneuverCap S.rangeToNearestEnemyObject
  if tempPath.length ≥ tempUnsigned then tempPath.take tempUnsigned else tempPath

/-- The step of `maneuver` that walks toward the battlefield entry `extreme`. -/
def maneuverToward (X : Ext) (W : World) (E : Env) (S : Snapshot) (c : Creature)
    (walkQueue : List Pos) (rest : List ActionType) (my : Pos) (weaponL weaponR : Weapon)
    (extreme : Pos × ℚ) : Step :=
  Step.next
    { computeBattlefield X.sqrt E.jitterDraw W c with
      walkQueue :=
        (E.setWalkPath (E.clearDestinations walkQueue)
          (E.cutCorners (maneuverPath X E S my weaponL weaponR extreme)) 2 false).2
      actionQueue := ActionType.walkToTile :: ActionType.maneuver :: rest }
    W false

/-- The score `battleField->get(myTile->x, myTile->y).first` after
`computeBattlefield()`. -/
def maneuverScore (X : Ext) (W : World) (E : Env) (c : Creature) (my : Pos) : ℚ :=
  (((computeBattlefield X.sqrt E.jitterDraw W c).battleField.get my)).getD 0

/-- The walk queue of the creature a step leaves. -/
def Step.walkQueue : Step → Option (List Pos)
  | Step.next c _ _ => some c.walkQueue
  | Step.undefined => none

/-- A creature with two swords that sees the three corridor tiles and has enemy 0 (on
tile (3, 0)) reachable; it sees no ally. -/
def skirmisher : Creature :=
  { Creature.new with
    weaponL := some sword
    weaponR := some sword
    visibleTiles := [(0, 0), (1, 0), (2, 0)]
    visibleEnemyObjects := [0]
    reachableEnemyObjects := [0]
    actionQueue := [ActionType.maneuver, ActionType.idle] }

/-! ## The strafe of `maneuver` -/

/-- The x and y components of the vector from the creature to the first covered tile
of the object `e` (line 1216-1219: `Vector3(tempTile->x, tempTile->y, 0.0) - position`). -/
def enemyVector (W : World) (c : Creature) (e : Nat) : ℚ × ℚ :=
  (((W.object e).coveredTile.1 : ℚ) - c.posX, ((W.object e).coveredTile.2 : ℚ) - c.posY)

/-- The x and y components of `tempVector` when line 1224 adds it to the position
tile: the vector to the enemy, normalised and scaled by `randomDouble(0.0, 3.0)`. -/
def strafeVector (X : Ext) (W : World) (E : Env) (c : Creature) (e : Nat) : ℚ × ℚ :=
  let vx : ℚ := ((W.object e).coveredTile.1 : ℚ) - c.posX
  let vy : ℚ := ((W.object e).coveredTile.2 : ℚ) - c.posY
  let vz : ℚ := 0 - c.posZ
  let len := X.sqrt (vx * vx + vy * vy + vz * vz)
  let nx := if len > 1 / 100000000 then vx * (1 / len) else vx
  let ny := if len > 1 / 100000000 then vy * (1 / len) else vy
  let m := randomDouble 0 3 E.strafeLength
  (nx * m, ny * m)

/-- The tile the strafe asks the map for: the position tile plus `tempVector`. -/
def strafeTarget (X : Ext) (W : World) (E : Env) (c : Creature) (e : Nat) (my : Pos) : Pos :=
  (truncToInt ((my.1 : ℚ) + (strafeVector X W E c e).1),
    truncToInt ((my.2 : ℚ) + (strafeVector X W E c e).2))

/-- The corridor with every object standing on tile (1, 0). -/
def nearWorld : World :=
  { sampleWorld with object := fun _ => { sampleObject with coveredTile := (1, 0) } }

/-- An environment in which the strafe is attempted (draw 0) with magnitude
`randomDouble(0, 3) = 2`. -/
def strafeEnv : Env :=
  { sampleEnv with strafeDraw := 0, strafeLength := 2 / 3 }

/-! ## Inputs for the candidate pool of `claimTile` -/

/-- A creature of faction 0 on tile (0, 0) that sees the three corridor tiles, with
`claimTile` on top of its queue. -/
def claimer : Creature :=
  { Creature.new with
    visibleTiles := [(0, 0), (1, 0), (2, 0)]
    actionQueue := [ActionType.claimTile, ActionType.idle] }

/-! ## The selection loops of `claimTile`, cut off after a number of passes -/

/-- The `do ... while(true)` selection loop (lines 735-767) cut off after `fuel`
passes: `none` when the loop has not been left by then; otherwise the candidate left
in `tempTile` and the number of rejections. -/
def selectCandidateWithin (W : World) (E : Env) (color : Int) (pool : List Pos) (outer : Nat) :
    Nat → Nat → Option (Pos × Nat)
  | 0, _ => none
  | fuel + 1, tempUnsigned =>
    let tempTile :=
      pool.getD (randomUint (E.candidatePick outer tempUnsigned) 0 (pool.length - 1)) (0, 0)
    let numNeighborsClaimed := ((E.neighborTiles tempTile).filter (claimedFor W color)).length
    let bar := claimBar numNeighborsClaimed tempUnsigned pool.length
    if bar.reachedBy (randomDouble 0 1 (E.acceptDraw outer tempUnsigned)) then
      some (tempTile, tempUnsigned)
    else if tempUnsigned ≥ pool.length - 1 then some (tempTile, tempUnsigned)
    else selectCandidateWithin W E color pool outer fuel (tempUnsigned + 1)

/-- The loop `while(claimableTiles.size() > 0)` (lines 730-794) cut off after `fuel`
passes of its body, each of which runs the selection loop for at most as many passes
as the pool has entries: `none` when one of the loops has not been left by then. -/
def claimFarLoopWithin (W : World) (E : Env) (color : Int) (myTile : Pos) :
    Nat → Nat → List Pos → List Pos → Option (Bool × List Pos)
  | 0, _, pool, walkQueue => if pool.length = 0 then some (false, walkQueue) else none
  | fuel + 1, outer, pool, walkQueue =>
    if pool.length = 0 then some (false, walkQueue)
    else
      match selectCandidateWithin W E color pool outer pool.length 0 with
      | none => none
      | some s =>
        let tempPath := E.cutCorners (E.path (some myTile) (some s.1))
        let r := E.setWalkPath walkQueue tempPath 2 false
        if r.1 then some (true, r.2)
        else claimFarLoopWithin W E color myTile fuel (outer + 1) (pool.erase s.1) r.2

/-! ## Inputs for the deposit decision of idle -/

/-- A worker (dig rate 10) carrying 1500 gold, the sample ceiling, with queue `[idle]`. -/
def ladenWorker : Creature :=
  { Creature.new with gold := 1500 }

/-! ## The growth of the dig rate -/

/-- The factor `1.0 + log(log(level+1)+1)` by which `doLevelUp` multiplies the dig
rate on reaching `level`. -/
def growthFactor (log : ℚ → ℚ) (level : Nat) : ℚ :=
  1 + log (log ((level : ℚ) + 1) + 1)

/-- A worker of level 1 with dig rate 1. -/
def apprentice : Creature :=
  { Creature.new with digRate := 1 }

/-- A worker with dig rate 1 at the largest level an `unsigned int` holds. -/
def elder : Creature :=
  { Creature.new with digRate := 1, level := 4294967295 }

/-! ## Reachable objects -/

/-- The number of tiles of the path from `myTile` to the first covered tile of the
object `o`. -/
def pathLength (W : World) (path : Option Pos → Option Pos → List Pos) (myTile : Option Pos)
    (o : Nat) : Nat :=
  (path myTile (some (W.object o).coveredTile)).length

/-- What the scan of `getReachableAttackableObjects` maintains: `minRangeSet` tells
whether the vector is non-empty, and then `minRange` is a lower bound of the path
lengths of its entries and `nearest` is the first entry attaining it. -/
def ReachableInv (W : World) (path : Option Pos → Option Pos → List Pos) (myTile : Option Pos)
    (acc : List Nat × Nat × Option Nat × Bool) : Prop :=
  (acc.2.2.2 = true ↔ acc.1 ≠ [])
    ∧ (acc.2.2.2 = true →
      (∀ o ∈ acc.1, acc.2.1 ≤ pathLength W path myTile o)
        ∧ acc.2.2.1 = acc.1.find? (fun o => decide (pathLength W path myTile o = acc.2.1))
        ∧ acc.2.2.1 ≠ none)

/-- A world with object 1 on tile (0, 0), object 2 on tile (5, 0) and every other
object on tile (3, 0). -/
def spreadWorld : World :=
  { sampleWorld with
    object := fun o =>
      if o = 1 then { sampleObject with coveredTile := (0, 0) }
      else if o = 2 then { sampleObject with coveredTile := (5, 0) }
      else sampleObject }

/-- A path function whose paths run along the x axis: from `(x1, _)` to `(x2, _)` it
has `|x2 - x1| + 1` tiles. -/
def linePath : Option Pos → Option Pos → List Pos :=
  fun a b =>
    match a, b with
    | some a, some b => (List.range ((b.1 - a.1).natAbs + 1)).map (fun i => (a.1 + i, a.2))
    | _, _ => []

/-! ## The states in which the switch is entered -/

/-- The creature states in which a pass of the `switch` of `doTurn` starts: the state
left by the phases before the dispatch loop in a tick begun in a reachable state, and
the states left by passes that signal re-evaluation. -/
inductive Evaluated (X : Ext) : Creature → Prop where
  | first (c cS c1 : Creature) (W : World) (T : TickEnv) (S : Snapshot) :
      Reachable X c → perceive W T (regenerateAndLevel X.log c) = some (cS, S) →
      pushFindHome T (pushManeuver T S cS) = some c1 → Evaluated X c1
  | again (c c1 : Creature) (W W1 : World) (E : Env) (S : Snapshot) (a : ActionType)
      (rest : List ActionType) :
      Evaluated X c → c.actionQueue = a :: rest →
      evalAction X W E S c a rest = Step.next c1 W1 true → Evaluated X c1

/-! ## A tick with an enemy in range -/

/-- A fresh creature holding two swords. -/
def duelist : Creature :=
  { Creature.new with weaponL := some sword, weaponR := some sword }

/-- A tick on the corridor in which the creature, on (0, 0), sees object 0; the
maneuver draw is 1/4. -/
def combatTick : TickEnv :=
  { sampleTick with visibleEnemyObjects := [0], maneuverDraw := 1 / 4 }

/-- The corridor environment in which an attacker does not break off (draw 0.7). -/
def duelEnv : Env :=
  { sampleEnv with breakOffDraw := 7 / 10 }

/-- The state in which the first pass of the switch starts, and the locals of the
tick, when `duelist` runs `doTurn` with `combatTick` on `nearWorld`. -/
def duelStart : Option (Creature × Snapshot) :=
  (perceive nearWorld combatTick (regenerateAndLevel sampleExt.log duelist)).bind
    (fun r => (pushFindHome combatTick (pushManeuver combatTick r.2 r.1)).map
      (fun c => (c, r.2)))

/-! ## Enemies in range -/

/-- The squared distance `powl(x1 - x2, 2.0) + powl(y1 - y2, 2.0)` between two tiles. -/
def distSquared (a b : Pos) : ℚ :=
  (((a.1 - b.1) ^ 2 + (a.2 - b.2) ^ 2 : Int) : ℚ)

/-- The world an outcome leaves, when the run produced a state. -/
def Outcome.world : Outcome → Option World
  | Outcome.done _ W => some W
  | Outcome.outOfFuel _ W => some W
  | Outcome.emptyQueue => none
  | Outcome.undefined => none
  | Outcome.levelLoop => none

/-- The step leaves no enemy in range and the objects of the world `W` as they were
(vacuously when the step is undefined). -/
def Step.NoAttack (W : World) : Step → Prop
  | Step.next c1 W1 _ => c1.enemyObjectsInRange = [] ∧ W1.object = W.object
  | Step.undefined => True

/-- A weapon without reach. -/
def fist : Weapon := { name := "none", damage := 1, range := 0, defense := 0 }

/-- A creature on tile (0, 0) holding two weapons of range 0. -/
def brawler : Creature :=
  { Creature.new with weaponL := some fist, weaponR := some fist }

/-! ## Goals (`Goal.cpp`) -/

/-- A goal as `Goal.cpp` handles it: the name and the arguments stored by the
constructor (lines 4-10) and the two vectors of sub-goals (lines 31-59). The
constructors of the subclasses are taken to hand name and arguments on to the
constructor of `Goal`. -/
structure Goal where
  name : String
  arguments : String
  successSubGoals : List Goal
  failureSubGoals : List Goal

mutual
/-- The text `operator<<(std::ostream&, Goal*)` appends to the stream (lines 66-90). -/
def writeGoal (F : StreamFormat) : Goal → List Char
  | ⟨name, arguments, successSubGoals, failureSubGoals⟩ =>
    name.data ++ ['\t'] ++ (if arguments.length > 0 then arguments.data else "NULL".data)
      ++ ['\n']
      ++ (if successSubGoals.length > 0 then
            ['+', ' '] ++ F.showInt (successSubGoals.length : Int) ++ ['\n']
              ++ writeGoals F successSubGoals
          else [])
      ++ (if failureSubGoals.length > 0 then
            ['-', ' '] ++ F.showInt (failureSubGoals.length : Int) ++ ['\n']
              ++ writeGoals F failureSubGoals
          else [])
/-- The texts of the goals of a vector, one after the other (the loops of lines 77-78
and 85-86). -/
def writeGoals (F : StreamFormat) : List Goal → List Char
  | [] => []
  | g :: rest => writeGoal F g ++ writeGoals F rest
end

/-- The call `getline(is, str)`: the characters up to the next newline, and the stream
after that newline. -/
def getLine : List Char → List Char × List Char
  | [] => ([], [])
  | ch :: rest => if ch = '\n' then ([], rest) else (ch :: (getLine rest).1, (getLine rest).2)

/-- The loop of lines 102-108: the text without its leading newlines, tabs and
blanks. -/
def stripLeading : List Char → List Char
  | [] => []
  | ch :: rest =>
    if ch = '\n' ∨ ch = '\t' ∨ ch = ' ' then stripLeading rest else ch :: rest

/-- The goal names for which `instantiateFromStream` creates a goal (lines 115-138). -/
def recognised (name : String) : Bool :=
  name = "KillAllEnemies" || name = "ProtectCreature" || name = "ClaimNTiles"
    || name = "MineNGold" || name = "ProtectDungeonTemple"

/-- The loops of lines 149-150 and 157-158: `n` goals read one after the other by
`read`; `none` when a read fails or yields a NULL goal. -/
def readSubGoals (read : List Char → Option (Option Goal × List Char)) :
    Nat → List Char → Option (List Goal × List Char)
  | 0, s => some ([], s)
  | n + 1, s =>
    match read s with
    | some (some g, s1) =>
      match readSubGoals read n s1 with
      | some (gs, s2) => some (g :: gs, s2)
      | none => none
    | _ => none

/-- The function `Goal::instantiateFromStream` (lines 92-162) with at most `fuel`
nested calls: the goal returned (`none` for the NULL pointer) and the rest of the
stream. The result is `none` when the extraction of the name or of a count fails,
when sub-goals are added to a NULL goal, when a sub-goal is NULL, or when the nesting
exceeds `fuel`. -/
def instantiateFromStream (F : StreamFormat) :
    Nat → List Char → Option (Option Goal × List Char)
  | 0, _ => none
  | fuel + 1, s =>
    match readString s with
    | none => none
    | some (tempName, s) =>
      let line := getLine s
      let tempArguments := stripLeading line.1
      let tempArguments := if tempArguments = "NULL".data then [] else tempArguments
      let tempGoal : Option Goal :=
        if recognised tempName then some ⟨tempName, String.mk tempArguments, [], []⟩
        else none
      match line.2 with
      | [] => some (tempGoal, [])
      | c :: rest =>
        if c = '+' then
          match readInt F rest with
          | none => none
          | some (numSubgoals, s) =>
            match tempGoal with
            | none => if numSubgoals > 0 then none else some (none, s)
            | some g =>
              match readSubGoals (instantiateFromStream F fuel) numSubgoals.toNat s with
              | none => none
              | some (subGoals, s) => some (some { g with successSubGoals := subGoals }, s)
        else if c = '-' then
          match readInt F rest with
          | none => none
          | some (numSubgoals, s) =>
            match tempGoal with
            | none => if numSubgoals > 0 then none else some (none, s)
            | some g =>
              match readSubGoals (instantiateFromStream F fuel) numSubgoals.toNat s with
              | none => none
              | some (subGoals, s) => some (some { g with failureSubGoals := subGoals }, s)
        else some (tempGoal, c :: rest)

/-- A goal without arguments and without sub-goals. -/
def plainGoal (name arguments : String) : Goal :=
  ⟨name, arguments, [], []⟩

/-- A goal with one sub-goal for success and one for failure. -/
def forkedGoal : Goal :=
  ⟨"KillAllEnemies", "", [plainGoal "ClaimNTiles" "5"], [plainGoal "MineNGold" "100"]⟩

/-- The text written for `forkedGoal` in the sample format. -/
def forkedRecord : String :=
  "KillAllEnemies\tNULL\n+ 1\nClaimNTiles\t5\n- 1\nMineNGold\t100\n"

/-- The name of a goal with the numbers of its success and failure sub-goals. -/
def Goal.counts (g : Goal) : String × Nat × Nat :=
  (g.name, g.successSubGoals.length, g.failureSubGoals.length)

/-! ## The minimap (`MiniMap.cpp`) -/

/-- The shape of the array `mTiles` after `allocateMiniMapMemory()` (lines 118-128):
`mHeight` rows, each with `mWidth` entries; the list holds the length of every row. -/
def allocateMiniMapMemory (mWidth mHeight : Nat) : List Nat :=
  List.replicate mHeight mWidth

/-- The index pairs `(ii, jj)` of the elements `mTiles[ii][jj]` that `MiniMap::swap`
reads (lines 160-166), in the order of the two loops. -/
def swapReads (mWidth mHeight : Nat) : List (Nat × Nat) :=
  ((List.range mWidth).map (fun ii => (List.range mHeight).map (fun jj => (ii, jj)))).flatten

/-- Whether the element `[idx.1][idx.2]` lies within an array of the given shape. -/
def withinArray (rows : List Nat) (idx : Nat × Nat) : Bool :=
  match rows.get? idx.1 with
  | some length => decide (idx.2 < length)
  | none => false

/-! # Theorems -/

/-! ## Helper lemmas: levelling -/

theorem levelThreshold_small (L : Nat) (h : 5 * L < levelModulus) :
    levelThreshold L = 5 * (L : ℚ) + 5 * (((L / 3 : Nat) : ℚ)) ^ 2 := by
  unfold levelThreshold
  rw [Nat.mod_eq_of_lt h]
  push_cast
  rfl

theorem levelThreshold_lt_succ (L : Nat) (h : 5 * (L + 1) < levelModulus) :
    levelThreshold L < levelThreshold (L + 1) := by
  rw [levelThreshold_small L (by omega), levelThreshold_small (L + 1) h]
  have h3 : L / 3 ≤ (L + 1) / 3 := Nat.div_le_div_right (Nat.le_succ L)
  have h1 : ((L / 3 : Nat) : ℚ) ≤ (((L + 1) / 3 : Nat) : ℚ) := by exact_mod_cast h3
  have h0 : (0 : ℚ) ≤ ((L / 3 : Nat) : ℚ) := by positivity
  have h2 : (((L / 3 : Nat) : ℚ)) ^ 2 ≤ ((((L + 1) / 3 : Nat) : ℚ)) ^ 2 :=
    pow_le_pow_left₀ h0 h1 2
  push_cast
  linarith

theorem doLevelUp_exp (log : ℚ → ℚ) (c : Creature) : (doLevelUp log c).exp = c.exp := rfl

theorem doLevelUp_level (log : ℚ → ℚ) (c : Creature) :
    (doLevelUp log c).level = (c.level + 1) % levelModulus := rfl

theorem doLevelUp_level_small (log : ℚ → ℚ) (c : Creature) (h : c.level + 1 < levelModulus) :
    (doLevelUp log c).level = c.level + 1 := by
  rw [doLevelUp_level, Nat.mod_eq_of_lt h]

theorem doLevelUp_hp (log : ℚ → ℚ) (c : Creature) : (doLevelUp log c).hp = c.hp := rfl

theorem doLevelUp_mana (log : ℚ → ℚ) (c : Creature) : (doLevelUp log c).mana = c.mana := rfl

theorem levelUpLoopFuel_stop (log : ℚ → ℚ) (fuel : Nat) (c : Creature)
    (h : c.exp < levelThreshold c.level) : levelUpLoopFuel log fuel c = c := by
  cases fuel with
  | zero => rfl
  | succ n =>
    have h' : ¬ (c.exp ≥ levelThreshold c.level) := not_le.mpr h
    simp [levelUpLoopFuel, h']

theorem levelUpLoopFuel_succ (log : ℚ → ℚ) (fuel : Nat) (c : Creature) :
    levelUpLoopFuel log (fuel + 1) c
      = if c.exp ≥ levelThreshold c.level then levelUpLoopFuel log fuel (doLevelUp log c)
        else c := rfl

/-- The first pass of the level-up loop. -/
theorem levelUpLoop_first (log : ℚ → ℚ) (c : Creature) :
    levelUpLoop log c
      = if c.exp ≥ levelThreshold c.level then
          levelUpLoopFuel log 4294967295 (doLevelUp log c)
        else c :=
  levelUpLoopFuel_succ log 4294967295 c

theorem levelUpLoopFuel_exp (log : ℚ → ℚ) (fuel : Nat) :
    ∀ c : Creature, (levelUpLoopFuel log fuel c).exp = c.exp := by
  induction fuel with
  | zero => intro c; rfl
  | succ n ih =>
    intro c
    by_cases hc : c.exp ≥ levelThreshold c.level
    · simp only [levelUpLoopFuel, hc, if_true]
      rw [ih, doLevelUp_exp]
    · simp only [levelUpLoopFuel, hc, if_false]

/-- Once the condition of the level-up loop is false, further passes change nothing:
the state in which the loop ends does not depend on the allowance. -/
theorem levelUpLoopFuel_stable (log : ℚ → ℚ) (fuel : Nat) :
    ∀ (c : Creature) (more : Nat),
      (levelUpLoopFuel log fuel c).exp < levelThreshold (levelUpLoopFuel log fuel c).level →
      levelUpLoopFuel log (fuel + more) c = levelUpLoopFuel log fuel c := by
  induction fuel with
  | zero =>
    intro c more h
    exact levelUpLoopFuel_stop log _ c h
  | succ n ih =>
    intro c more h
    by_cases hc : c.exp ≥ levelThreshold c.level
    · have e : n + 1 + more = (n + more) + 1 := by omega
      rw [e]
      simp only [levelUpLoopFuel, hc, if_true] at h ⊢
      exact ih (doLevelUp log c) more h
    · rw [levelUpLoopFuel_stop log _ c (not_le.mp hc),
        levelUpLoopFuel_stop log _ c (not_le.mp hc)]

/-- While the condition of the loop holds at every level met from `c.level` on, no
allowance of passes ends the loop. -/
theorem levelUpLoopFuel_runs (log : ℚ → ℚ) (fuel : Nat) :
    ∀ c : Creature, c.level < levelModulus →
      (∀ j, levelThreshold ((c.level + j) % levelModulus) ≤ c.exp) →
      levelThreshold (levelUpLoopFuel log fuel c).level ≤ (levelUpLoopFuel log fuel c).exp := by
  induction fuel with
  | zero =>
    intro c hl h
    have h0 := h 0
    rw [Nat.add_zero, Nat.mod_eq_of_lt hl] at h0
    exact h0
  | succ n ih =>
    intro c hl h
    have h0 := h 0
    rw [Nat.add_zero, Nat.mod_eq_of_lt hl] at h0
    have hc : c.exp ≥ levelThreshold c.level := h0
    simp only [levelUpLoopFuel, hc, if_true]
    apply ih
    · rw [doLevelUp_level]
      exact Nat.mod_lt _ (by decide)
    · intro j
      rw [doLevelUp_level, doLevelUp_exp, Nat.mod_add_mod]
      have e : c.level + 1 + j = c.level + (1 + j) := by omega
      rw [e]
      exact h (1 + j)

/-- When the condition of the loop still holds after `fuel` passes, it held before
each of them: at the level reached after `k` passes, for every `k ≤ fuel`. -/
theorem levelUpLoopFuel_ran (log : ℚ → ℚ) (fuel : Nat) :
    ∀ c : Creature, c.level < levelModulus →
      levelThreshold (levelUpLoopFuel log fuel c).level ≤ (levelUpLoopFuel log fuel c).exp →
      ∀ k, k ≤ fuel → levelThreshold ((c.level + k) % levelModulus) ≤ c.exp := by
  induction fuel with
  | zero =>
    intro c hl h k hk
    have hk0 : k = 0 := by omega
    subst hk0
    rw [Nat.add_zero, Nat.mod_eq_of_lt hl]
    exact h
  | succ n ih =>
    intro c hl h k hk
    by_cases hc : c.exp ≥ levelThreshold c.level
    · simp only [levelUpLoopFuel, hc, if_true] at h
      cases k with
      | zero =>
        rw [Nat.add_zero, Nat.mod_eq_of_lt hl]
        exact hc
      | succ m =>
        have hm := ih (doLevelUp log c)
          (by rw [doLevelUp_level]; exact Nat.mod_lt _ (by decide)) h m (by omega)
        rw [doLevelUp_level, doLevelUp_exp, Nat.mod_add_mod] at hm
        have e : c.level + (m + 1) = c.level + 1 + m := by omega
        rw [e]
        exact hm
    · simp only [levelUpLoopFuel, hc, if_false] at h

/-- When the condition of the level-up loop still holds after `2^32` passes, it holds
after any number of passes: the loop of the source never ends. -/
theorem levelUpLoop_never_ends (log : ℚ → ℚ) (c : Creature) (hl : c.level < levelModulus)
    (h : levelled (levelUpLoop log c) = false) (fuel : Nat) :
    levelled (levelUpLoopFuel log fuel c) = false := by
  have h1 : levelThreshold (levelUpLoop log c).level ≤ (levelUpLoop log c).exp := by
    unfold levelled at h
    exact not_lt.mp (of_decide_eq_false h)
  have hall : ∀ j, levelThreshold ((c.level + j) % levelModulus) ≤ c.exp := by
    intro j
    have hj := levelUpLoopFuel_ran log levelModulus c hl h1 (j % levelModulus)
      (le_of_lt (Nat.mod_lt _ (by decide)))
    rw [Nat.add_mod_mod] at hj
    exact hj
  have h2 := levelUpLoopFuel_runs log fuel c hl hall
  unfold levelled
  exact decide_eq_false (not_lt.mpr h2)

/-- When the level-up loop has ended within `2^32` passes, every larger allowance gives
the same state. -/
theorem levelUpLoop_indep (log : ℚ → ℚ) (c : Creature)
    (h : levelled (levelUpLoop log c) = true) (more : Nat) :
    levelUpLoopFuel log (levelModulus + more) c = levelUpLoop log c := by
  unfold levelled at h
  exact levelUpLoopFuel_stable log levelModulus c more (of_decide_eq_true h)

theorem regenerate_actionQueue (c : Creature) :
    (regenerate c).actionQueue = c.actionQueue := rfl

theorem doLevelUp_actionQueue (log : ℚ → ℚ) (c : Creature) :
    (doLevelUp log c).actionQueue = c.actionQueue := rfl

theorem levelUpLoopFuel_actionQueue (log : ℚ → ℚ) (fuel : Nat) :
    ∀ c : Creature, (levelUpLoopFuel log fuel c).actionQueue = c.actionQueue := by
  induction fuel with
  | zero => intro c; rfl
  | succ n ih =>
    intro c
    by_cases hc : c.exp ≥ levelThreshold c.level
    · simp only [levelUpLoopFuel, hc, if_true]
      rw [ih, doLevelUp_actionQueue]
    · simp only [levelUpLoopFuel, hc, if_false]

theorem regenerateAndLevel_actionQueue (log : ℚ → ℚ) (c : Creature) :
    (regenerateAndLevel log c).actionQueue = c.actionQueue := by
  unfold regenerateAndLevel levelUpLoop
  rw [levelUpLoopFuel_actionQueue, regenerate_actionQueue]

theorem regenerate_bounds (c : Creature) :
    (regenerate c).hp ≤ (regenerate c).maxHP ∧ (regenerate c).mana ≤ (regenerate c).maxMana := by
  unfold regenerate
  constructor
  · show (if c.hp + 1 / 4 > c.maxHP then c.maxHP else c.hp + 1 / 4) ≤ c.maxHP
    split_ifs with h
    · exact le_refl _
    · exact not_lt.mp h
  · show (if c.mana + 3 / 4 > c.maxMana then c.maxMana else c.mana + 3 / 4) ≤ c.maxMana
    split_ifs with h
    · exact le_refl _
    · exact not_lt.mp h

/-- The level-up loop keeps hp and mana below their maxima when the per-level growth
rates are not negative. -/
theorem levelUpLoopFuel_bounds (log : ℚ → ℚ) (fuel : Nat) :
    ∀ c : Creature, 0 ≤ c.hpPerLevel → 0 ≤ c.manaPerLevel →
      c.hp ≤ c.maxHP → c.mana ≤ c.maxMana →
      (levelUpLoopFuel log fuel c).hp ≤ (levelUpLoopFuel log fuel c).maxHP
        ∧ (levelUpLoopFuel log fuel c).mana ≤ (levelUpLoopFuel log fuel c).maxMana := by
  induction fuel with
  | zero => intro c _ _ h1 h2; exact ⟨h1, h2⟩
  | succ n ih =>
    intro c hh hm h1 h2
    by_cases hc : c.exp ≥ levelThreshold c.level
    · simp only [levelUpLoopFuel, hc, if_true]
      apply ih
      · exact hh
      · exact hm
      · show c.hp ≤ c.maxHP + c.hpPerLevel
        linarith
      · show c.mana ≤ c.maxMana + c.manaPerLevel
        linarith
    · simp only [levelUpLoopFuel, hc, if_false]
      exact ⟨h1, h2⟩

/-! ## C3: hp and mana against their maxima after regeneration and levelling -/

/-- C3, as stated, fails: a creature whose class loses maximum hp per level
(`hpPerLevel = -1`) and that levels up once ends the start of `doTurn` with hp 10
above its maximum 9. -/
theorem C3_counterexample :
    ¬ ((regenerateAndLevel sampleExt.log drainedCreature).hp
        ≤ (regenerateAndLevel sampleExt.log drainedCreature).maxHP
      ∧ (regenerateAndLevel sampleExt.log drainedCreature).mana
        ≤ (regenerateAndLevel sampleExt.log drainedCreature).maxMana) := by
  decide!

/-- C3 (amended): for every creature whose per-level growth rates are not negative,
after the regeneration step and the level-up loop at the start of `doTurn`,
`hp ≤ maxHP` and `mana ≤ maxMana`. -/
theorem C3_regen_level_bounds (log : ℚ → ℚ) (c : Creature)
    (hh : 0 ≤ c.hpPerLevel) (hm : 0 ≤ c.manaPerLevel) :
    (regenerateAndLevel log c).hp ≤ (regenerateAndLevel log c).maxHP
      ∧ (regenerateAndLevel log c).mana ≤ (regenerateAndLevel log c).maxMana := by
  unfold regenerateAndLevel levelUpLoop
  exact levelUpLoopFuel_bounds log _ (regenerate c) hh hm
    (regenerate_bounds c).1 (regenerate_bounds c).2

/-- C3 (amended), at a level-4 creature with growth rates 2 and 3. -/
theorem C3_regen_level_bounds_witness :
    (0 : ℚ) ≤ levelFourCreature.hpPerLevel ∧ (0 : ℚ) ≤ levelFourCreature.manaPerLevel
      ∧ (regenerateAndLevel sampleExt.log levelFourCreature).hp
          ≤ (regenerateAndLevel sampleExt.log levelFourCreature).maxHP
      ∧ (regenerateAndLevel sampleExt.log levelFourCreature).mana
          ≤ (regenerateAndLevel sampleExt.log levelFourCreature).maxMana :=
  ⟨by decide!, by decide!,
    C3_regen_level_bounds sampleExt.log levelFourCreature (by decide!) (by decide!)⟩

/-! ## C4: the level-up threshold -/

/-- C4, as stated, fails at large levels: `5*level` is computed in `unsigned int`. At
level 858993460 the product wraps to 4, so a creature holding the experience
`5*L + 5*(L div 3)^2` of that level levels up five times, to level 858993465, where
the loop ends; with one unit of experience less it levels up five times as well. At
level 858993459 the product of the next level wraps, and a creature holding the
experience of level 858993459 levels up six times. -/
theorem C4_counterexample :
    1 ≤ veteran.level
      ∧ veteran.exp = 5 * (veteran.level : ℚ) + 5 * (((veteran.level / 3 : Nat) : ℚ)) ^ 2
      ∧ (levelUpLoop sampleExt.log veteran).level = veteran.level + 5
      ∧ levelled (levelUpLoop sampleExt.log veteran) = true
      ∧ (levelUpLoop sampleExt.log { veteran with exp := veteran.exp - 1 }).level
          = veteran.level + 5
      ∧ levelled (levelUpLoop sampleExt.log { veteran with exp := veteran.exp - 1 }) = true
      ∧ (levelUpLoop sampleExt.log
          { veteran with
            level := 858993459
            exp := 5 * ((858993459 : Nat) : ℚ) + 5 * (((858993459 / 3 : Nat) : ℚ)) ^ 2 }).level
          = 858993459 + 6 := by
  refine ⟨by decide, by decide!, by decide!, by decide!, by decide!, by decide!, by decide!⟩

/-- C4 (amended): for every level `L ≥ 1` up to 858993459, the last level whose
product `5*L` does not wrap: a creature at level `L` whose experience is one unit
below `5*L + 5*(L div 3)^2` undergoes no level-up (the loop ends at once and leaves it
unchanged), and, when `L ≤ 858993458` (so that `5*(L+1)` does not wrap either), a
creature at level `L` whose experience equals `5*L + 5*(L div 3)^2` undergoes exactly
one level-up in the level-up loop (the loop ends in the state after one `doLevelUp`,
at level `L + 1`). -/
theorem C4_level_threshold (log : ℚ → ℚ) (c : Creature) (L : Nat) (hL : 1 ≤ L)
    (hwrap : L ≤ 858993459) (hl : c.level = L) :
    (L ≤ 858993458 → c.exp = 5 * (L : ℚ) + 5 * (((L / 3 : Nat) : ℚ)) ^ 2 →
        levelUpLoop log c = doLevelUp log c
          ∧ (levelUpLoop log c).level = L + 1
          ∧ levelled (levelUpLoop log c) = true)
      ∧ (c.exp = 5 * (L : ℚ) + 5 * (((L / 3 : Nat) : ℚ)) ^ 2 - 1 →
        levelUpLoop log c = c ∧ levelled (levelUpLoop log c) = true) := by
  subst hl
  have hM : levelModulus = 4294967296 := rfl
  have hsmall := levelThreshold_small c.level (by omega)
  constructor
  · intro hnext1 he
    have hnext : (doLevelUp log c).level = c.level + 1 :=
      doLevelUp_level_small log c (by omega)
    have hge : c.exp ≥ levelThreshold c.level := by rw [hsmall, he]
    have hstop : (doLevelUp log c).exp < levelThreshold (doLevelUp log c).level := by
      rw [doLevelUp_exp, hnext, he, ← hsmall]
      exact levelThreshold_lt_succ c.level (by omega)
    have hloop : levelUpLoop log c = doLevelUp log c := by
      rw [levelUpLoop_first, if_pos hge]
      exact levelUpLoopFuel_stop log _ _ hstop
    refine ⟨hloop, by rw [hloop, hnext], ?_⟩
    rw [hloop]
    exact decide_eq_true hstop
  · intro he
    have hlt : c.exp < levelThreshold c.level := by
      rw [hsmall, he]
      linarith
    have hloop : levelUpLoop log c = c := levelUpLoopFuel_stop log _ c hlt
    refine ⟨hloop, ?_⟩
    rw [hloop]
    exact decide_eq_true hlt

/-- C4 (amended) at level 4 (threshold 25): with experience 25 the creature reaches
level 5 and stops, with experience 24 it stays as it is. -/
theorem C4_level_threshold_witness :
    1 ≤ 4 ∧ 4 ≤ 858993459 ∧ 4 ≤ 858993458
      ∧ ({ levelFourCreature with exp := 25 } : Creature).exp
          = 5 * ((4 : Nat) : ℚ) + 5 * (((4 / 3 : Nat) : ℚ)) ^ 2
      ∧ ({ levelFourCreature with exp := 24 } : Creature).exp
          = 5 * ((4 : Nat) : ℚ) + 5 * (((4 / 3 : Nat) : ℚ)) ^ 2 - 1
      ∧ (levelUpLoop sampleExt.log { levelFourCreature with exp := 25 }).level = 4 + 1
      ∧ levelled (levelUpLoop sampleExt.log { levelFourCreature with exp := 25 }) = true
      ∧ levelUpLoop sampleExt.log { levelFourCreature with exp := 24 }
          = { levelFourCreature with exp := 24 } :=
  ⟨by decide, by decide, by decide, by decide!, by decide!,
    ((C4_level_threshold sampleExt.log { levelFourCreature with exp := 25 } 4
      (by decide) (by decide) rfl).1 (by decide) (by decide!)).2.1,
    ((C4_level_threshold sampleExt.log { levelFourCreature with exp := 25 } 4
      (by decide) (by decide) rfl).1 (by decide) (by decide!)).2.2,
    ((C4_level_threshold sampleExt.log { levelFourCreature with exp := 24 } 4
      (by decide) (by decide) rfl).2 (by decide!)).1⟩

/-! ## C7: hitroll and defense -/

theorem getHitroll_eq (log : ℚ → ℚ) (c : Creature) (r : ℚ) :
    getHitroll log c r
      = (1 + slotDamage c.weaponL r + slotDamage c.weaponR r)
          * log (log ((c.level : ℚ) + 1) + 1) := by
  unfold getHitroll slotDamage
  cases hL : c.weaponL <;> cases hR : c.weaponR <;> simp only [] <;>
    (try split_ifs) <;> ring

theorem getDefense_eq (c : Creature) :
    getDefense c = 3 + slotDefense c.weaponL + slotDefense c.weaponR := by
  unfold getDefense slotDefense
  cases hL : c.weaponL <;> cases hR : c.weaponR <;> simp only [] <;> ring

/-- C7: for every level and every range `r`, `getHitroll(r)` is
`(1 + [left present and left.range ≥ r]·left.damage + [right present and
right.range ≥ r]·right.damage) · log(log(level+1)+1)` and `getDefense()` is
`3 + left.defense + right.defense`, an absent weapon contributing 0 to both. -/
theorem C7_hitroll_defense (log : ℚ → ℚ) (c : Creature) (r : ℚ) :
    getHitroll log c r
        = (1 + slotDamage c.weaponL r + slotDamage c.weaponR r)
            * log (log ((c.level : ℚ) + 1) + 1)
      ∧ getDefense c = 3 + slotDefense c.weaponL + slotDefense c.weaponR :=
  ⟨getHitroll_eq log c r, getDefense_eq c⟩

/-! ## C5 and C6: one resolved attack -/

theorem damageDone_eq_max (log : ℚ → ℚ) (c : Creature) (defense u1 u2 : ℚ) :
    damageDone log c defense u1 u2 = max 0 (getHitroll log c 0 * u1 - u2 ^ 2 * defense) := by
  unfold damageDone
  show (if getHitroll log c 0 * u1 - u2 ^ 2 * defense < 0 then 0
      else getHitroll log c 0 * u1 - u2 ^ 2 * defense) = _
  split_ifs with h
  · exact (max_eq_left (le_of_lt h)).symm
  · exact (max_eq_right (not_lt.mp h)).symm

theorem damageDone_nonneg (log : ℚ → ℚ) (c : Creature) (defense u1 u2 : ℚ) :
    0 ≤ damageDone log c defense u1 u2 := by
  rw [damageDone_eq_max]
  exact le_max_left _ _

theorem setObject_same (W : World) (i : Nat) (o : AttackableObject) :
    (W.setObject i o).object i = o := by
  simp [World.setObject]

theorem setObject_other (W : World) (i j : Nat) (o : AttackableObject) (h : j ≠ i) :
    (W.setObject i o).object j = W.object j := by
  simp [World.setObject, h]

/-- The step `attackObject` takes when an enemy is reachable and one is in range. -/
theorem evalAttackObject_inRange (X : Ext) (W : World) (E : Env) (c : Creature)
    (rest : List ActionType) (target : Nat) (others : List Nat)
    (hreach : c.reachableEnemyObjects ≠ [])
    (hin : c.enemyObjectsInRange = target :: others) :
    evalAttackObject X W E c rest
      = Step.next
          { (resolveAttack X c (W.object target) (randomDouble 0 1 E.hitDraw)
              (randomDouble 0 (4 / 10) E.defenseDraw)).attacker with
            actionQueue :=
              if randomDouble 0 1 E.breakOffDraw ≤ 6 / 10 then rest
              else ActionType.attackObject :: rest }
          (W.setObject target
            (resolveAttack X c (W.object target) (randomDouble 0 1 E.hitDraw)
              (randomDouble 0 (4 / 10) E.defenseDraw)).defender)
          false := by
  unfold evalAttackObject
  have h0 : ¬ (c.reachableEnemyObjects.length = 0) := by
    intro h
    exact hreach (List.length_eq_zero.mp h)
  simp only [h0, if_false, hin]

/-- C5: when `attackObject` is evaluated with at least one reachable enemy and at
least one enemy in range, and the unit draws behind `randomDouble(0.0, 1.0)` and
`randomDouble(0.0, 0.4)` lie in `[0, 1)`, the injected values `u1`, `u2` lie in
`[0, 1)` and `[0, 0.4)`, the evaluation ends the tick, the damage dealt to the first
in-range enemy is `max(0, getHitroll(0)*u1 - u2^2*defense)`, which is never negative,
the defender's health becomes exactly its previous health minus that damage (no clamp
at zero), no other object is touched, and for a creature defender
`defense = 3 + leftDefense + rightDefense`. -/
theorem C5_attack_damage (X : Ext) (W : World) (E : Env) (c : Creature)
    (rest : List ActionType) (target : Nat) (others : List Nat)
    (hreach : c.reachableEnemyObjects ≠ [])
    (hin : c.enemyObjectsInRange = target :: others)
    (h1 : 0 ≤ E.hitDraw ∧ E.hitDraw < 1) (h2 : 0 ≤ E.defenseDraw ∧ E.defenseDraw < 1) :
    (0 ≤ randomDouble 0 1 E.hitDraw ∧ randomDouble 0 1 E.hitDraw < 1)
      ∧ (0 ≤ randomDouble 0 (4 / 10) E.defenseDraw
          ∧ randomDouble 0 (4 / 10) E.defenseDraw < 4 / 10)
      ∧ (∃ c1 W1, evalAttackObject X W E c rest = Step.next c1 W1 false
          ∧ (W1.object target).hp
              = (W.object target).hp
                - max 0 (getHitroll X.log c 0 * randomDouble 0 1 E.hitDraw
                    - (randomDouble 0 (4 / 10) E.defenseDraw) ^ 2 * (W.object target).defense)
          ∧ (∀ j, j ≠ target → W1.object j = W.object j))
      ∧ 0 ≤ max 0 (getHitroll X.log c 0 * randomDouble 0 1 E.hitDraw
                    - (randomDouble 0 (4 / 10) E.defenseDraw) ^ 2 * (W.object target).defense)
      ∧ (∀ (dc : Creature) (t : Pos), W.object target = dc.toObject t →
          (W.object target).defense = 3 + slotDefense dc.weaponL + slotDefense dc.weaponR) := by
  refine ⟨?_, ?_, ?_, le_max_left _ _, ?_⟩
  · unfold randomDouble
    constructor <;> linarith [h1.1, h1.2]
  · unfold randomDouble
    constructor <;> linarith [h2.1, h2.2]
  · refine ⟨_, _, evalAttackObject_inRange X W E c rest target others hreach hin, ?_, ?_⟩
    · rw [setObject_same, ← damageDone_eq_max]
      rfl
    · intro j hj
      exact setObject_other W target j _ hj
  · intro dc t hobj
    rw [hobj]
    exact getDefense_eq dc

/-- C5 at the level-3 sword fighter attacking object 0 with both unit draws 1/2. -/
theorem C5_attack_damage_witness :
    fighter.reachableEnemyObjects ≠ []
      ∧ fighter.enemyObjectsInRange = 0 :: []
      ∧ (0 ≤ sampleEnv.hitDraw ∧ sampleEnv.hitDraw < 1)
      ∧ (0 ≤ sampleEnv.defenseDraw ∧ sampleEnv.defenseDraw < 1)
      ∧ (∃ c1 W1,
          evalAttackObject sampleExt sampleWorld sampleEnv fighter [ActionType.idle]
            = Step.next c1 W1 false
          ∧ (W1.object 0).hp
              = (sampleWorld.object 0).hp
                - max 0 (getHitroll sampleExt.log fighter 0 * randomDouble 0 1 sampleEnv.hitDraw
                    - (randomDouble 0 (4 / 10) sampleEnv.defenseDraw) ^ 2
                      * (sampleWorld.object 0).defense)
          ∧ (∀ j, j ≠ 0 → W1.object j = sampleWorld.object j)) :=
  ⟨by decide, rfl, by decide!, by decide!,
    (C5_attack_damage sampleExt sampleWorld sampleEnv fighter [ActionType.idle] 0 []
      (by decide) rfl (by decide!) (by decide!)).2.2.1⟩

theorem attackerExp_ge (base : ℚ) (a b : Nat) (h : b ≥ a) :
    attackerExp base a b = base * (1 + ((b : ℚ) - (a : ℚ)) / 10) := by
  unfold attackerExp
  simp only [h, if_true]
  rw [Nat.cast_sub h]

theorem attackerExp_lt (base : ℚ) (a b : Nat) (h : b < a) :
    attackerExp base a b = base / (1 + ((a : ℚ) - (b : ℚ)) / 10) := by
  unfold attackerExp
  have h1 : ¬ (b ≥ a) := Nat.not_le.mpr h
  simp only [h1, if_false]
  rw [Nat.cast_sub (Nat.le_of_lt h)]

/-- C6: for one resolved attack (at least one reachable enemy, at least one enemy in
range) with damage `d ≥ 0`, attacker level `a` and defender level `b`: with
`base = 1 + 0.2*powl(d, 1.3)` the defender's experience increases by exactly
`0.15*base`; the attacker's experience increases by `base*(1 + (b-a)/10)` if `b ≥ a`
and by `base/(1 + (a-b)/10)` otherwise; at equal levels the attacker gains exactly
`base`; and at `d = 0` the base is 1 (for a `powl` with `powl(0, 1.3) = 0`). -/
theorem C6_attack_experience (X : Ext) (W : World) (E : Env) (c : Creature)
    (rest : List ActionType) (target : Nat) (others : List Nat)
    (hreach : c.reachableEnemyObjects ≠ [])
    (hin : c.enemyObjectsInRange = target :: others) :
    ∃ d base : ℚ, ∃ c1 W1,
      d = damageDone X.log c (W.object target).defense (randomDouble 0 1 E.hitDraw)
            (randomDouble 0 (4 / 10) E.defenseDraw)
      ∧ 0 ≤ d
      ∧ base = 1 + 2 / 10 * X.powl d (13 / 10)
      ∧ evalAttackObject X W E c rest = Step.next c1 W1 false
      ∧ (W1.object target).exp = (W.object target).exp + 15 / 100 * base
      ∧ ((W.object target).level ≥ c.level →
          c1.exp = c.exp + base * (1 + (((W.object target).level : ℚ) - (c.level : ℚ)) / 10))
      ∧ ((W.object target).level < c.level →
          c1.exp = c.exp + base / (1 + ((c.level : ℚ) - ((W.object target).level : ℚ)) / 10))
      ∧ ((W.object target).level = c.level → c1.exp = c.exp + base)
      ∧ (d = 0 → X.powl 0 (13 / 10) = 0 → base = 1) := by
  refine ⟨_, _, _, _, rfl, damageDone_nonneg _ _ _ _ _, rfl,
    evalAttackObject_inRange X W E c rest target others hreach hin, ?_, ?_, ?_, ?_, ?_⟩
  · rw [setObject_same]
    rfl
  · intro h
    show c.exp + attackerExp _ c.level (W.object target).level = _
    rw [attackerExp_ge _ _ _ h]
    rfl
  · intro h
    show c.exp + attackerExp _ c.level (W.object target).level = _
    rw [attackerExp_lt _ _ _ h]
    rfl
  · intro h
    show c.exp + attackerExp _ c.level (W.object target).level = _
    rw [attackerExp_ge _ _ _ (le_of_eq h.symm), h]
    simp [expBase]
  · intro hd hp
    rw [hd, hp]
    norm_num

/-- C6 at the level-3 sword fighter attacking the level-1 object 0 with both unit
draws 1/2. -/
theorem C6_attack_experience_witness :
    fighter.reachableEnemyObjects ≠ []
      ∧ fighter.enemyObjectsInRange = 0 :: []
      ∧ (∃ d base : ℚ, ∃ c1 W1,
          d = damageDone sampleExt.log fighter (sampleWorld.object 0).defense
                (randomDouble 0 1 sampleEnv.hitDraw)
                (randomDouble 0 (4 / 10) sampleEnv.defenseDraw)
          ∧ 0 ≤ d
          ∧ base = 1 + 2 / 10 * sampleExt.powl d (13 / 10)
          ∧ evalAttackObject sampleExt sampleWorld sampleEnv fighter [ActionType.idle]
              = Step.next c1 W1 false
          ∧ (W1.object 0).exp = (sampleWorld.object 0).exp + 15 / 100 * base
          ∧ ((sampleWorld.object 0).level ≥ fighter.level →
              c1.exp = fighter.exp
                + base * (1 + (((sampleWorld.object 0).level : ℚ) - (fighter.level : ℚ)) / 10))
          ∧ ((sampleWorld.object 0).level < fighter.level →
              c1.exp = fighter.exp
                + base / (1 + ((fighter.level : ℚ) - ((sampleWorld.object 0).level : ℚ)) / 10))
          ∧ ((sampleWorld.object 0).level = fighter.level → c1.exp = fighter.exp + base)
          ∧ (d = 0 → sampleExt.powl 0 (13 / 10) = 0 → base = 1)) :=
  ⟨by decide, rfl,
    C6_attack_experience sampleExt sampleWorld sampleEnv fighter [ActionType.idle] 0 []
      (by decide) rfl⟩

/-! ## C8 and C9: the battlefield -/

theorem randomDouble_zero_jitter (u : ℚ) : randomDouble (-1 * 0) 0 u = 0 := by
  unfold randomDouble
  ring

theorem Field.get_set (f : Field) (t p : Pos) (v : ℚ) :
    Field.get (Field.set f t v) p = if p = t then some v else Field.get f p := by
  obtain ⟨l⟩ := f
  unfold Field.get Field.set
  simp only []
  induction l with
  | nil =>
    by_cases h : p = t
    · subst h
      simp [Field.setEntries]
    · have h' : ¬ (t = p) := fun e => h e.symm
      simp [Field.setEntries, h, h']
  | cons e rest ih =>
    obtain ⟨q, w⟩ := e
    by_cases hqt : q = t
    · subst hqt
      by_cases hp : p = q
      · subst hp
        simp [Field.setEntries]
      · have hp' : ¬ (q = p) := fun e => hp e.symm
        simp [Field.setEntries, hp, hp']
    · by_cases hqp : q = p
      · subst hqp
        simp [Field.setEntries, hqt]
      · simp only [Field.setEntries, hqt, if_false, List.find?_cons, hqp, decide_False]
        exact ih

theorem battlefieldLoop_eq_foldl (sqrt : ℚ → ℚ) (jd : Nat → ℚ) (W : World) (c : Creature)
    (tiles : List Pos) :
    ∀ (i : Nat) (f : Field),
      battlefieldLoop sqrt jd W c tiles i f
        = tiles.foldl (fun f t => Field.set f t (tileValue sqrt W c t * (1 / 2))) f := by
  induction tiles with
  | nil => intro i f; rfl
  | cons t rest ih =>
    intro i f
    simp only [battlefieldLoop, List.foldl_cons]
    rw [ih, randomDouble_zero_jitter, add_zero]

theorem get_foldl_set (g : Pos → ℚ) (tiles : List Pos) (p : Pos) :
    ∀ f : Field,
      Field.get (tiles.foldl (fun f t => Field.set f t (g t)) f) p
        = if p ∈ tiles then some (g p) else Field.get f p := by
  induction tiles with
  | nil => intro f; simp
  | cons t rest ih =>
    intro f
    rw [List.foldl_cons, ih, Field.get_set]
    by_cases hr : p ∈ rest
    · simp [hr]
    · by_cases hpt : p = t
      · subst hpt
        simp [hr]
      · simp [hr, hpt]

theorem foldl_sub_eq_sum (g : Nat → ℚ) (l : List Nat) :
    ∀ init : ℚ, l.foldl (fun v j => v - g j) init = init + (l.map (fun j => -(g j))).sum := by
  induction l with
  | nil => intro init; simp
  | cons a rest ih =>
    intro init
    rw [List.foldl_cons, ih, List.map_cons, List.sum_cons]
    ring

theorem foldl_add_eq_sum (g : Nat → ℚ) (l : List Nat) :
    ∀ init : ℚ, l.foldl (fun v j => v + g j) init = init + (l.map g).sum := by
  induction l with
  | nil => intro init; simp
  | cons a rest ih =>
    intro init
    rw [List.foldl_cons, ih, List.map_cons, List.sum_cons]
    ring

theorem tileValue_eq_spec (sqrt : ℚ → ℚ) (W : World) (c : Creature) (t : Pos) :
    tileValue sqrt W c t * (1 / 2) = specScore sqrt W c t := by
  have hsq : ∀ t2 : Pos,
      (((t.1 - t2.1) * (t.1 - t2.1) + (t.2 - t2.2) * (t.2 - t2.2) + 1 : Int) : ℚ)
        = (((t.1 - t2.1) ^ 2 + (t.2 - t2.2) ^ 2 + 1 : Int) : ℚ) := by
    intro t2
    congr 1
    ring
  unfold tileValue specScore invDist
  simp only [hsq]
  rw [foldl_add_eq_sum (fun j =>
      1 / 2 / sqrt ((((t.1 - (W.object j).coveredTile.1) ^ 2
        + (t.2 - (W.object j).coveredTile.2) ^ 2 + 1 : Int) : ℚ))),
    foldl_sub_eq_sum (fun j =>
      1 / sqrt ((((t.1 - (W.object j).coveredTile.1) ^ 2
        + (t.2 - (W.object j).coveredTile.2) ^ 2 + 1 : Int) : ℚ)))]
  have hmap : (c.visibleAlliedObjects.map (fun j =>
      1 / 2 / sqrt ((((t.1 - (W.object j).coveredTile.1) ^ 2
        + (t.2 - (W.object j).coveredTile.2) ^ 2 + 1 : Int) : ℚ))))
      = c.visibleAlliedObjects.map (fun j =>
      1 / 2 * (1 / sqrt ((((t.1 - (W.object j).coveredTile.1) ^ 2
        + (t.2 - (W.object j).coveredTile.2) ^ 2 + 1 : Int) : ℚ)))) := by
    apply List.map_congr_left
    intro j _
    ring
  rw [hmap]
  ring

theorem computeBattlefield_get (sqrt : ℚ → ℚ) (jd : Nat → ℚ) (W : World) (c : Creature)
    (p : Pos) :
    (computeBattlefield sqrt jd W c).battleField.get p
      = if p ∈ c.visibleTiles then some (specScore sqrt W c p) else none := by
  show Field.get (battlefieldLoop sqrt jd W c c.visibleTiles 0 (Field.clear c.battleField)) p = _
  rw [battlefieldLoop_eq_foldl,
    get_foldl_set (fun t => tileValue sqrt W c t * (1 / 2)) c.visibleTiles p]
  simp only [tileValue_eq_spec]
  rfl

/-- C8: after `computeBattlefield`, for every visible tile `t` the stored score is
`0.5 * (Σ over reachable enemies of -1/√(dx²+dy²+1) + Σ over visible allies of
+0.5/√(dx²+dy²+1))`, with `dx`, `dy` the integer coordinate differences between `t`
and the object's first covered tile; a tile that is not visible has no entry,
whatever the field held before. -/
theorem C8_battlefield_scores (sqrt : ℚ → ℚ) (jd : Nat → ℚ) (W : World) (c : Creature) :
    (∀ t, t ∈ c.visibleTiles →
        (computeBattlefield sqrt jd W c).battleField.get t = some (specScore sqrt W c t))
      ∧ (∀ t, t ∉ c.visibleTiles →
        (computeBattlefield sqrt jd W c).battleField.get t = none) := by
  constructor
  · intro t ht
    rw [computeBattlefield_get]
    simp [ht]
  · intro t ht
    rw [computeBattlefield_get]
    simp [ht]

/-- C8 at the scout: the visible tile (1, 0) gets its score, the tile (9, 9) of the
earlier field has no entry left. -/
theorem C8_battlefield_scores_witness :
    ((1, 0) : Pos) ∈ scout.visibleTiles
      ∧ ((9, 9) : Pos) ∉ scout.visibleTiles
      ∧ (computeBattlefield sampleExt.sqrt sampleEnv.jitterDraw sampleWorld scout).battleField.get
          (1, 0) = some (specScore sampleExt.sqrt sampleWorld scout (1, 0))
      ∧ (computeBattlefield sampleExt.sqrt sampleEnv.jitterDraw sampleWorld scout).battleField.get
          (9, 9) = none :=
  ⟨by decide, by decide,
    (C8_battlefield_scores sampleExt.sqrt sampleEnv.jitterDraw sampleWorld scout).1 (1, 0)
      (by decide),
    (C8_battlefield_scores sampleExt.sqrt sampleEnv.jitterDraw sampleWorld scout).2 (9, 9)
      (by decide)⟩

/-- C9: `computeBattlefield` is idempotent for unchanged perception: running it twice
in succession (with any draws) leaves the same creature state as running it once,
and the resulting grid depends neither on the grid's previous contents nor on the
random draws. -/
theorem C9_battlefield_idempotent (sqrt : ℚ → ℚ) (jd jd1 : Nat → ℚ) (W : World)
    (c : Creature) (f : Field) :
    computeBattlefield sqrt jd1 W (computeBattlefield sqrt jd W c)
        = computeBattlefield sqrt jd W c
      ∧ (computeBattlefield sqrt jd1 W { c with battleField := f }).battleField
        = (computeBattlefield sqrt jd W c).battleField := by
  constructor
  · show ({ computeBattlefield sqrt jd W c with
        battleField := battlefieldLoop sqrt jd1 W (computeBattlefield sqrt jd W c)
          (computeBattlefield sqrt jd W c).visibleTiles 0
          (Field.clear (computeBattlefield sqrt jd W c).battleField) } : Creature)
      = computeBattlefield sqrt jd W c
    have h : battlefieldLoop sqrt jd1 W (computeBattlefield sqrt jd W c)
          (computeBattlefield sqrt jd W c).visibleTiles 0
          (Field.clear (computeBattlefield sqrt jd W c).battleField)
        = (computeBattlefield sqrt jd W c).battleField := by
      rw [battlefieldLoop_eq_foldl]
      show c.visibleTiles.foldl
          (fun f t => Field.set f t (tileValue sqrt W c t * (1 / 2))) (Field.clear _) = _
      show _ = battlefieldLoop sqrt jd W c c.visibleTiles 0 (Field.clear c.battleField)
      rw [battlefieldLoop_eq_foldl]
      rfl
    rw [h]
  · show battlefieldLoop sqrt jd1 W { c with battleField := f } c.visibleTiles 0 (Field.clear f)
      = battlefieldLoop sqrt jd W c c.visibleTiles 0 (Field.clear c.battleField)
    rw [battlefieldLoop_eq_foldl, battlefieldLoop_eq_foldl]
    rfl

/-! ## C10: digging out a marked neighbour -/

theorem truncToInt_zero : truncToInt 0 = 0 := by
  unfold truncToInt
  simp

/-- Truncation leaves whole numbers as they are. -/
theorem truncToInt_intCast (z : Int) : truncToInt (z : ℚ) = z := by
  unfold truncToInt
  split_ifs
  · exact Int.floor_intCast z
  · exact Int.ceil_intCast z

theorem setTile_same (W : World) (p : Pos) (t : Tile) : (W.setTile p t).tile p = t := by
  simp [World.setTile]

/-- C10, as stated, fails: a worker with dig rate 10 and 1400 gold stands next to a
gold tile of fullness 5 marked by its player, the first abandonment draw does not
fire, and one `digTile` evaluation leaves `depositGold`, not `walkToTile`, on top of
the queue (the dig brings the carried gold to 1525, above the capacity 1500). -/
theorem C10_counterexample :
    sampleEnv.hasPlayer = true
      ∧ (sampleEnv.neighborTilesXY goldDigger.posX goldDigger.posY).find?
          (fun q => (goldWorld.tile q).marked) = some (1, 0)
      ∧ (0 < (goldWorld.tile (1, 0)).fullness
          ∧ ((goldWorld.tile (1, 0)).fullness : ℚ) ≤ goldDigger.digRate)
      ∧ ¬ (randomDouble 0 1 sampleEnv.stopDraw
            < 1 / 2 - 2 / 10 * (digSnapshot.markedTiles.length : ℚ))
      ∧ (evalAction sampleExt goldWorld sampleEnv digSnapshot goldDigger ActionType.digTile
            [ActionType.idle]).queue
          = some [ActionType.depositGold, ActionType.idle] := by
  refine ⟨rfl, by decide!, by decide!, by decide!, by decide!⟩

/-- C10 (amended): for every agent with `digTile` on top, a controlling player and
dig rate `d`, whose first neighbour tile (in scan order) marked for digging by that
player is `p`, of any type, with fullness `f` where `0 < f ≤ d`, whenever the first
abandonment draw does not fire and the gold carried after the dig (`25*f` more when
`p` is a gold tile) stays below `maxGoldCarriedByWorkers`, one `digTile` evaluation
ends the tick, leaves `p` with fullness 0 and type dirt, increases the agent's
experience by exactly 2, and leaves `walkToTile` on top of the queue in place of
`digTile` with the entries below unchanged. -/
theorem C10_dig_out (X : Ext) (W : World) (E : Env) (S : Snapshot) (c : Creature)
    (rest : List ActionType) (p : Pos)
    (hplayer : E.hasPlayer = true)
    (hfirst : (E.neighborTilesXY c.posX c.posY).find? (fun q => (W.tile q).marked) = some p)
    (hf : 0 < (W.tile p).fullness ∧ ((W.tile p).fullness : ℚ) ≤ c.digRate)
    (hdraw : ¬ (randomDouble 0 1 E.stopDraw
        < 1 / 2 - 2 / 10 * (S.markedTiles.length : ℚ)))
    (hgold : (if (W.tile p).type = TileType.gold
        then c.gold + 25 * ((W.tile p).fullness : ℚ) else c.gold)
          < X.maxGoldCarriedByWorkers) :
    ∃ c1 W1, evalAction X W E S c ActionType.digTile rest = Step.next c1 W1 false
      ∧ (W1.tile p).fullness = 0
      ∧ (W1.tile p).type = TileType.dirt
      ∧ c1.exp = c.exp + 2
      ∧ c1.actionQueue = ActionType.walkToTile :: rest := by
  have hfind : (E.neighborTilesXY c.posX c.posY).find?
      (fun q => E.hasPlayer && (W.tile q).marked) = some p := by
    rw [hplayer]
    simpa using hfirst
  have hmax : max (0 : ℚ) (((W.tile p).fullness : ℚ) - c.digRate) = 0 :=
    max_eq_left (by linarith [hf.2])
  have hmin : min c.digRate ((W.tile p).fullness : ℚ) = ((W.tile p).fullness : ℚ) :=
    min_eq_right hf.2
  have hsum : truncToInt ((c.gold : ℚ) + 25 * min c.digRate ((W.tile p).fullness : ℚ))
      = c.gold + 25 * (W.tile p).fullness := by
    rw [hmin]
    have hcast : (c.gold : ℚ) + 25 * ((W.tile p).fullness : ℚ)
        = ((c.gold + 25 * (W.tile p).fullness : Int) : ℚ) := by
      push_cast
      ring
    rw [hcast, truncToInt_intCast]
  have hgold1 : ¬ ((((if (W.tile p).type = TileType.gold
      then truncToInt ((c.gold : ℚ) + 25 * min c.digRate ((W.tile p).fullness : ℚ))
      else c.gold) : Int) : ℚ) ≥ X.maxGoldCarriedByWorkers) := by
    rw [hsum]
    by_cases hg : (W.tile p).type = TileType.gold
    · rw [if_pos hg] at hgold ⊢
      push_cast
      exact not_le.mpr hgold
    · rw [if_neg hg] at hgold ⊢
      exact not_le.mpr hgold
  have hev : evalDigTile X W E S c rest
      = Step.next
          { recieveExp { c with gold := (if (W.tile p).type = TileType.gold
                then truncToInt ((c.gold : ℚ) + 25 * min c.digRate ((W.tile p).fullness : ℚ))
                else c.gold) } 2 with
            walkQueue := E.addDestination c.walkQueue p.1 p.2
            actionQueue := ActionType.walkToTile :: rest }
          ((W.setTile p { W.tile p with fullness := 0 }).setTile p
            { (W.setTile p { W.tile p with fullness := 0 }).tile p with type := TileType.dirt })
          false := by
    unfold evalDigTile
    simp only [hdraw, if_false, hfind, hmax, truncToInt_zero, if_true]
    have h2 : ¬ (((recieveExp { c with gold := (if (W.tile p).type = TileType.gold
        then truncToInt ((c.gold : ℚ) + 25 * min c.digRate ((W.tile p).fullness : ℚ))
        else c.gold) } 2).gold : ℚ) ≥ X.maxGoldCarriedByWorkers) := hgold1
    rw [if_neg h2]
  exact ⟨_, _, hev, by simp [World.setTile], by simp [World.setTile], rfl, rfl⟩

/-- C10 (amended) at the spec's case: dig rate 10, a marked dirt tile of fullness 5
at (1, 0), no gold carried. -/
theorem C10_dig_out_witness :
    sampleEnv.hasPlayer = true
      ∧ (sampleEnv.neighborTilesXY digger.posX digger.posY).find?
          (fun q => (dirtWorld.tile q).marked) = some (1, 0)
      ∧ (0 < (dirtWorld.tile (1, 0)).fullness
          ∧ ((dirtWorld.tile (1, 0)).fullness : ℚ) ≤ digger.digRate)
      ∧ ¬ (randomDouble 0 1 sampleEnv.stopDraw
            < 1 / 2 - 2 / 10 * (digSnapshot.markedTiles.length : ℚ))
      ∧ (if (dirtWorld.tile (1, 0)).type = TileType.gold
            then digger.gold + 25 * ((dirtWorld.tile (1, 0)).fullness : ℚ) else digger.gold)
          < sampleExt.maxGoldCarriedByWorkers
      ∧ (∃ c1 W1,
          evalAction sampleExt dirtWorld sampleEnv digSnapshot digger ActionType.digTile
              [ActionType.idle] = Step.next c1 W1 false
          ∧ (W1.tile (1, 0)).fullness = 0
          ∧ (W1.tile (1, 0)).type = TileType.dirt
          ∧ c1.exp = digger.exp + 2
          ∧ c1.actionQueue = ActionType.walkToTile :: [ActionType.idle]) :=
  ⟨rfl, by decide!, by decide!, by decide!, by decide!,
    C10_dig_out sampleExt dirtWorld sampleEnv digSnapshot digger [ActionType.idle] (1, 0)
      rfl (by decide!) (by decide!) (by decide!) (by decide!)⟩

/-! ## C1: the action queue is never empty -/

theorem evalIdle_hasIdle (X : Ext) (W : World) (E : Env) (c : Creature)
    (rest : List ActionType) (hq : c.actionQueue = ActionType.idle :: rest) :
    Step.Holds HasIdle (evalIdle X W E c rest) := by
  unfold evalIdle
  simp only []
  split_ifs <;> simp [Step.Holds, HasIdle, hq]

theorem evalWalkToTile_hasIdle (W : World) (E : Env) (c : Creature)
    (rest : List ActionType) (hq : c.actionQueue = ActionType.walkToTile :: rest)
    (hi : ActionType.idle ∈ rest) :
    Step.Holds HasIdle (evalWalkToTile W E c rest) := by
  unfold evalWalkToTile
  cases rest with
  | nil => simp [Step.Holds]
  | cons below tail =>
    simp only []
    split_ifs <;> simp [Step.Holds, HasIdle, hq, hi]

theorem evalClaimTile_hasIdle (W : World) (E : Env) (S : Snapshot) (c : Creature)
    (rest : List ActionType) (hq : c.actionQueue = ActionType.claimTile :: rest)
    (hi : ActionType.idle ∈ rest) :
    Step.Holds HasIdle (evalClaimTile W E S c rest) := by
  unfold evalClaimTile
  try simp only []
  repeat' split
  all_goals simp [Step.Holds, HasIdle, hq, hi]

theorem digSearch_hasIdle (W : World) (E : Env) (S : Snapshot) (c : Creature)
    (top : ActionType) (rest : List ActionType) (hi : ActionType.idle ∈ rest) :
    Step.Holds HasIdle (digSearch W E S c top rest) := by
  unfold digSearch
  try simp only []
  repeat' split
  all_goals simp [Step.Holds, HasIdle, hi]

theorem evalDigTile_hasIdle (X : Ext) (W : World) (E : Env) (S : Snapshot) (c : Creature)
    (rest : List ActionType) (hq : c.actionQueue = ActionType.digTile :: rest)
    (hi : ActionType.idle ∈ rest) :
    Step.Holds HasIdle (evalDigTile X W E S c rest) := by
  unfold evalDigTile
  try simp only []
  repeat' split
  all_goals first
    | exact digSearch_hasIdle _ _ _ _ _ _ hi
    | simp [Step.Holds, HasIdle, hq, hi, recieveExp]

theorem evalDepositGold_hasIdle (X : Ext) (W : World) (E : Env) (c : Creature)
    (rest : List ActionType) (hq : c.actionQueue = ActionType.depositGold :: rest)
    (hi : ActionType.idle ∈ rest) :
    Step.Holds HasIdle (evalDepositGold X W E c rest) := by
  unfold evalDepositGold
  try simp only []
  repeat' split
  all_goals simp [Step.Holds, HasIdle, hq, hi]

theorem evalFindHome_hasIdle (W : World) (E : Env) (c : Creature)
    (rest : List ActionType) (hq : c.actionQueue = ActionType.findHome :: rest)
    (hi : ActionType.idle ∈ rest) :
    Step.Holds HasIdle (evalFindHome W E c rest) := by
  unfold evalFindHome
  try simp only []
  repeat' split
  all_goals simp [Step.Holds, HasIdle, hq, hi]

theorem evalAttackObject_hasIdle (X : Ext) (W : World) (E : Env) (c : Creature)
    (rest : List ActionType) (hi : ActionType.idle ∈ rest) :
    Step.Holds HasIdle (evalAttackObject X W E c rest) := by
  unfold evalAttackObject
  try simp only []
  repeat' split
  all_goals simp [Step.Holds, HasIdle, hi]

theorem maneuverMove_hasIdle (X : Ext) (W : World) (E : Env) (S : Snapshot) (c : Creature)
    (walkQueue : List Pos) (rest : List ActionType) (hi : ActionType.idle ∈ rest) :
    Step.Holds HasIdle (maneuverMove X W E S c walkQueue rest) := by
  unfold maneuverMove
  try simp only []
  repeat' split
  all_goals simp [Step.Holds, HasIdle, hi]

theorem evalManeuver_hasIdle (X : Ext) (W : World) (E : Env) (S : Snapshot) (c : Creature)
    (rest : List ActionType) (hi : ActionType.idle ∈ rest) :
    Step.Holds HasIdle (evalManeuver X W E S c rest) := by
  unfold evalManeuver
  try simp only []
  repeat' split
  all_goals first
    | exact maneuverMove_hasIdle _ _ _ _ _ _ _ hi
    | simp [Step.Holds, HasIdle, hi]

/-- Every pass through the switch keeps the idle entry in the queue. -/
theorem evalAction_hasIdle (X : Ext) (W : World) (E : Env) (S : Snapshot) (c : Creature)
    (a : ActionType) (rest : List ActionType) (hq : c.actionQueue = a :: rest)
    (hc : HasIdle c) :
    Step.Holds HasIdle (evalAction X W E S c a rest) := by
  have hmem : a = ActionType.idle ∨ ActionType.idle ∈ rest := by
    unfold HasIdle at hc
    rw [hq] at hc
    rcases List.mem_cons.mp hc with h | h
    · exact Or.inl h.symm
    · exact Or.inr h
  cases a with
  | idle => exact evalIdle_hasIdle X W E c rest hq
  | walkToTile =>
    exact evalWalkToTile_hasIdle W E c rest hq (hmem.resolve_left (by decide))
  | claimTile =>
    exact evalClaimTile_hasIdle W E S c rest hq (hmem.resolve_left (by decide))
  | digTile =>
    exact evalDigTile_hasIdle X W E S c rest hq (hmem.resolve_left (by decide))
  | depositGold =>
    exact evalDepositGold_hasIdle X W E c rest hq (hmem.resolve_left (by decide))
  | findHome =>
    exact evalFindHome_hasIdle W E c rest hq (hmem.resolve_left (by decide))
  | attackObject =>
    exact evalAttackObject_hasIdle X W E c rest (hmem.resolve_left (by decide))
  | maneuver =>
    exact evalManeuver_hasIdle X W E S c rest (hmem.resolve_left (by decide))

/-- The dispatch loop never reaches its empty-queue branch from a queue holding idle,
and every state it produces still holds idle. -/
theorem dispatchLoop_hasIdle (X : Ext) (S : Snapshot) (envs : Nat → Env) (fuel : Nat) :
    ∀ (i : Nat) (c : Creature) (W : World), HasIdle c →
      dispatchLoop X S envs fuel i c W ≠ Outcome.emptyQueue
        ∧ ∀ q, (dispatchLoop X S envs fuel i c W).queue = some q → ActionType.idle ∈ q := by
  induction fuel with
  | zero =>
    intro i c W hc
    refine ⟨by simp [dispatchLoop], ?_⟩
    intro q hq
    simp only [dispatchLoop, Outcome.queue, Option.some.injEq] at hq
    rw [← hq]
    exact hc
  | succ n ih =>
    intro i c W hc
    cases hqueue : c.actionQueue with
    | nil =>
      unfold HasIdle at hc
      rw [hqueue] at hc
      exact absurd hc (List.not_mem_nil _)
    | cons a rest =>
      have hstep := evalAction_hasIdle X W (envs i) S c a rest hqueue hc
      simp only [dispatchLoop, hqueue]
      cases hev : evalAction X W (envs i) S c a rest with
      | undefined =>
        refine ⟨by simp, ?_⟩
        intro q hq
        simp [Outcome.queue] at hq
      | next c1 W1 lb =>
        rw [hev] at hstep
        cases lb with
        | true => exact ih (i + 1) c1 W1 hstep
        | false =>
          refine ⟨by simp, ?_⟩
          intro q hq
          simp only [Outcome.queue, Option.some.injEq] at hq
          rw [← hq]
          exact hstep

theorem perceive_actionQueue (W : World) (T : TickEnv) (c c1 : Creature) (S : Snapshot)
    (h : perceive W T c = some (c1, S)) : c1.actionQueue = c.actionQueue := by
  unfold perceive at h
  simp only [] at h
  split at h
  · exact absurd h (by simp)
  · simp only [Option.some.injEq, Prod.mk.injEq] at h
    rw [← h.1]

theorem pushManeuver_hasIdle (T : TickEnv) (S : Snapshot) (c : Creature) (hc : HasIdle c) :
    HasIdle (pushManeuver T S c) := by
  unfold pushManeuver
  simp only []
  split_ifs
  · exact List.mem_cons_of_mem _ hc
  all_goals exact hc

theorem pushFindHome_hasIdle (T : TickEnv) (c c1 : Creature) (hc : HasIdle c)
    (h : pushFindHome T c = some c1) : HasIdle c1 := by
  unfold pushFindHome at h
  split_ifs at h with h1
  · split at h
    · exact absurd h (by simp)
    · split_ifs at h
      · simp only [Option.some.injEq] at h
        rw [← h]
        exact List.mem_cons_of_mem _ hc
      · simp only [Option.some.injEq] at h
        rw [← h]
        exact hc
  · simp only [Option.some.injEq] at h
    rw [← h]
    exact hc

/-- A run of `doTurn` from a queue holding idle never reaches the empty-queue branch,
and every state it produces still holds idle. -/
theorem doTurn_hasIdle (X : Ext) (T : TickEnv) (envs : Nat → Env) (fuel : Nat)
    (c : Creature) (W : World) (hc : HasIdle c) :
    doTurn X T envs fuel c W ≠ Outcome.emptyQueue
      ∧ ∀ q, (doTurn X T envs fuel c W).queue = some q → ActionType.idle ∈ q := by
  have h0 : HasIdle (regenerateAndLevel X.log c) := by
    unfold HasIdle
    rw [regenerateAndLevel_actionQueue]
    exact hc
  by_cases hlev : levelled (regenerateAndLevel X.log c) = true
  swap
  · unfold doTurn
    simp only [hlev, if_false]
    refine ⟨by simp, ?_⟩
    intro q hq
    simp [Outcome.queue] at hq
  unfold doTurn
  simp only [hlev, if_true]
  cases hp : T.positionTile with
  | none =>
    refine ⟨by simp, ?_⟩
    intro q hq
    simp only [Outcome.queue, Option.some.injEq] at hq
    rw [← hq]
    exact h0
  | some my =>
    simp only []
    cases hper : perceive W T (regenerateAndLevel X.log c) with
    | none =>
      refine ⟨by simp, ?_⟩
      intro q hq
      simp [Outcome.queue] at hq
    | some r =>
      obtain ⟨c1, S⟩ := r
      have h1 : HasIdle c1 := by
        unfold HasIdle
        rw [perceive_actionQueue W T _ c1 S hper]
        exact h0
      have h2 := pushManeuver_hasIdle T S c1 h1
      simp only []
      cases hfh : pushFindHome T (pushManeuver T S c1) with
      | none =>
        refine ⟨by simp, ?_⟩
        intro q hq
        simp [Outcome.queue] at hq
      | some c2 =>
        exact dispatchLoop_hasIdle X S envs fuel 0 c2 W (pushFindHome_hasIdle T _ c2 h2 hfh)

/-- Every reachable creature state holds idle in its action queue. -/
theorem reachable_hasIdle (X : Ext) (c : Creature) (h : Reachable X c) : HasIdle c := by
  induction h with
  | construct c hq =>
    unfold HasIdle
    rw [hq]
    exact List.mem_singleton.mpr rfl
  | clear c _ _ =>
    unfold HasIdle clearActionQueue
    exact List.mem_singleton.mpr rfl
  | tick c c1 W W1 T envs fuel _ hrun ih =>
    have := (doTurn_hasIdle X T envs fuel c W ih).2 c1.actionQueue (by rw [hrun]; rfl)
    exact this
  | external c c1 _ hq ih =>
    unfold HasIdle
    rw [hq]
    exact ih

/-- C1: for every agent state reachable from construction (queue `[idle]`) by any
number of `doTurn` ticks and `clearActionQueue` calls, under every sequence of random
draws and every answer of the map collaborator, the action queue is non-empty; a
further tick from it never reaches the empty-queue fatal branch of `doTurn`, however
many passes of the dispatch loop are run, and every state the tick produces has a
non-empty queue. -/
theorem C1_stack_never_empty (X : Ext) (c : Creature) (h : Reachable X c) :
    c.actionQueue ≠ []
      ∧ ∀ (T : TickEnv) (envs : Nat → Env) (fuel : Nat) (W : World),
          doTurn X T envs fuel c W ≠ Outcome.emptyQueue
            ∧ ∀ q, (doTurn X T envs fuel c W).queue = some q → q ≠ [] := by
  have hc := reachable_hasIdle X c h
  refine ⟨List.ne_nil_of_mem hc, ?_⟩
  intro T envs fuel W
  refine ⟨(doTurn_hasIdle X T envs fuel c W hc).1, ?_⟩
  intro q hq
  exact List.ne_nil_of_mem ((doTurn_hasIdle X T envs fuel c W hc).2 q hq)

/-- C1 at the freshly constructed creature after a `clearActionQueue` call. -/
theorem C1_stack_never_empty_witness :
    Reachable sampleExt (clearActionQueue Creature.new)
      ∧ (clearActionQueue Creature.new).actionQueue ≠ []
      ∧ ∀ (T : TickEnv) (envs : Nat → Env) (fuel : Nat) (W : World),
          doTurn sampleExt T envs fuel (clearActionQueue Creature.new) W ≠ Outcome.emptyQueue
            ∧ ∀ q, (doTurn sampleExt T envs fuel (clearActionQueue Creature.new) W).queue
                = some q → q ≠ [] :=
  ⟨Reachable.clear _ (Reachable.construct _ rfl),
    C1_stack_never_empty sampleExt (clearActionQueue Creature.new)
      (Reachable.clear _ (Reachable.construct _ rfl))⟩

/-! ## C2: the bottom entry of the action queue -/

/-- C2 fails on the code: a freshly constructed creature whose idle entry decides to
claim (dice roll 0) and whose claim search finds a far candidate completes its tick
with the queue `[claimTile, idle, walkToTile]`: line 778 pushes `walkToTile` at the
back of the queue, below idle. -/
theorem C2_walkToTile_below_idle :
    Reachable sampleExt Creature.new
      ∧ (doTurn sampleExt sampleTick claimEnvs 5 Creature.new sampleWorld).isDone = true
      ∧ (doTurn sampleExt sampleTick claimEnvs 5 Creature.new sampleWorld).queue
          = some [ActionType.claimTile, ActionType.idle, ActionType.walkToTile] :=
  ⟨Reachable.construct _ rfl, by decide!, by decide!⟩

/-! ## C11: combat entries are popped when no enemy is reachable -/

/-- C11: for every queue `a :: rest` whose top `a` is `maneuver` (respectively
`attackObject`) and every perception with zero reachable enemies, one evaluation of
the top entry removes exactly that entry and leaves the entries below unchanged and in
order (the queue becomes `rest`), leaves every other field of the creature (health,
experience, battlefield among them) and the whole world unchanged, and signals
re-evaluation. -/
theorem C11_pop_without_enemies (X : Ext) (W : World) (E : Env) (S : Snapshot)
    (c : Creature) (a : ActionType) (rest : List ActionType)
    (ha : a = ActionType.maneuver ∨ a = ActionType.attackObject)
    (h0 : c.reachableEnemyObjects = []) :
    evalAction X W E S c a rest = Step.next { c with actionQueue := rest } W true
      ∧ ({ c with actionQueue := rest } : Creature).actionQueue = rest
      ∧ ({ c with actionQueue := rest } : Creature).hp = c.hp
      ∧ ({ c with actionQueue := rest } : Creature).exp = c.exp
      ∧ ({ c with actionQueue := rest } : Creature).battleField = c.battleField := by
  refine ⟨?_, rfl, rfl, rfl, rfl⟩
  rcases ha with h | h
  · subst h
    show evalManeuver X W E S c rest = _
    unfold evalManeuver
    simp [h0]
  · subst h
    show evalAttackObject X W E c rest = _
    unfold evalAttackObject
    simp [h0]

/-- C11 at a creature with queue `[maneuver, walkToTile, idle]` and no enemy: the
evaluation leaves `[walkToTile, idle]`. -/
theorem C11_pop_without_enemies_witness :
    (ActionType.maneuver = ActionType.maneuver
        ∨ ActionType.maneuver = ActionType.attackObject)
      ∧ calmManeuverer.reachableEnemyObjects = []
      ∧ evalAction sampleExt sampleWorld sampleEnv digSnapshot calmManeuverer
          ActionType.maneuver [ActionType.walkToTile, ActionType.idle]
        = Step.next
            { calmManeuverer with actionQueue := [ActionType.walkToTile, ActionType.idle] }
            sampleWorld true :=
  ⟨Or.inl rfl, rfl,
    (C11_pop_without_enemies sampleExt sampleWorld sampleEnv digSnapshot calmManeuverer
      ActionType.maneuver [ActionType.walkToTile, ActionType.idle] (Or.inl rfl) rfl).1⟩

/-! ## C12: a candidate with four claimed neighbours -/

/-- C12, as stated, fails for a pool of one candidate: with four claimed neighbours
the bar of line 757 is `1 - 4/4 - 0/0.0`, which is not a number, so `bar <= 0` is
false; the loop still leaves on its first pass with that candidate (through the
safety catch of line 762). -/
theorem C12_counterexample :
    ((gridEnv.neighborTiles (5, 5)).filter (claimedFor claimedWorld 0)).length = 4
      ∧ (claimBar 4 0 [((5, 5) : Pos)].length).leZero = false
      ∧ selectCandidate claimedWorld gridEnv 0 [(5, 5)] 0 [((5, 5) : Pos)].length 0
          = ((5, 5), 0) := by
  refine ⟨by decide!, by decide!, by decide!⟩

/-- C12 (amended): in the far-candidate selection of `claimTile`, for every candidate
pool of size at least 1 and every uniform draw in `[0, 1)`: if the first randomly
drawn candidate has 4 neighbours fully claimed for the agent's faction, the selection
loop exits on its first iteration (no rejection counted) with that candidate
selected; for a pool of size at least 2 the acceptance bar is `0`, hence `<= 0`; for
a pool of size 1 the bar is not a number. -/
theorem C12_first_candidate_accepted (W : World) (E : Env) (color : Int) (pool : List Pos)
    (outer : Nat) (hpool : 1 ≤ pool.length)
    (hu : 0 ≤ E.acceptDraw outer 0 ∧ E.acceptDraw outer 0 < 1)
    (h4 : ((E.neighborTiles
        (pool.getD (randomUint (E.candidatePick outer 0) 0 (pool.length - 1)) (0, 0))).filter
          (claimedFor W color)).length = 4) :
    selectCandidate W E color pool outer pool.length 0
        = (pool.getD (randomUint (E.candidatePick outer 0) 0 (pool.length - 1)) (0, 0), 0)
      ∧ (2 ≤ pool.length →
          claimBar 4 0 pool.length = Bar.finite 0 ∧ (claimBar 4 0 pool.length).leZero = true)
      ∧ (pool.length = 1 → claimBar 4 0 pool.length = Bar.nan) := by
  refine ⟨?_, ?_, ?_⟩
  · obtain ⟨n, hn⟩ : ∃ n, pool.length = n + 1 := ⟨pool.length - 1, by omega⟩
    rw [hn]
    simp only [selectCandidate]
    rw [← hn, h4]
    by_cases h1 : pool.length - 1 = 0
    · simp [claimBar, h1, Bar.reachedBy]
    · have hu0 : (0 : ℚ) ≤ randomDouble 0 1 (E.acceptDraw outer 0) := by
        unfold randomDouble
        linarith [hu.1]
      simp [claimBar, h1, Bar.reachedBy, hu0]
  · intro h2
    have h1 : ¬ (pool.length - 1 = 0) := by omega
    simp [claimBar, h1, Bar.leZero]
  · intro h1
    simp [claimBar, h1]

/-- C12 (amended) at a pool of two candidates on the fully claimed grid. -/
theorem C12_first_candidate_accepted_witness :
    1 ≤ [((5, 5) : Pos), (7, 7)].length
      ∧ (0 ≤ gridEnv.acceptDraw 0 0 ∧ gridEnv.acceptDraw 0 0 < 1)
      ∧ ((gridEnv.neighborTiles
          ([((5, 5) : Pos), (7, 7)].getD
            (randomUint (gridEnv.candidatePick 0 0) 0 ([((5, 5) : Pos), (7, 7)].length - 1))
            (0, 0))).filter (claimedFor claimedWorld 0)).length = 4
      ∧ selectCandidate claimedWorld gridEnv 0 [(5, 5), (7, 7)] 0
            [((5, 5) : Pos), (7, 7)].length 0
          = ([((5, 5) : Pos), (7, 7)].getD
              (randomUint (gridEnv.candidatePick 0 0) 0 ([((5, 5) : Pos), (7, 7)].length - 1))
              (0, 0), 0) :=
  ⟨by decide, by decide!, by decide!,
    (C12_first_candidate_accepted claimedWorld gridEnv 0 [(5, 5), (7, 7)] 0 (by decide)
      (by decide!) (by decide!)).1⟩

/-! ## C17: a creature on no valid tile -/

theorem reachableLoop_inv (W : World) (path : Option Pos → Option Pos → List Pos)
    (myTile : Option Pos) (objs : List Nat) :
    ∀ acc : List Nat × Nat × Option Nat × Bool,
      (acc.2.2.2 = true → 2 ≤ acc.2.1) → (acc.1 ≠ [] → acc.2.2.2 = true) →
      ((reachableLoop W path myTile objs acc).2.2.2 = true
          → 2 ≤ (reachableLoop W path myTile objs acc).2.1)
        ∧ ((reachableLoop W path myTile objs acc).1 ≠ []
          → (reachableLoop W path myTile objs acc).2.2.2 = true) := by
  induction objs with
  | nil => intro acc h1 h2; exact ⟨h1, h2⟩
  | cons o rest ih =>
    intro acc h1 h2
    obtain ⟨vec, minRange, nearest, minRangeSet⟩ := acc
    simp only [reachableLoop]
    split_ifs with hlen hset hlt
    · exact ih _ (fun _ => hlen) (fun _ => rfl)
    · exact ih _ (fun _ => hlen) (fun _ => rfl)
    · apply ih _ _ (fun _ => rfl)
      intro _
      apply h1
      simpa using hset
    · exact ih _ h1 h2

/-- When `getReachableAttackableObjects` returns a non-empty vector, the range it
reports is at least 2. -/
theorem reachable_range_ge_two (W : World) (path : Option Pos → Option Pos → List Pos)
    (myTile : Option Pos) (objs : List Nat)
    (h : (getReachableAttackableObjects W path myTile objs).1 ≠ []) :
    2 ≤ (getReachableAttackableObjects W path myTile objs).2.1 := by
  have hinv := reachableLoop_inv W path myTile objs ([], 0, none, false)
    (by simp) (by simp)
  unfold getReachableAttackableObjects at h ⊢
  simp only [] at h ⊢
  have hset := hinv.2 h
  rw [hset]
  simpa using hinv.1 hset

theorem perceive_range (W : World) (T : TickEnv) (c c1 : Creature) (S : Snapshot)
    (h : perceive W T c = some (c1, S)) (hne : c1.reachableEnemyObjects ≠ []) :
    2 ≤ S.rangeToNearestEnemyObject := by
  unfold perceive at h
  simp only [] at h
  split at h
  · exact absurd h (by simp)
  · simp only [Option.some.injEq, Prod.mk.injEq] at h
    obtain ⟨hc, hS⟩ := h
    subst hc
    subst hS
    exact reachable_range_ge_two W T.path T.positionTile T.visibleEnemyObjects hne

theorem pushManeuver_eq (T : TickEnv) (S : Snapshot) (c : Creature)
    [Decidable (maneuverPushed T S c)] :
    pushManeuver T S c
      = if maneuverPushed T S c then
          { c with actionQueue := ActionType.maneuver :: c.actionQueue }
        else c := by
  have hany : (c.actionQueue.any
      (fun a => a = ActionType.attackObject || a = ActionType.maneuver) = true)
      ↔ ¬ (∀ a, a ∈ c.actionQueue → a ≠ ActionType.attackObject ∧ a ≠ ActionType.maneuver) := by
    rw [List.any_eq_true]
    constructor
    · rintro ⟨a, ha, hb⟩ hall
      have := hall a ha
      simp at hb
      rcases hb with hb | hb
      · exact this.1 hb
      · exact this.2 hb
    · intro hn
      push_neg at hn
      obtain ⟨a, ha, hb⟩ := hn
      refine ⟨a, ha, ?_⟩
      by_cases h1 : a = ActionType.attackObject
      · simp [h1]
      · simp [h1, hb h1]
  unfold pushManeuver
  by_cases hp : maneuverPushed T S c
  · rw [if_pos hp]
    obtain ⟨h1, h2, h3⟩ := hp
    have hlen : c.reachableEnemyObjects.length > 0 := List.length_pos.mpr h1
    have hfalse : c.actionQueue.any
        (fun a => a = ActionType.attackObject || a = ActionType.maneuver) = false := by
      rw [← Bool.not_eq_true, hany]
      exact not_not.mpr h2
    have h3' : randomDouble 0 1 T.maneuverDraw
        < 1 / (S.rangeToNearestEnemyObject : ℚ) - c.digRate / 80 := h3
    simp only [hlen, if_true, hfalse, Bool.not_false, h3']
  · rw [if_neg hp]
    by_cases hlen : c.reachableEnemyObjects.length > 0
    · by_cases hany' : c.actionQueue.any
          (fun a => a = ActionType.attackObject || a = ActionType.maneuver) = true
      · simp only [hlen, if_true, hany', Bool.not_true, Bool.false_eq_true, if_false]
      · have hfalse : c.actionQueue.any
            (fun a => a = ActionType.attackObject || a = ActionType.maneuver) = false := by
          rw [← Bool.not_eq_true]
          exact hany'
        have h3 : ¬ (randomDouble 0 1 T.maneuverDraw
            < 1 / (S.rangeToNearestEnemyObject : ℚ) - c.digRate / 80) := by
          intro h3
          apply hp
          refine ⟨List.length_pos.mp hlen, ?_, h3⟩
          by_contra hcon
          exact hany' (hany.mpr hcon)
        simp only [hlen, if_true, hfalse, Bool.not_false, h3, if_false]
    · simp only [hlen, if_false]

/-- C19: in the pre-dispatch phase of `doTurn`, `maneuver` is pushed exactly when at
least one reachable enemy exists, no `attackObject` or `maneuver` entry occurs
anywhere in the queue, and the uniform draw `u` satisfies
`u < 1/rangeToNearestEnemy - digRate/80` (otherwise the creature is left as it is);
this bar is non-increasing in the range and in `digRate`; and because a reachable
enemy has range at least 2, the bar computed by the perception phase never exceeds
`0.5 - digRate/80`. -/
theorem C19_maneuver_push (T : TickEnv) (S : Snapshot) (c : Creature) :
    (maneuverPushed T S c →
        pushManeuver T S c = { c with actionQueue := ActionType.maneuver :: c.actionQueue })
      ∧ (¬ maneuverPushed T S c → pushManeuver T S c = c)
      ∧ (∀ (r1 r2 : Nat) (d : ℚ), 1 ≤ r1 → r1 ≤ r2 → maneuverBar r2 d ≤ maneuverBar r1 d)
      ∧ (∀ (r : Nat) (d1 d2 : ℚ), d1 ≤ d2 → maneuverBar r d2 ≤ maneuverBar r d1)
      ∧ (∀ (W : World) (c0 c1 : Creature) (S1 : Snapshot),
          perceive W T c0 = some (c1, S1) → c1.reachableEnemyObjects ≠ [] →
            2 ≤ S1.rangeToNearestEnemyObject
              ∧ maneuverBar S1.rangeToNearestEnemyObject c1.digRate
                  ≤ 1 / 2 - c1.digRate / 80) := by
  have hmono : ∀ (r1 r2 : Nat) (d : ℚ), 1 ≤ r1 → r1 ≤ r2 →
      maneuverBar r2 d ≤ maneuverBar r1 d := by
    intro r1 r2 d h1 h12
    unfold maneuverBar
    have hr1 : (0 : ℚ) < (r1 : ℚ) := by exact_mod_cast h1
    have hr12 : (r1 : ℚ) ≤ (r2 : ℚ) := by exact_mod_cast h12
    have := one_div_le_one_div_of_le hr1 hr12
    linarith
  have heq := @pushManeuver_eq T S c (Classical.propDecidable _)
  refine ⟨?_, ?_, hmono, ?_, ?_⟩
  · intro hp
    rw [heq, if_pos hp]
  · intro hp
    rw [heq, if_neg hp]
  · intro r d1 d2 hd
    unfold maneuverBar
    linarith
  · intro W c0 c1 S1 hper hne
    have h2 := perceive_range W T c0 c1 S1 hper hne
    refine ⟨h2, ?_⟩
    have := hmono 2 S1.rangeToNearestEnemyObject c1.digRate (by decide) h2
    unfold maneuverBar at this ⊢
    norm_num at this ⊢
    linarith

/-- C19 at a fresh creature (dig rate 10) with enemy 0 reachable at range 2 and draw
1/4, below the bar `1/2 - 10/80`: `maneuver` is pushed on `[idle]`. -/
theorem C19_maneuver_push_witness :
    maneuverPushed alertTick alertSnapshot alertCreature
      ∧ pushManeuver alertTick alertSnapshot alertCreature
        = { alertCreature with
            actionQueue := ActionType.maneuver :: alertCreature.actionQueue } :=
  ⟨⟨by decide, by decide, by decide!⟩,
    (C19_maneuver_push alertTick alertSnapshot alertCreature).1
      ⟨by decide, by decide, by decide!⟩⟩

/-! ## C15: `setPosition` and tile membership -/

/-- C15: `setPosition(x, y, z)` stores the new position, converted to the component
type of `Ogre::Vector3`; for an agent registered on the map, if the tile containing
the old position differs from the tile containing the new one (the position the agent
has after the call), afterwards the agent is not a member of the old tile (when it
existed), is a member of the new tile (when it exists) and the members of every other
tile are unchanged; if both positions fall in the same tile (or on none) no membership
changes; for an agent not registered on the map no tile's membership changes. -/
theorem C15_setPosition_membership (toReal : ℚ → ℚ) (tileExists : Pos → Bool)
    (onMap : Bool) (self : Nat) (members : Pos → List Nat) (c : Creature) (x y z : ℚ) :
    ((setPosition toReal tileExists onMap self members c x y z).1.posX = toReal x
        ∧ (setPosition toReal tileExists onMap self members c x y z).1.posY = toReal y
        ∧ (setPosition toReal tileExists onMap self members c x y z).1.posZ = toReal z)
      ∧ (onMap = true →
          tileAt tileExists c.posX c.posY ≠ tileAt tileExists (toReal x) (toReal y) →
          (∀ o, tileAt tileExists c.posX c.posY = some o →
              self ∉ (setPosition toReal tileExists onMap self members c x y z).2 o)
            ∧ (∀ n, tileAt tileExists (toReal x) (toReal y) = some n →
              self ∈ (setPosition toReal tileExists onMap self members c x y z).2 n)
            ∧ (∀ p, tileAt tileExists c.posX c.posY ≠ some p →
              tileAt tileExists (toReal x) (toReal y) ≠ some p →
              (setPosition toReal tileExists onMap self members c x y z).2 p = members p))
      ∧ (onMap = true →
          tileAt tileExists c.posX c.posY = tileAt tileExists (toReal x) (toReal y) →
          (setPosition toReal tileExists onMap self members c x y z).2 = members)
      ∧ (onMap = false →
          (setPosition toReal tileExists onMap self members c x y z).2 = members) := by
  refine ⟨?_, ?_, ?_, ?_⟩
  · unfold setPosition
    simp only []
    split_ifs <;> exact ⟨rfl, rfl, rfl⟩
  · intro hon hne
    unfold setPosition
    simp only [hon, if_true, hne, ne_eq, not_false_eq_true]
    cases hold : tileAt tileExists c.posX c.posY with
    | none =>
      cases hnew : tileAt tileExists (toReal x) (toReal y) with
      | none => exact absurd (hold.trans hnew.symm) hne
      | some n =>
        refine ⟨fun o ho => by simp at ho, ?_, ?_⟩
        · intro n' hn'
          simp only [Option.some.injEq] at hn'
          subst hn'
          simp [setMembers, addCreature]
        · intro p _ hp
          have hpn : ¬ (p = n) := fun e => hp (by rw [e])
          simp [setMembers, hpn]
    | some o =>
      cases hnew : tileAt tileExists (toReal x) (toReal y) with
      | none =>
        refine ⟨?_, fun n hn => by simp at hn, ?_⟩
        · intro o' ho'
          simp only [Option.some.injEq] at ho'
          subst ho'
          simp [setMembers, removeCreature]
        · intro p hp _
          have hpo : ¬ (p = o) := fun e => hp (by rw [e])
          simp [setMembers, hpo]
      | some n =>
        have hon' : ¬ (o = n) := fun e => hne (by rw [hold, hnew, e])
        refine ⟨?_, ?_, ?_⟩
        · intro o' ho'
          simp only [Option.some.injEq] at ho'
          subst ho'
          simp [setMembers, removeCreature, hon']
        · intro n' hn'
          simp only [Option.some.injEq] at hn'
          subst hn'
          simp [setMembers, addCreature]
        · intro p hp1 hp2
          have hpo : ¬ (p = o) := fun e => hp1 (by rw [e])
          have hpn : ¬ (p = n) := fun e => hp2 (by rw [e])
          simp [setMembers, hpo, hpn]
  · intro hon heq
    unfold setPosition
    simp [hon, heq]
  · intro hoff
    unfold setPosition
    simp [hoff]

/-- C15 at creature 7, a member of tile (0, 0) of the corridor, moved by
`setPosition(0.99999999, 0, 0)` with single-precision components: the position stored
is `x = 1`, on tile (1, 0), so the creature leaves the members of (0, 0) and joins
those of (1, 0), although the argument itself lies on tile (0, 0). -/
theorem C15_setPosition_membership_witness :
    toSingle (99999999 / 100000000) = 1
      ∧ tileAt corridorExists (99999999 / 100000000) 0 = some (0, 0)
      ∧ tileAt corridorExists Creature.new.posX Creature.new.posY = some (0, 0)
      ∧ tileAt corridorExists (toSingle (99999999 / 100000000)) (toSingle 0) = some (1, 0)
      ∧ (setPosition toSingle corridorExists true 7 corridorMembers Creature.new
            (99999999 / 100000000) 0 0).1.posX = 1
      ∧ (7 ∉ (setPosition toSingle corridorExists true 7 corridorMembers Creature.new
            (99999999 / 100000000) 0 0).2 (0, 0))
      ∧ (7 ∈ (setPosition toSingle corridorExists true 7 corridorMembers Creature.new
            (99999999 / 100000000) 0 0).2 (1, 0)) :=
  ⟨by decide!, by decide!, by decide!, by decide!,
    ((C15_setPosition_membership toSingle corridorExists true 7 corridorMembers
      Creature.new (99999999 / 100000000) 0 0).1.1).trans (by decide!),
    ((C15_setPosition_membership toSingle corridorExists true 7 corridorMembers
      Creature.new (99999999 / 100000000) 0 0).2.1 rfl (by decide!)).1 (0, 0) (by decide!),
    ((C15_setPosition_membership toSingle corridorExists true 7 corridorMembers
      Creature.new (99999999 / 100000000) 0 0).2.1 rfl (by decide!)).2.1 (1, 0)
      (by decide!)⟩

/-! ## The queue changes of one pass -/

theorem evalIdle_qstep (X : Ext) (W : World) (E : Env) (c : Creature)
    (rest : List ActionType) (hq : c.actionQueue = ActionType.idle :: rest) :
    Step.Holds (fun c1 => QStep (ActionType.idle :: rest) c1.actionQueue)
      (evalIdle X W E c rest) := by
  unfold evalIdle
  simp only []
  split_ifs
  · exact QStep.idlePush _ _ (Or.inl rfl)
  · exact QStep.idlePush _ _ (Or.inr (Or.inl rfl))
  · exact QStep.idlePush _ _ (Or.inr (Or.inr (Or.inl rfl)))
  · exact QStep.idlePush _ _ (Or.inr (Or.inr (Or.inr rfl)))
  · show QStep _ c.actionQueue
    rw [hq]
    exact QStep.stay _

theorem evalWalkToTile_qstep (W : World) (E : Env) (c : Creature)
    (rest : List ActionType) (hq : c.actionQueue = ActionType.walkToTile :: rest) :
    Step.Holds (fun c1 => QStep (ActionType.walkToTile :: rest) c1.actionQueue)
      (evalWalkToTile W E c rest) := by
  unfold evalWalkToTile
  cases rest with
  | nil => simp [Step.Holds]
  | cons below tail =>
    simp only []
    repeat' split
    all_goals first
      | exact QStep.pop _ _ (by decide)
      | (show QStep _ c.actionQueue; rw [hq]; exact QStep.stay _)

theorem evalClaimTile_qstep (W : World) (E : Env) (S : Snapshot) (c : Creature)
    (rest : List ActionType) (hq : c.actionQueue = ActionType.claimTile :: rest) :
    Step.Holds (fun c1 => QStep (ActionType.claimTile :: rest) c1.actionQueue)
      (evalClaimTile W E S c rest) := by
  unfold evalClaimTile
  try simp only []
  repeat' split
  all_goals first
    | exact QStep.pop _ _ (by decide)
    | exact QStep.claimToDig _
    | exact QStep.claimBack _
    | (show QStep _ c.actionQueue; rw [hq]; exact QStep.stay _)

theorem digSearch_qstep (W : World) (E : Env) (S : Snapshot) (c : Creature)
    (top : ActionType) (rest : List ActionType)
    (htop : top = ActionType.digTile ∨ top = ActionType.depositGold) :
    Step.Holds (fun c1 => QStep (ActionType.digTile :: rest) c1.actionQueue)
      (digSearch W E S c top rest) := by
  unfold digSearch
  try simp only []
  rcases htop with h | h
  · subst h
    repeat' split
    all_goals first
      | exact QStep.pop _ _ (by decide)
      | exact QStep.walkPush _ _ (Or.inl rfl)
      | exact QStep.stay _
  · subst h
    repeat' split
    all_goals first
      | exact QStep.pop _ _ (by decide)
      | exact QStep.digDepositWalk _
      | exact QStep.digReplace _ _ (Or.inr rfl)

theorem evalDigTile_qstep (X : Ext) (W : World) (E : Env) (S : Snapshot) (c : Creature)
    (rest : List ActionType) (hq : c.actionQueue = ActionType.digTile :: rest) :
    Step.Holds (fun c1 => QStep (ActionType.digTile :: rest) c1.actionQueue)
      (evalDigTile X W E S c rest) := by
  unfold evalDigTile
  try simp only []
  repeat' split
  all_goals first
    | exact digSearch_qstep _ _ _ _ _ _ (Or.inl rfl)
    | exact digSearch_qstep _ _ _ _ _ _ (Or.inr rfl)
    | exact QStep.pop _ _ (by decide)
    | exact QStep.digReplace _ _ (Or.inl rfl)
    | exact QStep.digReplace _ _ (Or.inr rfl)
    | (show QStep _ c.actionQueue; rw [hq]; exact QStep.stay _)

theorem evalDepositGold_qstep (X : Ext) (W : World) (E : Env) (c : Creature)
    (rest : List ActionType) (hq : c.actionQueue = ActionType.depositGold :: rest) :
    Step.Holds (fun c1 => QStep (ActionType.depositGold :: rest) c1.actionQueue)
      (evalDepositGold X W E c rest) := by
  unfold evalDepositGold
  try simp only []
  repeat' split
  all_goals first
    | exact QStep.pop _ _ (by decide)
    | exact QStep.walkPush _ _ (Or.inr (Or.inl rfl))
    | (show QStep _ c.actionQueue; rw [hq]; exact QStep.stay _)

theorem evalFindHome_qstep (W : World) (E : Env) (c : Creature)
    (rest : List ActionType) (hq : c.actionQueue = ActionType.findHome :: rest) :
    Step.Holds (fun c1 => QStep (ActionType.findHome :: rest) c1.actionQueue)
      (evalFindHome W E c rest) := by
  unfold evalFindHome
  try simp only []
  repeat' split
  all_goals first
    | exact QStep.pop _ _ (by decide)
    | exact QStep.walkPush _ _ (Or.inr (Or.inr (Or.inl rfl)))
    | (show QStep _ c.actionQueue; rw [hq]; exact QStep.stay _)

theorem evalAttackObject_qstep (X : Ext) (W : World) (E : Env) (c : Creature)
    (rest : List ActionType) :
    Step.Holds (fun c1 => QStep (ActionType.attackObject :: rest) c1.actionQueue)
      (evalAttackObject X W E c rest) := by
  unfold evalAttackObject
  try simp only []
  repeat' split
  all_goals first
    | exact QStep.pop _ _ (by decide)
    | exact QStep.attackToManeuver _
    | exact QStep.stay _

theorem maneuverMove_qstep (X : Ext) (W : World) (E : Env) (S : Snapshot) (c : Creature)
    (walkQueue : List Pos) (rest : List ActionType) :
    Step.Holds (fun c1 => QStep (ActionType.maneuver :: rest) c1.actionQueue)
      (maneuverMove X W E S c walkQueue rest) := by
  unfold maneuverMove
  try simp only []
  repeat' split
  all_goals first
    | exact QStep.walkPush _ _ (Or.inr (Or.inr (Or.inr rfl)))
    | exact True.intro

theorem evalManeuver_qstep (X : Ext) (W : World) (E : Env) (S : Snapshot) (c : Creature)
    (rest : List ActionType) :
    Step.Holds (fun c1 => QStep (ActionType.maneuver :: rest) c1.actionQueue)
      (evalManeuver X W E S c rest) := by
  unfold evalManeuver
  try simp only []
  repeat' split
  all_goals first
    | exact maneuverMove_qstep _ _ _ _ _ _ _
    | exact QStep.pop _ _ (by decide)
    | exact QStep.maneuverToAttack _ _ (by assumption)
    | exact True.intro

/-- Every pass through the switch changes the queue by one of the `QStep` moves. -/
theorem evalAction_qstep (X : Ext) (W : World) (E : Env) (S : Snapshot) (c : Creature)
    (a : ActionType) (rest : List ActionType) (hq : c.actionQueue = a :: rest) :
    Step.Holds (fun c1 => QStep (a :: rest) c1.actionQueue) (evalAction X W E S c a rest) := by
  cases a with
  | idle => exact evalIdle_qstep X W E c rest hq
  | walkToTile => exact evalWalkToTile_qstep W E c rest hq
  | claimTile => exact evalClaimTile_qstep W E S c rest hq
  | digTile => exact evalDigTile_qstep X W E S c rest hq
  | depositGold => exact evalDepositGold_qstep X W E c rest hq
  | findHome => exact evalFindHome_qstep W E c rest hq
  | attackObject => exact evalAttackObject_qstep X W E c rest
  | maneuver => exact evalManeuver_qstep X W E S c rest

/-! ## C18: at most one `attackObject` and one `maneuver` entry -/

theorem noCombat_cons (a : ActionType) (q : List ActionType) :
    noCombat (a :: q)
      = (decide (a ≠ ActionType.attackObject) && decide (a ≠ ActionType.maneuver)
          && noCombat q) := by
  simp [noCombat]

theorem noCombat_combatOK (q : List ActionType) (h : noCombat q = true) :
    combatOK q = true := by
  induction q with
  | nil => rfl
  | cons a rest ih =>
    rw [noCombat_cons] at h
    simp only [Bool.and_eq_true, decide_eq_true_eq] at h
    obtain ⟨⟨h1, h2⟩, h3⟩ := h
    cases a <;> first
      | exact absurd rfl h1
      | exact absurd rfl h2
      | (simp only [combatOK]; exact ih h3)

theorem combatOK_cons_other (a : ActionType) (q : List ActionType)
    (h1 : a ≠ ActionType.attackObject) (h2 : a ≠ ActionType.maneuver) :
    combatOK (a :: q) = combatOK q := by
  cases a <;> first
    | exact absurd rfl h1
    | exact absurd rfl h2
    | simp only [combatOK]

theorem combatOK_attack (q : List ActionType) :
    combatOK (ActionType.attackObject :: q) = noCombat q := by
  simp only [combatOK]

theorem combatOK_maneuver_attack (q : List ActionType) :
    combatOK (ActionType.maneuver :: ActionType.attackObject :: q) = noCombat q := by
  simp only [combatOK]

theorem combatOK_maneuver_other (b : ActionType) (q : List ActionType)
    (hb : b ≠ ActionType.attackObject) :
    combatOK (ActionType.maneuver :: b :: q) = noCombat (b :: q) := by
  cases b <;> first
    | exact absurd rfl hb
    | simp only [combatOK]

theorem combatOK_maneuver_nil : combatOK [ActionType.maneuver] = true := by
  simp [combatOK, noCombat]

theorem combatOK_tail (a : ActionType) (q : List ActionType)
    (h : combatOK (a :: q) = true) : combatOK q = true := by
  by_cases h1 : a = ActionType.attackObject
  · subst h1
    rw [combatOK_attack] at h
    exact noCombat_combatOK q h
  · by_cases h2 : a = ActionType.maneuver
    · subst h2
      cases q with
      | nil => rfl
      | cons b r =>
        by_cases hb : b = ActionType.attackObject
        · subst hb
          rw [combatOK_maneuver_attack] at h
          rw [combatOK_attack]
          exact h
        · rw [combatOK_maneuver_other b r hb] at h
          exact noCombat_combatOK _ h
    · rw [combatOK_cons_other a q h1 h2] at h
      exact h

theorem noCombat_append_walk (q : List ActionType) (h : noCombat q = true) :
    noCombat (q ++ [ActionType.walkToTile]) = true := by
  unfold noCombat at h ⊢
  rw [List.all_append, h]
  simp

theorem combatOK_append_walk (q : List ActionType) (h : combatOK q = true) :
    combatOK (q ++ [ActionType.walkToTile]) = true := by
  induction q with
  | nil => simp [combatOK]
  | cons a rest ih =>
    by_cases h1 : a = ActionType.attackObject
    · subst h1
      rw [combatOK_attack] at h
      rw [List.cons_append, combatOK_attack]
      exact noCombat_append_walk rest h
    · by_cases h2 : a = ActionType.maneuver
      · subst h2
        cases rest with
        | nil => simp [combatOK, noCombat]
        | cons b r =>
          by_cases hb : b = ActionType.attackObject
          · subst hb
            rw [combatOK_maneuver_attack] at h
            rw [List.cons_append, List.cons_append, combatOK_maneuver_attack]
            exact noCombat_append_walk r h
          · rw [combatOK_maneuver_other b r hb] at h
            rw [List.cons_append, List.cons_append, combatOK_maneuver_other b _ hb,
              ← List.cons_append]
            exact noCombat_append_walk (b :: r) h
      · rw [combatOK_cons_other a rest h1 h2] at h
        rw [List.cons_append, combatOK_cons_other a _ h1 h2]
        exact ih h

/-- Every `QStep` move keeps the combat entries of the queue in order. -/
theorem QStep_combatOK (q q1 : List ActionType) (hs : QStep q q1)
    (h : combatOK q = true) : combatOK q1 = true := by
  cases hs with
  | stay => exact h
  | pop a _ _ => exact combatOK_tail a _ h
  | idlePush x rest hx =>
    rcases hx with hx | hx | hx | hx <;> subst hx <;>
      (rw [combatOK_cons_other _ _ (by decide) (by decide)]; exact h)
  | claimToDig rest =>
    rw [combatOK_cons_other _ _ (by decide) (by decide)] at h ⊢
    exact h
  | claimBack rest => exact combatOK_append_walk _ h
  | digReplace x rest hx =>
    rw [combatOK_cons_other _ _ (by decide) (by decide)] at h
    rcases hx with hx | hx <;> subst hx <;>
      (rw [combatOK_cons_other _ _ (by decide) (by decide)]; exact h)
  | digDepositWalk rest =>
    rw [combatOK_cons_other _ _ (by decide) (by decide)] at h
    rw [combatOK_cons_other _ _ (by decide) (by decide),
      combatOK_cons_other _ _ (by decide) (by decide)]
    exact h
  | walkPush a rest _ =>
    rw [combatOK_cons_other _ _ (by decide) (by decide)]
    exact h
  | attackToManeuver rest =>
    rw [combatOK_attack] at h
    rw [combatOK_maneuver_attack]
    exact h
  | maneuverToAttack below rest hb =>
    rw [combatOK_maneuver_other below rest hb] at h
    rw [combatOK_attack]
    exact h

/-- A property of the queue that every `QStep` move keeps holds of every state the
dispatch loop produces. -/
theorem dispatchLoop_queue_inv (P : List ActionType → Prop)
    (hP : ∀ q q1, QStep q q1 → P q → P q1)
    (X : Ext) (S : Snapshot) (envs : Nat → Env) (fuel : Nat) :
    ∀ (i : Nat) (c : Creature) (W : World), P c.actionQueue →
      ∀ q, (dispatchLoop X S envs fuel i c W).queue = some q → P q := by
  induction fuel with
  | zero =>
    intro i c W hc q hq
    simp only [dispatchLoop, Outcome.queue, Option.some.injEq] at hq
    rw [← hq]
    exact hc
  | succ n ih =>
    intro i c W hc q hq
    cases hqueue : c.actionQueue with
    | nil =>
      simp [dispatchLoop, hqueue, Outcome.queue] at hq
    | cons a rest =>
      have hstep := evalAction_qstep X W (envs i) S c a rest hqueue
      simp only [dispatchLoop, hqueue] at hq
      cases hev : evalAction X W (envs i) S c a rest with
      | undefined =>
        rw [hev] at hq
        simp [Outcome.queue] at hq
      | next c1 W1 lb =>
        rw [hev] at hstep hq
        have hc1 : P c1.actionQueue := hP _ _ hstep (hqueue ▸ hc)
        cases lb with
        | true => exact ih (i + 1) c1 W1 hc1 q hq
        | false =>
          simp only [Outcome.queue, Option.some.injEq] at hq
          rw [← hq]
          exact hc1

theorem pushManeuver_combatOK (T : TickEnv) (S : Snapshot) (c : Creature)
    (h : combatOK c.actionQueue = true) : combatOK (pushManeuver T S c).actionQueue = true := by
  unfold pushManeuver
  simp only []
  split_ifs with h1 h2 h3
  · have hno : noCombat c.actionQueue = true := by
      have h2' : c.actionQueue.any
          (fun a => a = ActionType.attackObject || a = ActionType.maneuver) = false := by
        simpa using h2
      unfold noCombat
      rw [List.all_eq_true]
      intro a ha
      have := (List.any_eq_false.mp h2') a ha
      simp only [Bool.or_eq_true, decide_eq_true_eq, not_or] at this
      simp [this.1, this.2]
    show combatOK (ActionType.maneuver :: c.actionQueue) = true
    cases hq : c.actionQueue with
    | nil => exact combatOK_maneuver_nil
    | cons b r =>
      rw [hq] at hno
      have hb : b ≠ ActionType.attackObject := by
        rw [noCombat_cons] at hno
        simp only [Bool.and_eq_true, decide_eq_true_eq] at hno
        exact hno.1.1
      rw [combatOK_maneuver_other b r hb]
      exact hno
  all_goals exact h

theorem pushFindHome_combatOK (T : TickEnv) (c c1 : Creature)
    (hc : combatOK c.actionQueue = true) (h : pushFindHome T c = some c1) :
    combatOK c1.actionQueue = true := by
  unfold pushFindHome at h
  split_ifs at h with h1
  · split at h
    · exact absurd h (by simp)
    · split_ifs at h
      · simp only [Option.some.injEq] at h
        rw [← h]
        show combatOK (ActionType.findHome :: c.actionQueue) = true
        rw [combatOK_cons_other _ _ (by decide) (by decide)]
        exact hc
      · simp only [Option.some.injEq] at h
        rw [← h]
        exact hc
  · simp only [Option.some.injEq] at h
    rw [← h]
    exact hc

theorem doTurn_combatOK (X : Ext) (T : TickEnv) (envs : Nat → Env) (fuel : Nat)
    (c : Creature) (W : World) (hc : combatOK c.actionQueue = true) :
    ∀ q, (doTurn X T envs fuel c W).queue = some q → combatOK q = true := by
  have h0 : combatOK (regenerateAndLevel X.log c).actionQueue = true := by
    rw [regenerateAndLevel_actionQueue]
    exact hc
  by_cases hlev : levelled (regenerateAndLevel X.log c) = true
  swap
  · unfold doTurn
    simp only [hlev, if_false]
    intro q hq
    simp [Outcome.queue] at hq
  unfold doTurn
  simp only [hlev, if_true]
  cases hp : T.positionTile with
  | none =>
    intro q hq
    simp only [Outcome.queue, Option.some.injEq] at hq
    rw [← hq]
    exact h0
  | some my =>
    simp only []
    cases hper : perceive W T (regenerateAndLevel X.log c) with
    | none =>
      intro q hq
      simp [Outcome.queue] at hq
    | some r =>
      obtain ⟨c1, S⟩ := r
      have h1 : combatOK c1.actionQueue = true := by
        rw [perceive_actionQueue W T _ c1 S hper]
        exact h0
      have h2 := pushManeuver_combatOK T S c1 h1
      simp only []
      cases hfh : pushFindHome T (pushManeuver T S c1) with
      | none =>
        intro q hq
        simp [Outcome.queue] at hq
      | some c2 =>
        exact dispatchLoop_queue_inv (fun q => combatOK q = true) QStep_combatOK X S envs fuel 0
          c2 W (pushFindHome_combatOK T _ c2 h2 hfh)

theorem reachable_combatOK (X : Ext) (c : Creature) (h : Reachable X c) :
    combatOK c.actionQueue = true := by
  induction h with
  | construct c hq => rw [hq]; rfl
  | clear c _ _ => rfl
  | tick c c1 W W1 T envs fuel _ hrun ih =>
    exact doTurn_combatOK X T envs fuel c W ih c1.actionQueue (by rw [hrun]; rfl)
  | external c c1 _ hq ih => rw [hq]; exact ih

theorem noCombat_count (q : List ActionType) (h : noCombat q = true) :
    q.count ActionType.attackObject = 0 ∧ q.count ActionType.maneuver = 0 := by
  unfold noCombat at h
  rw [List.all_eq_true] at h
  constructor
  · rw [List.count_eq_zero]
    intro hmem
    have := h _ hmem
    simp at this
  · rw [List.count_eq_zero]
    intro hmem
    have := h _ hmem
    simp at this

theorem combatOK_count (q : List ActionType) (h : combatOK q = true) :
    q.count ActionType.attackObject ≤ 1 ∧ q.count ActionType.maneuver ≤ 1 := by
  induction q with
  | nil => simp
  | cons a rest ih =>
    by_cases h1 : a = ActionType.attackObject
    · subst h1
      rw [combatOK_attack] at h
      have := noCombat_count rest h
      simp [List.count_cons, this.1, this.2]
    · by_cases h2 : a = ActionType.maneuver
      · subst h2
        cases rest with
        | nil => simp [List.count_cons]
        | cons b r =>
          by_cases hb : b = ActionType.attackObject
          · subst hb
            rw [combatOK_maneuver_attack] at h
            have := noCombat_count r h
            simp [List.count_cons, this.1, this.2]
          · rw [combatOK_maneuver_other b r hb] at h
            have := noCombat_count (b :: r) h
            rw [List.count_cons_self, this.2]
            rw [List.count_cons_of_ne (by decide), this.1]
            exact ⟨Nat.zero_le _, le_refl _⟩
      · rw [combatOK_cons_other a rest h1 h2] at h
        have := ih h
        have e1 : (a == ActionType.attackObject) = false := by simpa using h1
        have e2 : (a == ActionType.maneuver) = false := by simpa using h2
        simp only [List.count_cons, e1, e2]
        simpa using this

/-- The step `maneuver` takes when an enemy is reachable and one is in range: pop,
then push `attackObject` unless it is the new top. -/
theorem evalManeuver_inRange (X : Ext) (W : World) (E : Env) (S : Snapshot)
    (c : Creature) (below : ActionType) (rest : List ActionType) (walkQueue : List Pos)
    (hreach : c.reachableEnemyObjects ≠ []) (hin : c.enemyObjectsInRange ≠ [])
    (hstrafe : strafe X W E S c = some walkQueue) :
    evalManeuver X W E S c (below :: rest)
      = Step.next
          { c with
            walkQueue := walkQueue
            actionQueue :=
              if below = ActionType.attackObject then below :: rest
              else ActionType.attackObject :: below :: rest }
          W true := by
  have h0 : ¬ (c.reachableEnemyObjects.length = 0) := fun h =>
    hreach (List.length_eq_zero.mp h)
  have h1 : c.enemyObjectsInRange.length > 0 := List.length_pos.mpr hin
  unfold evalManeuver
  simp only [h0, if_false, hstrafe, h1, if_true]
  by_cases hb : below = ActionType.attackObject
  · simp [hb]
  · simp [hb]

theorem evaluated_combatOK (X : Ext) (c : Creature) (h : Evaluated X c) :
    combatOK c.actionQueue = true := by
  induction h with
  | first c cS c1 W T S hr hp hf =>
    have h0 : combatOK (regenerateAndLevel X.log c).actionQueue = true := by
      rw [regenerateAndLevel_actionQueue]
      exact reachable_combatOK X c hr
    have h1 : combatOK cS.actionQueue = true := by
      rw [perceive_actionQueue W T _ cS S hp]
      exact h0
    exact pushFindHome_combatOK T _ c1 (pushManeuver_combatOK T S cS h1) hf
  | again c c1 W W1 E S a rest _ hq hstep ih =>
    have hs := evalAction_qstep X W E S c a rest hq
    rw [hstep] at hs
    exact QStep_combatOK _ _ hs (by rw [← hq]; exact ih)

theorem strafe_skipped (X : Ext) (W : World) (E : Env) (S : Snapshot) (c : Creature)
    (h : ¬ randomDouble 0 1 E.strafeDraw < 3 / 10) : strafe X W E S c = some c.walkQueue := by
  unfold strafe
  rw [if_neg h]

/-- C18: in every agent state reachable from construction by `doTurn` ticks (any
draws, any map answers), and in every state in which a pass of the switch starts
during such a tick, the action queue contains at most one `attackObject` entry and at
most one `maneuver` entry; in particular the transition from `maneuver` to
`attackObject` (an enemy reachable and one in range) pops `maneuver`, inspects the new
top, and pushes `attackObject` only if the new top is not `attackObject`. -/
theorem C18_single_combat_entries (X : Ext) (c : Creature)
    (h : Evaluated X c ∨ Reachable X c) :
    c.actionQueue.count ActionType.attackObject ≤ 1
      ∧ c.actionQueue.count ActionType.maneuver ≤ 1
      ∧ (∀ (W : World) (E : Env) (S : Snapshot) (below : ActionType)
          (rest : List ActionType) (walkQueue : List Pos),
          c.actionQueue = ActionType.maneuver :: below :: rest →
          c.reachableEnemyObjects ≠ [] → c.enemyObjectsInRange ≠ [] →
          strafe X W E S c = some walkQueue →
          evalAction X W E S c ActionType.maneuver (below :: rest)
            = Step.next
                { c with
                  walkQueue := walkQueue
                  actionQueue :=
                    if below = ActionType.attackObject then below :: rest
                    else ActionType.attackObject :: below :: rest }
                W true) := by
  have hinv : combatOK c.actionQueue = true := by
    rcases h with h | h
    · exact evaluated_combatOK X c h
    · exact reachable_combatOK X c h
  have hok := combatOK_count c.actionQueue hinv
  refine ⟨hok.1, hok.2, ?_⟩
  intro W E S below rest walkQueue _ hreach hin hstrafe
  exact evalManeuver_inRange X W E S c below rest walkQueue hreach hin hstrafe

/-- C18 at a tick of a creature with two swords that sees an enemy one tile away: the
pre-dispatch phase pushes `maneuver`, so the first pass starts from
`[maneuver, idle]` with the enemy reachable and in range; that pass pops `maneuver`,
finds `idle` on top and pushes `attackObject`; the tick ends with
`[attackObject, idle]`, one combat entry. -/
theorem C18_single_combat_entries_witness :
    ∃ (c1 c2 : Creature) (S : Snapshot) (W2 : World),
      duelStart = some (c1, S)
      ∧ Evaluated sampleExt c1
      ∧ c1.actionQueue = [ActionType.maneuver, ActionType.idle]
      ∧ c1.reachableEnemyObjects ≠ [] ∧ c1.enemyObjectsInRange ≠ []
      ∧ strafe sampleExt nearWorld duelEnv S c1 = some c1.walkQueue
      ∧ (evalAction sampleExt nearWorld duelEnv S c1 ActionType.maneuver
            [ActionType.idle]).queue
          = some [ActionType.attackObject, ActionType.idle]
      ∧ doTurn sampleExt combatTick (fun _ => duelEnv) 5 duelist nearWorld
          = Outcome.done c2 W2
      ∧ Reachable sampleExt c2
      ∧ c2.actionQueue = [ActionType.attackObject, ActionType.idle]
      ∧ c2.actionQueue.count ActionType.attackObject ≤ 1
      ∧ c2.actionQueue.count ActionType.maneuver ≤ 1 := by
  have hstart : duelStart.isSome = true := by decide!
  have hqueue : duelStart.map (fun r => r.1.actionQueue)
      = some [ActionType.maneuver, ActionType.idle] := by decide!
  have hreach : duelStart.map (fun r => r.1.reachableEnemyObjects) = some [0] := by decide!
  have hin : duelStart.map (fun r => r.1.enemyObjectsInRange) = some [0] := by decide!
  have hq : (doTurn sampleExt combatTick (fun _ => duelEnv) 5 duelist nearWorld).queue
      = some [ActionType.attackObject, ActionType.idle] := by decide!
  have hdone : (doTurn sampleExt combatTick (fun _ => duelEnv) 5 duelist nearWorld).isDone
      = true := by decide!
  cases hs : duelStart with
  | none =>
    rw [hs] at hstart
    exact Bool.noConfusion hstart
  | some r =>
    obtain ⟨c1, S⟩ := r
    rw [hs] at hqueue hreach hin
    simp only [Option.map_some', Option.some.injEq] at hqueue hreach hin
    have hE : Evaluated sampleExt c1 := by
      unfold duelStart at hs
      obtain ⟨r0, hp, hm⟩ := Option.bind_eq_some.mp hs
      obtain ⟨c0, hf, hc⟩ := Option.map_eq_some'.mp hm
      simp only [Prod.mk.injEq] at hc
      rw [← hc.1]
      exact Evaluated.first duelist r0.1 c0 nearWorld combatTick r0.2
        (Reachable.construct _ rfl) hp hf
    have hr1 : c1.reachableEnemyObjects ≠ [] := by rw [hreach]; exact List.cons_ne_nil _ _
    have hi1 : c1.enemyObjectsInRange ≠ [] := by rw [hin]; exact List.cons_ne_nil _ _
    have hst : strafe sampleExt nearWorld duelEnv S c1 = some c1.walkQueue :=
      strafe_skipped sampleExt nearWorld duelEnv S c1 (by decide!)
    have hstep := (C18_single_combat_entries sampleExt c1 (Or.inl hE)).2.2 nearWorld duelEnv S
      ActionType.idle [] c1.walkQueue hqueue hr1 hi1 hst
    cases hout : doTurn sampleExt combatTick (fun _ => duelEnv) 5 duelist nearWorld with
    | done c2 W2 =>
      rw [hout] at hq
      simp only [Outcome.queue, Option.some.injEq] at hq
      have hR : Reachable sampleExt c2 :=
        Reachable.tick duelist c2 nearWorld W2 combatTick (fun _ => duelEnv) 5
          (Reachable.construct _ rfl) hout
      refine ⟨c1, c2, S, W2, rfl, hE, hqueue, hr1, hi1, hst, ?_, rfl, hR, hq,
        (C18_single_combat_entries sampleExt c2 (Or.inr hR)).1, (C18_single_combat_entries sampleExt c2 (Or.inr hR)).2.1⟩
      rw [hstep]
      rfl
    | emptyQueue =>
      rw [hout] at hdone
      exact Bool.noConfusion hdone
    | undefined =>
      rw [hout] at hdone
      exact Bool.noConfusion hdone
    | levelLoop =>
      rw [hout] at hdone
      exact Bool.noConfusion hdone
    | outOfFuel c2 W2 =>
      rw [hout] at hdone
      exact Bool.noConfusion hdone

/-! ## C20: `findHome` is pushed although one is already on the queue -/

/-- C20 fails on the code: line 429 tests only the front entry of the queue. A
homeless non-worker whose first tick pushes `findHome` and starts walking to the
quarters ends that tick with `[walkToTile, findHome, idle]`; in the next tick the
front entry is `walkToTile`, the pre-dispatch phase pushes a second `findHome`, and
the tick ends with two `findHome` entries on the queue. -/
theorem C20_second_findHome_pushed :
    Reachable sampleExt homeless
      ∧ (runTick sampleExt alertTick (fun _ => homeEnv) 5 (some (homeless, sampleWorld))).map
          (fun s => s.1.actionQueue)
        = some [ActionType.walkToTile, ActionType.findHome, ActionType.idle]
      ∧ (pushFindHome alertTick
          { homeless with
            actionQueue := [ActionType.walkToTile, ActionType.findHome, ActionType.idle] }).map
          (fun c => c.actionQueue)
        = some [ActionType.findHome, ActionType.walkToTile, ActionType.findHome,
            ActionType.idle]
      ∧ (runTick sampleExt alertTick (fun _ => homeEnv) 5
          (runTick sampleExt alertTick (fun _ => homeEnv) 5 (some (homeless, sampleWorld)))).map
          (fun s => s.1.actionQueue)
        = some [ActionType.walkToTile, ActionType.findHome, ActionType.walkToTile,
            ActionType.findHome, ActionType.idle] :=
  ⟨Reachable.construct _ rfl, by decide!, by decide!, by decide!⟩

/-! ## C16: the dispatch loop need not terminate -/

theorem evalIdle_claims (X : Ext) (W : World) (E : Env) (c : Creature)
    (rest : List ActionType) (hd : E.diceRoll = 0) (hdance : c.danceRate > 1 / 10) :
    evalIdle X W E c rest
      = Step.next { c with actionQueue := ActionType.claimTile :: ActionType.idle :: rest }
          W true := by
  unfold evalIdle
  have h : randomDouble 0 1 E.diceRoll < 2 / 10 ∧ c.danceRate > 1 / 10 := by
    refine ⟨?_, hdance⟩
    unfold randomDouble
    rw [hd]
    norm_num
  simp only [h, and_self, if_true]

theorem evalClaimTile_givesUp (W : World) (E : Env) (S : Snapshot) (c : Creature)
    (rest : List ActionType) (p : Pos) (hp : E.positionTile = some p)
    (hd : E.stopDraw = 0) (hm : S.markedTiles = []) :
    evalClaimTile W E S c rest = Step.next { c with actionQueue := rest } W true := by
  unfold evalClaimTile
  have h : randomDouble 0 1 E.stopDraw < 1 / 10 + 2 / 10 * (S.markedTiles.length : ℚ) := by
    unfold randomDouble
    rw [hd, hm]
    norm_num
  simp only [hp]
  rw [if_pos h, hm]
  simp only [List.length_nil, gt_iff_lt, lt_self_iff_false, if_false]

/-- With idle always claiming and `claimTile` always giving up, the loop is cut off at
every allowance, from the queue `[idle]` as from `claimTile :: [idle]`. -/
theorem pingPong_never_ends (fuel : Nat) :
    ∀ (i : Nat) (c : Creature), c.danceRate > 1 / 10 →
      (c.actionQueue = [ActionType.idle]
        ∨ c.actionQueue = [ActionType.claimTile, ActionType.idle]) →
      (dispatchLoop sampleExt calmSnapshot pingEnvs fuel i c sampleWorld).ended = false := by
  induction fuel with
  | zero => intro i c _ _; rfl
  | succ n ih =>
    intro i c hdance hq
    rcases hq with hq | hq
    · simp only [dispatchLoop, hq, evalAction]
      rw [evalIdle_claims sampleExt sampleWorld (pingEnvs i) c [] rfl hdance]
      exact ih (i + 1) _ hdance (Or.inr rfl)
    · simp only [dispatchLoop, hq, evalAction]
      rw [evalClaimTile_givesUp sampleWorld (pingEnvs i) calmSnapshot c [ActionType.idle]
        (0, 0) rfl rfl rfl]
      exact ih (i + 1) _ hdance (Or.inl rfl)

/-- C16, as stated, fails: from the freshly constructed creature, with dice roll 0 in
every idle pass (idle pushes `claimTile`) and stop draw 0 in every `claimTile` pass
(`claimTile` pops itself and signals re-evaluation), no number of passes ends the
dispatch loop. -/
theorem C16_counterexample :
    ¬ ∃ fuel : Nat,
      (dispatchLoop sampleExt calmSnapshot pingEnvs fuel 0 Creature.new sampleWorld).ended
        = true := by
  rintro ⟨fuel, h⟩
  have := pingPong_never_ends fuel 0 Creature.new (by decide!) (Or.inl rfl)
  rw [this] at h
  exact absurd h (by decide)

theorem evalDepositGold_walks (X : Ext) (W : World) (i : Nat) (c : Creature)
    (rest : List ActionType) :
    evalDepositGold X W (emptyWalkEnvs i) c rest
      = Step.next
          { c with
            walkQueue := []
            actionQueue := ActionType.walkToTile :: ActionType.depositGold :: rest } W true := by
  have hE : emptyWalkEnvs i = emptyWalkEnvs 0 := rfl
  have hloop : (treasuryLoop (emptyWalkEnvs 0) (0, 0) (emptyWalkEnvs 0).treasuriesOwned 0
      (false, [], 0)).1 = true := by decide!
  have hpos : (emptyWalkEnvs 0).positionTile = some (0, 0) := rfl
  have hroom : (emptyWalkEnvs 0).coveringRoom = none := rfl
  have hown : (emptyWalkEnvs 0).treasuriesOwned.length > 0 := by decide
  have hset : ∀ q p, (emptyWalkEnvs 0).setWalkPath q p 2 false = (true, []) := fun _ _ => rfl
  rw [hE]
  unfold evalDepositGold
  simp only [hpos, hroom, hown, hloop, hset, if_true]
  simp

theorem evalWalkToTile_arrived (W : World) (E : Env) (c : Creature)
    (rest : List ActionType) (hw : c.walkQueue = []) :
    evalWalkToTile W E c (ActionType.depositGold :: rest)
      = Step.next { c with actionQueue := ActionType.depositGold :: rest } W true := by
  unfold evalWalkToTile
  simp [hw]

/-- With `setWalkPath` accepting paths but leaving the walk queue empty, `depositGold`
pushes `walkToTile`, which pops itself at once: the loop is cut off at every allowance. -/
theorem emptyWalk_never_ends (fuel : Nat) :
    ∀ (i : Nat) (c : Creature),
      (c.actionQueue = [ActionType.depositGold, ActionType.idle]
        ∨ (c.actionQueue = [ActionType.walkToTile, ActionType.depositGold, ActionType.idle]
            ∧ c.walkQueue = [])) →
      (dispatchLoop sampleExt calmSnapshot emptyWalkEnvs fuel i c sampleWorld).ended = false := by
  induction fuel with
  | zero => intro i c _; rfl
  | succ n ih =>
    intro i c hq
    rcases hq with hq | ⟨hq, hw⟩
    · simp only [dispatchLoop, hq, evalAction]
      rw [evalDepositGold_walks]
      exact ih (i + 1) _ (Or.inr ⟨rfl, rfl⟩)
    · simp only [dispatchLoop, hq, evalAction]
      rw [evalWalkToTile_arrived sampleWorld (emptyWalkEnvs i) c [ActionType.idle] hw]
      exact ih (i + 1) _ (Or.inl rfl)

/-- Without the condition on accepted walk paths the dispatch loop need not end
either: no number of passes ends it for the creature about to deposit its gold. -/
theorem emptyWalk_unbounded :
    ¬ ∃ fuel : Nat,
      (dispatchLoop sampleExt calmSnapshot emptyWalkEnvs fuel 0 depositor sampleWorld).ended
        = true := by
  rintro ⟨fuel, h⟩
  have := emptyWalk_never_ends fuel 0 depositor (Or.inl rfl)
  rw [this] at h
  exact absurd h (by decide)

/-! ## C16: the bound that holds when idle stays idle -/

theorem rank_cons (a : ActionType) (q : List ActionType) :
    rank (a :: q) = weight a + rank q := by
  simp [rank]

theorem rank_le (q : List ActionType) : rank q ≤ 2 * q.length := by
  induction q with
  | nil => simp [rank]
  | cons a q ih =>
    rw [rank_cons, List.length_cons]
    have : weight a ≤ 2 := by cases a <;> simp [weight]
    omega

theorem evalIdle_progress (X : Ext) (W : World) (E : Env) (c : Creature)
    (rest : List ActionType) (hrest : (evalIdle X W E c rest).loops = false) :
    (evalIdle X W E c rest).Sat (Progress c) := by
  cases hev : evalIdle X W E c rest with
  | undefined => exact True.intro
  | next c1 W1 lb =>
    rw [hev] at hrest
    have hlb : lb = false := hrest
    subst hlb
    exact ⟨fun h => absurd h (by decide), fun _ => rfl⟩

theorem evalWalkToTile_progress (W : World) (E : Env) (c : Creature)
    (rest : List ActionType) (hq : c.actionQueue = ActionType.walkToTile :: rest) :
    (evalWalkToTile W E c rest).Sat (Progress c) := by
  unfold evalWalkToTile
  try simp only []
  repeat' split
  all_goals
    simp_all [Step.Sat, Progress, settled, rank, weight]

theorem evalClaimTile_progress (W : World) (E : Env) (S : Snapshot) (c : Creature)
    (rest : List ActionType) (hq : c.actionQueue = ActionType.claimTile :: rest) :
    (evalClaimTile W E S c rest).Sat (Progress c) := by
  unfold evalClaimTile
  try simp only []
  repeat' split
  all_goals
    simp_all [Step.Sat, Progress, settled, rank, weight]

theorem digSearch_progress (W : World) (E : Env) (S : Snapshot) (c c0 : Creature)
    (top : ActionType) (rest : List ActionType)
    (hq : c0.actionQueue = ActionType.digTile :: rest) :
    (digSearch W E S c top rest).Sat (Progress c0) := by
  unfold digSearch
  try simp only []
  repeat' split
  all_goals
    simp_all [Step.Sat, Progress, settled, rank, weight]

theorem evalDigTile_progress (X : Ext) (W : World) (E : Env) (S : Snapshot) (c : Creature)
    (rest : List ActionType) (hq : c.actionQueue = ActionType.digTile :: rest) :
    (evalDigTile X W E S c rest).Sat (Progress c) := by
  unfold evalDigTile
  try simp only []
  split
  · simp_all [Step.Sat, Progress, settled, rank, weight]
  · split
    · simp only [Step.Sat, Progress, settled, hq]
      exact ⟨by simp, by simp⟩
    · split
      · exact digSearch_progress W E S _ c _ rest hq
      · exact digSearch_progress W E S _ c _ rest hq

theorem evalDepositGold_progress (X : Ext) (W : World) (E : Env) (c : Creature)
    (rest : List ActionType) (hq : c.actionQueue = ActionType.depositGold :: rest)
    (hwalk : ∀ q p, (E.setWalkPath q p 2 false).1 = true → (E.setWalkPath q p 2 false).2 ≠ []) :
    (evalDepositGold X W E c rest).Sat (Progress c) := by
  unfold evalDepositGold
  try simp only []
  repeat' split
  all_goals first
    | (rename_i hr
       have hne := hwalk _ _ hr
       simp_all [Step.Sat, Progress, settled, rank, weight])
    | simp_all [Step.Sat, Progress, settled, rank, weight]

theorem evalFindHome_progress (W : World) (E : Env) (c : Creature)
    (rest : List ActionType) (hq : c.actionQueue = ActionType.findHome :: rest)
    (hwalk : ∀ q p, (E.setWalkPath q p 2 false).1 = true → (E.setWalkPath q p 2 false).2 ≠ []) :
    (evalFindHome W E c rest).Sat (Progress c) := by
  unfold evalFindHome
  try simp only []
  repeat' split
  all_goals first
    | (rename_i hr
       have hne := hwalk _ _ hr
       simp_all [Step.Sat, Progress, settled, rank, weight])
    | simp_all [Step.Sat, Progress, settled, rank, weight]

theorem evalAttackObject_progress (X : Ext) (W : World) (E : Env) (c : Creature)
    (rest : List ActionType) (hq : c.actionQueue = ActionType.attackObject :: rest) :
    (evalAttackObject X W E c rest).Sat (Progress c) := by
  unfold evalAttackObject
  try simp only []
  repeat' split
  all_goals
    simp_all [Step.Sat, Progress, settled, rank, weight, resolveAttack, recieveExp]

theorem evalManeuver_progress (X : Ext) (W : World) (E : Env) (S : Snapshot) (c : Creature)
    (rest : List ActionType) (hq : c.actionQueue = ActionType.maneuver :: rest) :
    (evalManeuver X W E S c rest).Sat (Progress c) := by
  unfold evalManeuver maneuverMove
  try simp only []
  repeat' split
  all_goals first
    | (simp_all [Step.Sat, Progress, settled, rank, weight, computeBattlefield]
       done)
    | (have hne : c.enemyObjectsInRange ≠ [] := by
         intro h0
         simp_all
       simp_all [Step.Sat, Progress, settled, rank, weight, computeBattlefield])

theorem evalAction_progress (X : Ext) (W : World) (E : Env) (S : Snapshot) (c : Creature)
    (a : ActionType) (rest : List ActionType) (hq : c.actionQueue = a :: rest)
    (hidle : a = ActionType.idle → (evalIdle X W E c rest).loops = false)
    (hwalk : ∀ q p, (E.setWalkPath q p 2 false).1 = true → (E.setWalkPath q p 2 false).2 ≠ []) :
    (evalAction X W E S c a rest).Sat (Progress c) := by
  cases a with
  | idle => exact evalIdle_progress X W E c rest (hidle rfl)
  | walkToTile => exact evalWalkToTile_progress W E c rest hq
  | claimTile => exact evalClaimTile_progress W E S c rest hq
  | digTile => exact evalDigTile_progress X W E S c rest hq
  | depositGold => exact evalDepositGold_progress X W E c rest hq hwalk
  | findHome => exact evalFindHome_progress W E c rest hq hwalk
  | attackObject => exact evalAttackObject_progress X W E c rest hq
  | maneuver => exact evalManeuver_progress X W E S c rest hq

/-- With idle pushing nothing in the passes looked at and accepted walk paths
non-empty, the loop ends within one pass from a settled state and within `rank + 2`
passes from any state. -/
theorem dispatchLoop_ends (X : Ext) (S : Snapshot) (envs : Nat → Env)
    (hwalk : ∀ i q p, ((envs i).setWalkPath q p 2 false).1 = true
      → ((envs i).setWalkPath q p 2 false).2 ≠ []) (fuel : Nat) :
    ∀ (i : Nat) (c : Creature) (W : World),
      (∀ k, k < fuel → idleRestsAt X S envs k i c W = true) →
      ((settled c = true ∧ 1 ≤ fuel) ∨ rank c.actionQueue + 2 ≤ fuel) →
      (dispatchLoop X S envs fuel i c W).ended = true := by
  induction fuel with
  | zero =>
    intro i c W _ h
    rcases h with ⟨_, h⟩ | h <;> omega
  | succ n ih =>
    intro i c W hidle h
    cases hqueue : c.actionQueue with
    | nil => simp [dispatchLoop, hqueue, Outcome.ended]
    | cons a rest =>
      have hnow : a = ActionType.idle → (evalIdle X W (envs i) c rest).loops = false := by
        intro ha
        have h0 := hidle 0 (Nat.succ_pos n)
        simp only [idleRestsAt, hqueue, ha, Bool.not_eq_true'] at h0
        exact h0
      have hstep := evalAction_progress X W (envs i) S c a rest hqueue hnow (hwalk i)
      simp only [dispatchLoop, hqueue]
      cases hev : evalAction X W (envs i) S c a rest with
      | undefined => simp [Outcome.ended]
      | next c1 W1 lb =>
        rw [hev] at hstep
        obtain ⟨hloop, hset⟩ := hstep
        cases lb with
        | false => simp [Outcome.ended]
        | true =>
          have hns : ¬ settled c = true := fun hs => absurd (hset hs) (by decide)
          have hr : rank c.actionQueue + 2 ≤ n + 1 := by
            rcases h with ⟨hs, _⟩ | h
            · exact absurd hs hns
            · exact h
          have hnext : ∀ k, k < n → idleRestsAt X S envs k (i + 1) c1 W1 = true := by
            intro k hk
            have hk1 := hidle (k + 1) (Nat.succ_lt_succ hk)
            simp only [idleRestsAt, hqueue, hev] at hk1
            exact hk1
          apply ih (i + 1) c1 W1 hnext
          rcases hloop rfl with hs | hlt
          · exact Or.inl ⟨hs, by omega⟩
          · exact Or.inr (by omega)

theorem restEnvs_walk (i : Nat) (q p : List Pos)
    (h : ((restEnvs i).setWalkPath q p 2 false).1 = true) :
    ((restEnvs i).setWalkPath q p 2 false).2 ≠ [] := by
  have hdef : (restEnvs i).setWalkPath q p 2 false
      = if 2 ≤ p.length then (true, p.tail) else (false, []) := rfl
  rw [hdef] at h ⊢
  by_cases h2 : 2 ≤ p.length
  · rw [if_pos h2]
    intro h0
    have : p.tail.length = 0 := by
      change p.tail = [] at h0
      rw [h0]; rfl
    rw [List.length_tail] at this
    omega
  · rw [if_neg h2] at h
    exact absurd h (by decide)

/-- C16 (amended): if, in each of the first `fuel` passes of the loop, an evaluation of
`idle` pushes nothing (it takes its last branch and does not signal re-evaluation) and
every walk path the creature accepts leaves its walk queue non-empty, then the
dispatch loop ends (normally, in the empty-queue exit, or in a step C++ leaves
undefined) within `rank + 2` evaluations, where `rank` counts 2 for each `claimTile`
entry, 0 for each `idle` entry and 1 for every other entry of the queue at the start;
this is at most twice the depth of the queue plus 2. -/
theorem C16_bounded_when_idle_rests (X : Ext) (S : Snapshot) (envs : Nat → Env)
    (c : Creature) (W : World) (fuel : Nat)
    (hidle : ∀ k, k < fuel → idleRestsAt X S envs k 0 c W = true)
    (hwalk : ∀ i q p, ((envs i).setWalkPath q p 2 false).1 = true
      → ((envs i).setWalkPath q p 2 false).2 ≠ [])
    (hfuel : rank c.actionQueue + 2 ≤ fuel) :
    (dispatchLoop X S envs fuel 0 c W).ended = true
      ∧ rank c.actionQueue + 2 ≤ 2 * c.actionQueue.length + 2 :=
  ⟨dispatchLoop_ends X S envs hwalk fuel 0 c W hidle (Or.inr hfuel),
    Nat.add_le_add_right (rank_le c.actionQueue) 2⟩

/-- C16 (amended) at a worker, the freshly constructed creature with a walk, a
deposit, a dig and a claim stacked on idle, with dice roll 0.7 and stop draw 0 in
every pass: the rank of its queue is 5, the four entries above idle are popped in
turn, the fifth pass evaluates idle, which pushes nothing, and the loop ends there,
within 7 evaluations, leaving the queue `[idle]`. -/
theorem C16_bounded_when_idle_rests_witness :
    busyCreature.digRate > 1 / 10
      ∧ (∀ k, k < 7 →
          idleRestsAt sampleExt calmSnapshot restEnvs k 0 busyCreature sampleWorld = true)
      ∧ rank busyCreature.actionQueue + 2 ≤ 7
      ∧ (dispatchLoop sampleExt calmSnapshot restEnvs 4 0 busyCreature sampleWorld).ended
          = false
      ∧ (dispatchLoop sampleExt calmSnapshot restEnvs 4 0 busyCreature sampleWorld).queue
          = some [ActionType.idle]
      ∧ (dispatchLoop sampleExt calmSnapshot restEnvs 7 0 busyCreature sampleWorld).queue
          = some [ActionType.idle]
      ∧ (dispatchLoop sampleExt calmSnapshot restEnvs 7 0 busyCreature sampleWorld).ended = true
      ∧ rank busyCreature.actionQueue + 2 ≤ 2 * busyCreature.actionQueue.length + 2 :=
  ⟨by decide!, by decide!, by decide, by decide!, by decide!, by decide!,
    C16_bounded_when_idle_rests sampleExt calmSnapshot restEnvs busyCreature sampleWorld 7
      (by decide!) restEnvs_walk (by decide)⟩

/-! ## C14: the record and the format line -/

theorem splitTabs_ne_nil (s : List Char) : splitTabs s ≠ [] := by
  induction s with
  | nil => simp [splitTabs]
  | cons ch rest ih =>
    unfold splitTabs
    split
    · simp
    · split <;> simp

theorem splitTabs_last (f : List Char) (hf : '\t' ∉ f) : splitTabs f = [f] := by
  induction f with
  | nil => rfl
  | cons ch rest ih =>
    have hch : ch ≠ '\t' := fun h => hf (h ▸ List.mem_cons_self _ _)
    have hrest : '\t' ∉ rest := fun h => hf (List.mem_cons_of_mem _ h)
    unfold splitTabs
    rw [if_neg hch, ih hrest]

theorem splitTabs_field (f rest : List Char) (hf : '\t' ∉ f) :
    splitTabs (f ++ '\t' :: rest) = f :: splitTabs rest := by
  induction f with
  | nil =>
    show splitTabs ('\t' :: rest) = [] :: splitTabs rest
    simp only [splitTabs, if_true]
  | cons ch tail ih =>
    have hch : ch ≠ '\t' := fun h => hf (h ▸ List.mem_cons_self _ _)
    have htail : '\t' ∉ tail := fun h => hf (List.mem_cons_of_mem _ h)
    show splitTabs (ch :: (tail ++ '\t' :: rest)) = (ch :: tail) :: splitTabs rest
    simp only [splitTabs, if_neg hch, ih htail]

theorem writeCreature_eq_join (F : StreamFormat) (c : Creature) (weaponL weaponR : Weapon)
    (hl : c.weaponL = some weaponL) (hr : c.weaponR = some weaponR) :
    writeCreature F c = some (joinTabs (recordFields F c weaponL weaponR)) := by
  unfold writeCreature
  rw [hl, hr]
  simp [writeWeapon, joinTabs, recordFields, List.intercalate, List.intersperse]

/-- C14, as stated, fails for a field text that contains a tab: the kobold whose name
is "Bo", a tab, "b" is written as a record that has 16 tabs and so 17 tab-separated
fields, the third of which is the rest of the name and not x. -/
theorem C14_counterexample :
    tabbed.weaponL = some club ∧ tabbed.weaponR = some noWeapon
      ∧ writeCreature sampleFormat tabbed
          = some "Kobold\tBo\tb\t1\t2\t0\t1\tclub\t2\t1\t0\tnone\t0\t0\t0\t10\t10".data
      ∧ (writeCreature sampleFormat tabbed).map (fun text => (splitTabs text).length)
          = some 17
      ∧ (writeCreature sampleFormat tabbed).map (fun text => (splitTabs text).get? 2)
          = some (some "b".data)
      ∧ sampleFormat.showDouble tabbed.posX = "1".data := by
  refine ⟨rfl, rfl, by decide!, by decide!, by decide!, by decide!⟩

/-- C14 (amended): for a creature holding two weapons none of whose field texts (class
name, name, weapon names, formatted numbers) contains a tab, the text `operator<<`
writes, cut at its tabs, consists of exactly 16 fields: class name, name, x, y, z,
color, left weapon (name, damage, range, defense), right weapon (name, damage, range,
defense), hp, mana, in this order; and the text of `Creature::getFormat()`, cut at its
tabs, consists of exactly 16 column names, which name the same fields in the same
order. -/
theorem C14_record_sixteen_fields (F : StreamFormat) (c : Creature) (weaponL weaponR : Weapon)
    (hl : c.weaponL = some weaponL) (hr : c.weaponR = some weaponR)
    (htab : ∀ f ∈ recordFields F c weaponL weaponR, '\t' ∉ f) :
    ∃ text, writeCreature F c = some text
      ∧ splitTabs text
          = [c.className.data, c.name.data, F.showDouble c.posX, F.showDouble c.posY,
              F.showDouble c.posZ, F.showInt c.color,
              weaponL.name.data, F.showDouble weaponL.damage, F.showDouble weaponL.range,
              F.showDouble weaponL.defense,
              weaponR.name.data, F.showDouble weaponR.damage, F.showDouble weaponR.range,
              F.showDouble weaponR.defense,
              F.showDouble c.hp, F.showDouble c.mana]
      ∧ (splitTabs text).length = 16
      ∧ splitTabs Creature.getFormat.data
          = ["className".data, "name".data, "posX".data, "posY".data, "posZ".data,
              "color".data,
              "weaponLname".data, "damage".data, "range".data, "defense".data,
              "weaponRname".data, "damage".data, "range".data, "defense".data,
              "HP".data, "mana".data]
      ∧ (splitTabs Creature.getFormat.data).length = 16 := by
  have hsplit : splitTabs (joinTabs (recordFields F c weaponL weaponR))
      = recordFields F c weaponL weaponR := by
    simp only [recordFields, List.mem_cons, List.mem_singleton, forall_eq_or_imp, forall_eq,
      List.not_mem_nil, false_implies, implies_true, and_true] at htab
    obtain ⟨h1, h2, h3, h4, h5, h6, h7, h8, h9, h10, h11, h12, h13, h14, h15, h16⟩ := htab
    simp only [joinTabs, recordFields, List.intercalate, List.intersperse, List.flatten_cons,
      List.flatten_nil, List.append_assoc, List.singleton_append, List.append_nil]
    rw [splitTabs_field _ _ h1, splitTabs_field _ _ h2, splitTabs_field _ _ h3,
      splitTabs_field _ _ h4, splitTabs_field _ _ h5, splitTabs_field _ _ h6,
      splitTabs_field _ _ h7, splitTabs_field _ _ h8, splitTabs_field _ _ h9,
      splitTabs_field _ _ h10, splitTabs_field _ _ h11, splitTabs_field _ _ h12,
      splitTabs_field _ _ h13, splitTabs_field _ _ h14, splitTabs_field _ _ h15,
      splitTabs_last _ h16]
  have hformat : splitTabs Creature.getFormat.data
      = ["className".data, "name".data, "posX".data, "posY".data, "posZ".data,
          "color".data,
          "weaponLname".data, "damage".data, "range".data, "defense".data,
          "weaponRname".data, "damage".data, "range".data, "defense".data,
          "HP".data, "mana".data] := by decide
  refine ⟨joinTabs (recordFields F c weaponL weaponR),
    writeCreature_eq_join F c weaponL weaponR hl hr, ?_, ?_, hformat, ?_⟩
  · rw [hsplit]
    rfl
  · rw [hsplit]
    rfl
  · rw [hformat]
    rfl

/-- C14 (amended) at the kobold Bob: none of its 16 field texts contains a tab, and the
record written for it, cut at its tabs, has 16 fields. -/
theorem C14_record_sixteen_fields_witness :
    kobold.weaponL = some club ∧ kobold.weaponR = some noWeapon
      ∧ (∀ f ∈ recordFields sampleFormat kobold club noWeapon, '\t' ∉ f)
      ∧ writeCreature sampleFormat kobold = some koboldRecord.data
      ∧ ∃ text, writeCreature sampleFormat kobold = some text
          ∧ splitTabs text
            = ["Kobold".data, "Bob".data, "1".data, "2".data, "0".data, "1".data,
                "club".data, "2".data, "1".data, "0".data,
                "none".data, "0".data, "0".data, "0".data, "10".data, "10".data]
          ∧ (splitTabs text).length = 16 := by
  have htab : ∀ f ∈ recordFields sampleFormat kobold club noWeapon, '\t' ∉ f := by decide!
  obtain ⟨text, h1, h2, h3, _⟩ :=
    C14_record_sixteen_fields sampleFormat kobold club noWeapon rfl rfl htab
  refine ⟨rfl, rfl, htab, by decide!, text, h1, ?_, h3⟩
  rw [h2]
  decide!

/-! ## C13: writing and reading back -/

/-- C13, as stated, fails. A creature named "autoname" is written under that name and
read back under the name `getUniqueCreatureName()` makes up ("Kobold1"). A creature
whose name is the empty string is written with an empty second field, not with the
token NULL, and reading that record back takes the text of x for the name and fails
at the color. -/
theorem C13_counterexample :
    ¬ RoundTrips sampleFormat noClasses 1 Creature.new autonamed
      ∧ writeCreature sampleFormat autonamed
          = some "Kobold\tautoname\t1\t2\t0\t1\tclub\t2\t1\t0\tnone\t0\t0\t0\t10\t10".data
      ∧ (readCreature sampleFormat noClasses 1 Creature.new
            "Kobold\tautoname\t1\t2\t0\t1\tclub\t2\t1\t0\tnone\t0\t0\t0\t10\t10".data).map
          (fun r => r.1.name) = some "Kobold1"
      ∧ ¬ RoundTrips sampleFormat noClasses 1 Creature.new unnamed
      ∧ writeCreature sampleFormat unnamed
          = some "Kobold\t\t1\t2\t0\t1\tclub\t2\t1\t0\tnone\t0\t0\t0\t10\t10".data
      ∧ (readCreature sampleFormat noClasses 1 Creature.new
            "Kobold\t\t1\t2\t0\t1\tclub\t2\t1\t0\tnone\t0\t0\t0\t10\t10".data).isNone = true := by
  have hw1 : writeCreature sampleFormat autonamed
      = some "Kobold\tautoname\t1\t2\t0\t1\tclub\t2\t1\t0\tnone\t0\t0\t0\t10\t10".data := by
    decide!
  have hr1 : (readCreature sampleFormat noClasses 1 Creature.new
        "Kobold\tautoname\t1\t2\t0\t1\tclub\t2\t1\t0\tnone\t0\t0\t0\t10\t10".data).map
      (fun r => r.1.name) = some "Kobold1" := by
    decide!
  have hw2 : writeCreature sampleFormat unnamed
      = some "Kobold\t\t1\t2\t0\t1\tclub\t2\t1\t0\tnone\t0\t0\t0\t10\t10".data := by
    decide!
  have hr2 : (readCreature sampleFormat noClasses 1 Creature.new
        "Kobold\t\t1\t2\t0\t1\tclub\t2\t1\t0\tnone\t0\t0\t0\t10\t10".data).isNone = true := by
    decide!
  refine ⟨?_, hw1, hr1, ?_, hw2, hr2⟩
  · rintro ⟨text, c1, rest, hw, hr, -, hname, -⟩
    rw [hw1, Option.some.injEq] at hw
    subst hw
    rw [hr] at hr1
    simp only [Option.map_some', Option.some.injEq] at hr1
    rw [hr1] at hname
    exact absurd hname (by decide)
  · rintro ⟨text, c1, rest, hw, hr, -⟩
    rw [hw2, Option.some.injEq] at hw
    subst hw
    rw [hr] at hr2
    exact Bool.noConfusion hr2

theorem isSpace_tab : isSpace '\t' = true := by decide

theorem skipSpace_tab (s : List Char) : skipSpace ('\t' :: s) = skipSpace s := by
  simp only [skipSpace, isSpace_tab, if_true]

theorem isToken_cons (tok : List Char) (h : isToken tok = true) :
    ∃ ch tail, tok = ch :: tail ∧ isSpace ch = false ∧ ∀ x ∈ tail, isSpace x = false := by
  cases tok with
  | nil => simp [isToken] at h
  | cons ch tail =>
    refine ⟨ch, tail, rfl, ?_⟩
    simpa [isToken] using h

theorem takeToken_field (tok rest : List Char) (h : ∀ x ∈ tok, isSpace x = false) :
    takeToken (tok ++ '\t' :: rest) = (tok, '\t' :: rest) := by
  induction tok with
  | nil =>
    show takeToken ('\t' :: rest) = ([], '\t' :: rest)
    simp only [takeToken, isSpace_tab, if_true]
  | cons ch tail ih =>
    have hch : isSpace ch = false := h ch (List.mem_cons_self _ _)
    have ht := ih (fun x hx => h x (List.mem_cons_of_mem _ hx))
    show takeToken (ch :: (tail ++ '\t' :: rest)) = (ch :: tail, '\t' :: rest)
    simp only [takeToken, hch, ht]
    simp

theorem readString_tab (s : List Char) : readString ('\t' :: s) = readString s := by
  simp only [readString, skipSpace_tab]

theorem readString_token (tok rest : List Char) (h : isToken tok = true) :
    readString (tok ++ '\t' :: rest) = some (String.mk tok, '\t' :: rest) := by
  obtain ⟨ch, tail, rfl, hch, htail⟩ := isToken_cons tok h
  have hall : ∀ x ∈ ch :: tail, isSpace x = false := by
    intro x hx
    rcases List.mem_cons.mp hx with rfl | hx
    · exact hch
    · exact htail x hx
  have hskip : skipSpace (ch :: tail ++ '\t' :: rest) = ch :: tail ++ '\t' :: rest := by
    show skipSpace (ch :: (tail ++ '\t' :: rest)) = _
    simp only [skipSpace, hch]
    simp
  simp only [readString, hskip, takeToken_field _ _ hall]
  simp

theorem readDouble_tab (F : StreamFormat) (s : List Char) :
    readDouble F ('\t' :: s) = readDouble F s := by
  simp only [readDouble, skipSpace_tab]

theorem readInt_tab (F : StreamFormat) (s : List Char) :
    readInt F ('\t' :: s) = readInt F s := by
  simp only [readInt, skipSpace_tab]

/-- Reading a weapon back from its text in front of a tab. -/
theorem readWeapon_field (F : StreamFormat) (w : Weapon) (rest : List Char)
    (hname : isToken w.name.data = true) (hd : F.keepsDouble w.damage)
    (hr : F.keepsDouble w.range) (hf : F.keepsDouble w.defense) :
    readWeapon F (w.name.data ++ '\t' :: (F.showDouble w.damage ++ '\t' ::
        (F.showDouble w.range ++ '\t' :: (F.showDouble w.defense ++ '\t' :: rest))))
      = some (w, '\t' :: rest) := by
  simp only [readWeapon, readString_token _ _ hname, readDouble_tab, hd.1, hr.1, hf.1]

theorem readWeapon_tab (F : StreamFormat) (s : List Char) :
    readWeapon F ('\t' :: s) = readWeapon F s := by
  simp only [readWeapon, readString_tab]

theorem writeCreature_nested (F : StreamFormat) (c : Creature) (weaponL weaponR : Weapon)
    (hl : c.weaponL = some weaponL) (hr : c.weaponR = some weaponR) :
    writeCreature F c = some
      (c.className.data ++ '\t' :: (c.name.data ++ '\t' :: (F.showDouble c.posX ++ '\t' ::
        (F.showDouble c.posY ++ '\t' :: (F.showDouble c.posZ ++ '\t' ::
        (F.showInt c.color ++ '\t' ::
        (weaponL.name.data ++ '\t' :: (F.showDouble weaponL.damage ++ '\t' ::
        (F.showDouble weaponL.range ++ '\t' :: (F.showDouble weaponL.defense ++ '\t' ::
        (weaponR.name.data ++ '\t' :: (F.showDouble weaponR.damage ++ '\t' ::
        (F.showDouble weaponR.range ++ '\t' :: (F.showDouble weaponR.defense ++ '\t' ::
        (F.showDouble c.hp ++ '\t' :: F.showDouble c.mana))))))))))))))) := by
  unfold writeCreature
  rw [hl, hr]
  simp [writeWeapon]

/-- C13 (amended): for a creature holding two weapons whose class name, name and weapon
names are non-empty and free of whitespace, whose name is not "autoname", whose
numbers are written as texts that read back as the same numbers, and whose class
description (when the map has one) carries the same class name, writing with
`operator<<` and reading the text back with `operator>>` succeeds, consumes the whole
record and reproduces class name, name, position, color, both weapons' name, damage,
range and defense, hp and mana. -/
theorem C13_round_trip_of_tokens (F : StreamFormat)
    (getClassDescription : String → Option CreatureClass) (uniqueNumber : Int)
    (c0 c : Creature) (weaponL weaponR : Weapon)
    (hl : c.weaponL = some weaponL) (hr : c.weaponR = some weaponR)
    (htok : ∀ s ∈ [c.className, c.name, weaponL.name, weaponR.name], isToken s.data = true)
    (hauto : c.name ≠ "autoname")
    (hnum : ∀ x ∈ [c.posX, c.posY, c.posZ, weaponL.damage, weaponL.range, weaponL.defense,
      weaponR.damage, weaponR.range, weaponR.defense, c.hp, c.mana], F.keepsDouble x)
    (hcolor : F.keepsInt c.color)
    (hclass : ∀ d, getClassDescription c.className = some d → d.className = c.className) :
    RoundTrips F getClassDescription uniqueNumber c0 c
      ∧ ∃ text c1, writeCreature F c = some text
          ∧ readCreature F getClassDescription uniqueNumber c0 text = some (c1, []) := by
  have t1 := htok c.className (by simp)
  have t2 := htok c.name (by simp)
  have t3 := htok weaponL.name (by simp)
  have t4 := htok weaponR.name (by simp)
  have n1 := hnum c.posX (by simp)
  have n2 := hnum c.posY (by simp)
  have n3 := hnum c.posZ (by simp)
  have n4 := hnum weaponL.damage (by simp)
  have n5 := hnum weaponL.range (by simp)
  have n6 := hnum weaponL.defense (by simp)
  have n7 := hnum weaponR.damage (by simp)
  have n8 := hnum weaponR.range (by simp)
  have n9 := hnum weaponR.defense (by simp)
  have n10 := hnum c.hp (by simp)
  have n11 := hnum c.mana (by simp)
  have hname : ¬ (String.mk c.name.data = "autoname") := hauto
  have hread : ∃ c1, readCreature F getClassDescription uniqueNumber c0
        (c.className.data ++ '\t' :: (c.name.data ++ '\t' :: (F.showDouble c.posX ++ '\t' ::
          (F.showDouble c.posY ++ '\t' :: (F.showDouble c.posZ ++ '\t' ::
          (F.showInt c.color ++ '\t' ::
          (weaponL.name.data ++ '\t' :: (F.showDouble weaponL.damage ++ '\t' ::
          (F.showDouble weaponL.range ++ '\t' :: (F.showDouble weaponL.defense ++ '\t' ::
          (weaponR.name.data ++ '\t' :: (F.showDouble weaponR.damage ++ '\t' ::
          (F.showDouble weaponR.range ++ '\t' :: (F.showDouble weaponR.defense ++ '\t' ::
          (F.showDouble c.hp ++ '\t' :: F.showDouble c.mana)))))))))))))))
        = some (c1, [])
      ∧ c1.className = c.className ∧ c1.name = c.name
      ∧ c1.posX = c.posX ∧ c1.posY = c.posY ∧ c1.posZ = c.posZ
      ∧ c1.color = c.color
      ∧ c1.weaponL = c.weaponL ∧ c1.weaponR = c.weaponR
      ∧ c1.hp = c.hp ∧ c1.mana = c.mana := by
    simp only [readCreature, readString_token _ _ t1, readString_tab, readString_token _ _ t2,
      readDouble_tab, readInt_tab, readWeapon_tab, n1.1, n2.1, n3.1, hcolor _, hname, if_false,
      readWeapon_field F weaponL _ t3 n4 n5 n6, readWeapon_field F weaponR _ t4 n7 n8 n9,
      n10.1, n11.2]
    cases hg : getClassDescription c.className with
    | none =>
      refine ⟨_, rfl, ?_⟩
      simp [hl, hr]
    | some d =>
      refine ⟨_, rfl, ?_⟩
      simp [hl, hr, Creature.assign, hclass d hg]
  obtain ⟨c1, hc1, hfields⟩ := hread
  have hw := writeCreature_nested F c weaponL weaponR hl hr
  exact ⟨⟨_, c1, [], hw, hc1, hfields⟩, _, c1, hw, hc1⟩

theorem sampleFormat_keeps_small (x : ℚ) (hx : x ∈ [(0 : ℚ), 1, 2, 10]) :
    sampleFormat.keepsDouble x := by
  have h0 : sampleFormat.showDouble 0 = ['0'] := by decide!
  have h1 : sampleFormat.showDouble 1 = ['1'] := by decide!
  have h2 : sampleFormat.showDouble 2 = ['2'] := by decide!
  have h10 : sampleFormat.showDouble 10 = ['1', '0'] := by decide!
  have d0 : Char.isDigit '0' = true := by decide
  have d1 : Char.isDigit '1' = true := by decide
  have d2 : Char.isDigit '2' = true := by decide
  have dt : Char.isDigit '\t' = false := by decide
  have s0 : isSpace '0' = false := by decide
  have s1 : isSpace '1' = false := by decide
  have s2 : isSpace '2' = false := by decide
  have m0 : ('0' = '-') = False := by decide
  have m1 : ('1' = '-') = False := by decide
  have m2 : ('2' = '-') = False := by decide
  have v0 : Char.toNat '0' = 48 := by decide
  have v1 : Char.toNat '1' = 49 := by decide
  have v2 : Char.toNat '2' = 50 := by decide
  simp only [List.mem_cons, List.mem_singleton, List.not_mem_nil, or_false] at hx
  rcases hx with rfl | rfl | rfl | rfl
  · refine ⟨fun rest => ?_, by decide!⟩
    rw [h0]
    simp [readDouble, skipSpace, sampleFormat, parseWhole, digitsValue, d0, dt, s0, m0, v0]
  · refine ⟨fun rest => ?_, by decide!⟩
    rw [h1]
    simp [readDouble, skipSpace, sampleFormat, parseWhole, digitsValue, d1, dt, s1, m1, v1]
  · refine ⟨fun rest => ?_, by decide!⟩
    rw [h2]
    simp [readDouble, skipSpace, sampleFormat, parseWhole, digitsValue, d2, dt, s2, m2, v2]
  · refine ⟨fun rest => ?_, by decide!⟩
    rw [h10]
    simp [readDouble, skipSpace, sampleFormat, parseWhole, digitsValue, d0, d1, dt, s1, m1,
      v0, v1]

theorem sampleFormat_keeps_one : sampleFormat.keepsInt 1 := by
  intro rest
  have h1 : sampleFormat.showInt 1 = ['1'] := by decide
  have d1 : Char.isDigit '1' = true := by decide
  have dt : Char.isDigit '\t' = false := by decide
  have s1 : isSpace '1' = false := by decide
  have m1 : ('1' = '-') = False := by decide
  have v1 : Char.toNat '1' = 49 := by decide
  rw [h1]
  simp [readInt, skipSpace, sampleFormat, parseWhole, digitsValue, d1, dt, s1, m1, v1]

theorem C13_round_trip_of_tokens_witness :
    writeCreature sampleFormat kobold = some koboldRecord.data
      ∧ kobold.name ≠ "autoname"
      ∧ RoundTrips sampleFormat noClasses 1 Creature.new kobold
      ∧ ∃ text c1, writeCreature sampleFormat kobold = some text
          ∧ readCreature sampleFormat noClasses 1 Creature.new text = some (c1, []) :=
  ⟨by decide!, by decide,
  C13_round_trip_of_tokens sampleFormat noClasses 1 Creature.new kobold club noWeapon rfl rfl
    (by decide) (by decide)
    (fun x hx => sampleFormat_keeps_small x (by
      simp only [List.mem_cons, List.mem_singleton, List.not_mem_nil, or_false] at hx ⊢
      rcases hx with h | h | h | h | h | h | h | h | h | h | h <;> rw [h] <;> decide!))
    sampleFormat_keeps_one
    (fun d hd => Option.noConfusion hd)⟩

/-! ## C21: `walkToTile` -/

theorem evalWalkToTile_aborted (W : World) (E : Env) (c : Creature) (below : ActionType)
    (rest : List ActionType) (h : specWalkAborted W E c below) :
    evalWalkToTile W E c (below :: rest)
      = if (E.clearDestinations c.walkQueue).length = 0 then
          Step.next
            { c with walkQueue := E.clearDestinations c.walkQueue, actionQueue := below :: rest }
            W true
        else Step.next { c with walkQueue := E.clearDestinations c.walkQueue } W false := by
  obtain ⟨hb, hp, d, hd, he, hm⟩ := h
  unfold evalWalkToTile
  simp [hb, hp, hd, he, hm]

theorem evalWalkToTile_kept (W : World) (E : Env) (c : Creature) (below : ActionType)
    (rest : List ActionType) (h : ¬ specWalkAborted W E c below) :
    evalWalkToTile W E c (below :: rest)
      = if c.walkQueue.length = 0 then Step.next { c with actionQueue := below :: rest } W true
        else Step.next c W false := by
  unfold evalWalkToTile
  simp only []
  by_cases hb : below = ActionType.digTile
  · rw [if_pos hb]
    cases hd : c.walkQueue.getLast? with
    | none => rfl
    | some d =>
      simp only []
      by_cases hc : W.tileExists d = true ∧ E.hasPlayer = true ∧ ¬ (W.tile d).marked = true
      · exfalso
        exact h ⟨hb, hc.2.1, d, hd, hc.1, by simpa using hc.2.2⟩
      · rw [if_neg hc]
  · rw [if_neg hb]

/-- C21: for every queue with `walkToTile` on top of an entry `below`: the walk is
aborted (`clearDestinations` is applied to the walk queue) exactly when `below` is
`digTile`, a controlling player exists, and the tile at the last queued destination
exists and is not marked for digging; otherwise the walk queue is left as it is. If
the walk queue is then empty, the evaluation pops exactly `walkToTile` and signals
re-evaluation; if it is non-empty (and the walk was not aborted), creature and queue
are unchanged and the tick ends. In every reachable state with `walkToTile` on top
there is an entry below it. -/
theorem C21_walkToTile (X : Ext) (W : World) (E : Env) (S : Snapshot) (c : Creature)
    (below : ActionType) (rest : List ActionType) :
    (specWalkAborted W E c below →
        evalAction X W E S c ActionType.walkToTile (below :: rest)
          = if (E.clearDestinations c.walkQueue).length = 0 then
              Step.next
                { c with
                  walkQueue := E.clearDestinations c.walkQueue
                  actionQueue := below :: rest }
                W true
            else Step.next { c with walkQueue := E.clearDestinations c.walkQueue } W false)
      ∧ (¬ specWalkAborted W E c below → c.walkQueue = [] →
        evalAction X W E S c ActionType.walkToTile (below :: rest)
          = Step.next { c with actionQueue := below :: rest } W true)
      ∧ (¬ specWalkAborted W E c below → c.walkQueue ≠ [] →
        evalAction X W E S c ActionType.walkToTile (below :: rest) = Step.next c W false)
      ∧ (∀ q, Reachable X c → c.actionQueue = ActionType.walkToTile :: q → q ≠ []) := by
  refine ⟨?_, ?_, ?_, ?_⟩
  · intro h
    exact evalWalkToTile_aborted W E c below rest h
  · intro h h0
    show evalWalkToTile W E c (below :: rest) = _
    rw [evalWalkToTile_kept W E c below rest h, h0]
    rfl
  · intro h h0
    show evalWalkToTile W E c (below :: rest) = _
    rw [evalWalkToTile_kept W E c below rest h, if_neg]
    intro hl
    exact h0 (List.length_eq_zero.mp hl)
  · intro q hr hq hnil
    have hidle := reachable_hasIdle X c hr
    unfold HasIdle at hidle
    rw [hq, hnil] at hidle
    simp at hidle

/-- C21 at a creature walking to the tile (1, 0), which is no longer marked: the walk
queue is cleared and `walkToTile` is popped. -/
theorem C21_walkToTile_witness :
    specWalkAborted sampleWorld sampleEnv digWalker ActionType.digTile
      ∧ evalAction sampleExt sampleWorld sampleEnv digSnapshot digWalker ActionType.walkToTile
          [ActionType.digTile, ActionType.idle]
        = Step.next
            { digWalker with
              walkQueue := []
              actionQueue := [ActionType.digTile, ActionType.idle] }
            sampleWorld true :=
  ⟨⟨rfl, rfl, (1, 0), rfl, rfl, rfl⟩,
    (C21_walkToTile sampleExt sampleWorld sampleEnv digSnapshot digWalker ActionType.digTile
      [ActionType.idle]).1 ⟨rfl, rfl, (1, 0), rfl, rfl, rfl⟩⟩

/-! ## C22: the pruning of the candidate paths -/

/-- C22 fails on the code: the scan for the entry to evict stores `shortPaths.size()`
in `longestLength` (line 919) instead of the length of the path. Of six valid
candidate paths with 2, 3, 5, 2, 2, 2 tiles the path of 3 tiles is evicted and the
path of 5 tiles is retained. -/
theorem C22_shorter_path_discarded :
    shortPathsOf sixPaths
        = [rowPath 0 2, rowPath 2 5, rowPath 3 2, rowPath 4 2, rowPath 5 2]
      ∧ longestIndex sixPaths = 1
      ∧ rowPath 1 3 ∈ sixPaths ∧ 2 ≤ (rowPath 1 3).length
      ∧ rowPath 1 3 ∉ shortPathsOf sixPaths
      ∧ rowPath 2 5 ∈ shortPathsOf sixPaths
      ∧ (rowPath 1 3).length < (rowPath 2 5).length := by
  have hkept : shortPathsOf sixPaths
      = [rowPath 0 2, rowPath 2 5, rowPath 3 2, rowPath 4 2, rowPath 5 2] := by decide
  rw [hkept]
  refine ⟨rfl, by decide, by decide, by decide, by decide, by decide, by decide⟩

/-! ## C23: carried gold and the ceiling -/

/-- C23, as stated, fails: a worker carrying 1500 gold, the ceiling, that digs at a
marked gold tile of fullness 5 with dig rate 10 carries 1625 gold afterwards; the
ceiling only makes it switch to `depositGold`. -/
theorem C23_counterexample :
    (ladenDigger.gold : ℚ) ≥ sampleExt.maxGoldCarriedByWorkers
      ∧ (evalDigTile sampleExt goldWorld sampleEnv digSnapshot ladenDigger
          [ActionType.idle]).gold = some 1625
      ∧ (1625 : Int) > ladenDigger.gold
      ∧ (1625 : ℚ) > sampleExt.maxGoldCarriedByWorkers
      ∧ (evalDigTile sampleExt goldWorld sampleEnv digSnapshot ladenDigger
          [ActionType.idle]).queue = some [ActionType.depositGold, ActionType.idle] := by
  refine ⟨by decide!, by decide!, by decide!, by decide!, by decide!⟩

theorem digSearch_gold (W : World) (E : Env) (S : Snapshot) (c : Creature)
    (top : ActionType) (rest : List ActionType) :
    ∃ c1 W1 lb, digSearch W E S c top rest = Step.next c1 W1 lb ∧ c1.gold = c.gold
      ∧ (top ≠ ActionType.digTile →
          c1.actionQueue = rest ∨ c1.actionQueue = top :: rest
            ∨ c1.actionQueue = ActionType.walkToTile :: top :: rest) := by
  unfold digSearch
  simp only []
  repeat' split
  all_goals exact ⟨_, _, _, rfl, rfl, fun h => by simp_all⟩

/-- Truncation toward zero does not lead above a non-negative bound. -/
theorem truncToInt_le (v b : ℚ) (hb : 0 ≤ b) (h : v ≤ b) : (truncToInt v : ℚ) ≤ b := by
  unfold truncToInt
  split_ifs with hv
  · exact le_trans (Int.floor_le v) h
  · have h0 : ⌈v⌉ ≤ 0 := Int.ceil_le.mpr (by push_cast; exact le_of_lt (not_le.mp hv))
    have h1 : ((⌈v⌉ : Int) : ℚ) ≤ 0 := by exact_mod_cast h0
    exact le_trans h1 hb

/-- C23 (amended): carried gold is not clamped. One evaluation of `digTile` always
yields a step; it leaves carried gold unchanged, or, when the first neighbour marked
for digging by the controlling player is a gold tile, replaces it by the sum of the
carried gold and `25 * min(digRate, fullness)` of that tile, truncated to a whole
number, whatever the carried amount; so with non-negative carried gold and dig rate
carried gold grows by at most `25 * digRate`. Whenever carried gold is at or above
`maxGoldCarriedByWorkers` after the evaluation, the evaluated `digTile` entry is
gone: the queue is the entries below it, or `depositGold` on top of them, or
`walkToTile` and `depositGold` on top of them. -/
theorem C23_gold_not_clamped (X : Ext) (W : World) (E : Env) (S : Snapshot) (c : Creature)
    (rest : List ActionType) :
    ∃ c1 W1 lb, evalDigTile X W E S c rest = Step.next c1 W1 lb
      ∧ (c1.gold = c.gold
          ∨ ∃ p, (E.neighborTilesXY c.posX c.posY).find?
                (fun p => E.hasPlayer && (W.tile p).marked) = some p
              ∧ (W.tile p).type = TileType.gold
              ∧ c1.gold
                = truncToInt ((c.gold : ℚ) + 25 * min c.digRate ((W.tile p).fullness : ℚ)))
      ∧ (0 ≤ c.gold → 0 ≤ c.digRate → (c1.gold : ℚ) ≤ (c.gold : ℚ) + 25 * c.digRate)
      ∧ ((c1.gold : ℚ) ≥ X.maxGoldCarriedByWorkers →
          c1.actionQueue = rest ∨ c1.actionQueue = ActionType.depositGold :: rest
            ∨ c1.actionQueue
              = ActionType.walkToTile :: ActionType.depositGold :: rest) := by
  unfold evalDigTile
  simp only []
  split
  · exact ⟨_, _, _, rfl, Or.inl rfl, fun _ h => by linarith, fun _ => Or.inl rfl⟩
  · split
    · rename_i p hp
      refine ⟨_, _, _, rfl, ?_, ?_, ?_⟩
      · simp only [apply_ite Creature.gold, recieveExp, ite_self]
        by_cases hg : (W.tile p).type = TileType.gold
        · right
          exact ⟨p, hp, hg, by rw [if_pos hg]⟩
        · left
          rw [if_neg hg]
      · intro hg0 hd
        have hg0q : (0 : ℚ) ≤ (c.gold : ℚ) := by exact_mod_cast hg0
        have hmin : min c.digRate ((W.tile p).fullness : ℚ) ≤ c.digRate := min_le_left _ _
        simp only [apply_ite Creature.gold, recieveExp, ite_self]
        split
        · exact truncToInt_le _ _ (by linarith) (by linarith)
        · linarith
      · simp only [apply_ite Creature.gold, apply_ite Creature.actionQueue, recieveExp,
          ite_self]
        intro hge
        rw [if_pos hge]
        exact Or.inr (Or.inl rfl)
    · split
      · obtain ⟨c1, W1, lb, h1, h2, h3⟩ :=
          digSearch_gold W E S { c with actionQueue := ActionType.depositGold :: rest }
            ActionType.depositGold rest
        refine ⟨c1, W1, lb, h1, Or.inl h2, ?_, ?_⟩
        · intro _ hd
          rw [h2]
          show (c.gold : ℚ) ≤ (c.gold : ℚ) + 25 * c.digRate
          linarith
        · intro _
          rcases h3 (by decide) with h | h | h
          · exact Or.inl h
          · exact Or.inr (Or.inl h)
          · exact Or.inr (Or.inr h)
      · rename_i hlt
        obtain ⟨c1, W1, lb, h1, h2, _⟩ := digSearch_gold W E S c ActionType.digTile rest
        refine ⟨c1, W1, lb, h1, Or.inl h2, ?_, ?_⟩
        · intro _ hd
          rw [h2]
          linarith
        · intro hge
          rw [h2] at hge
          exact absurd hge hlt

/-- C23 (amended) at a worker of dig rate 2.5 carrying no gold, next to the marked gold
tile of fullness 5: the sum `0 + 25 * 2.5 = 62.5` is stored as 62. -/
theorem C23_gold_not_clamped_witness :
    (evalDigTile sampleExt goldWorld sampleEnv digSnapshot slowDigger
        [ActionType.idle]).gold = some 62
      ∧ truncToInt ((slowDigger.gold : ℚ)
          + 25 * min slowDigger.digRate ((goldWorld.tile (1, 0)).fullness : ℚ)) = 62
      ∧ ∃ c1 W1 lb, evalDigTile sampleExt goldWorld sampleEnv digSnapshot slowDigger
            [ActionType.idle] = Step.next c1 W1 lb
          ∧ (0 ≤ slowDigger.gold → 0 ≤ slowDigger.digRate →
              (c1.gold : ℚ) ≤ (slowDigger.gold : ℚ) + 25 * slowDigger.digRate) := by
  refine ⟨by decide!, by decide!, ?_⟩
  obtain ⟨c1, W1, lb, h1, _, h3, _⟩ :=
    C23_gold_not_clamped sampleExt goldWorld sampleEnv digSnapshot slowDigger
      [ActionType.idle]
  exact ⟨c1, W1, lb, h1, h3⟩

/-! ## C24: `depositGold` does not look at the owner of the treasury -/

/-- C24 fails on the code: the case `depositGold` tests only that the covering room is
a treasury (line 963), not whose it is. A creature standing on a tile covered by a
treasury of any color `roomColor`, its own or another, hands over what the treasury
accepts; a creature of faction 1 carrying 100 gold on a treasury of faction 2 that
accepts everything carries 0 gold afterwards and pops `depositGold`. -/
theorem C24_foreign_treasury_takes_gold :
    (∀ (X : Ext) (W : World) (E : Env) (c : Creature) (rest : List ActionType) (p : Pos)
        (roomColor : Int),
        (evalDepositGold X W (E.standingOn p ⟨RoomType.treasury, roomColor⟩) c rest).gold
          = some (c.gold - E.depositGold c.gold))
      ∧ carrier.color ≠ 2
      ∧ (evalDepositGold sampleExt sampleWorld
          (greedyEnv.standingOn (0, 0) ⟨RoomType.treasury, 2⟩) carrier [ActionType.idle]).gold
        = some 0
      ∧ (evalDepositGold sampleExt sampleWorld
          (greedyEnv.standingOn (0, 0) ⟨RoomType.treasury, 2⟩) carrier [ActionType.idle]).queue
        = some [ActionType.idle] := by
  refine ⟨?_, by decide, by decide!, by decide!⟩
  intro X W E c rest p roomColor
  unfold evalDepositGold
  simp only [Env.standingOn]
  repeat' split
  all_goals simp_all [Step.gold]

/-! ## The move over the battlefield -/

theorem maneuverMove_eq (X : Ext) (W : World) (E : Env) (S : Snapshot) (c : Creature)
    (walkQueue : List Pos) (rest : List ActionType) (my : Pos) (weaponL weaponR : Weapon)
    (hmy : E.positionTile = some my) (hl : c.weaponL = some weaponL)
    (hr : c.weaponR = some weaponR) :
    maneuverMove X W E S c walkQueue rest
      = match (if maneuverScore X W E c my > 0 then
            (computeBattlefield X.sqrt E.jitterDraw W c).battleField.min
          else (computeBattlefield X.sqrt E.jitterDraw W c).battleField.max) with
        | none => Step.undefined
        | some extreme => maneuverToward X W E S c walkQueue rest my weaponL weaponR extreme := by
  unfold maneuverMove
  simp only [hmy, hl, hr]
  rfl

theorem maneuverCap_mono (r1 r2 : Nat) (h : r1 ≤ r2) : maneuverCap r1 ≤ maneuverCap r2 := by
  unfold maneuverCap
  have h1 : (0 : ℚ) ≤ max 5 ((r1 : ℚ) / (4 / 10)) := le_trans (by norm_num) (le_max_left _ _)
  have h2 : (0 : ℚ) ≤ max 5 ((r2 : ℚ) / (4 / 10)) := le_trans (by norm_num) (le_max_left _ _)
  have hle : max 5 ((r1 : ℚ) / (4 / 10)) ≤ max 5 ((r2 : ℚ) / (4 / 10)) := by
    apply max_le_max (le_refl _)
    have : (r1 : ℚ) ≤ (r2 : ℚ) := by exact_mod_cast h
    apply div_le_div_of_nonneg_right this (by norm_num)
  unfold truncToInt
  rw [if_pos h1, if_pos h2]
  exact Int.toNat_le_toNat (Int.floor_le_floor hle)

theorem maneuverCap_ge (r : Nat) : 5 ≤ maneuverCap r := by
  unfold maneuverCap
  have h1 : (0 : ℚ) ≤ max 5 ((r : ℚ) / (4 / 10)) := le_trans (by norm_num) (le_max_left _ _)
  unfold truncToInt
  rw [if_pos h1]
  have h5 : (5 : Int) ≤ ⌊max 5 ((r : ℚ) / (4 / 10))⌋ := by
    apply Int.le_floor.mpr
    exact_mod_cast (le_max_left (5 : ℚ) _)
  omega

theorem maneuverPath_length (X : Ext) (E : Env) (S : Snapshot) (my : Pos)
    (weaponL weaponR : Weapon) (extreme : Pos × ℚ) :
    (maneuverPath X E S my weaponL weaponR extreme).length
      ≤ maneuverCap S.rangeToNearestEnemyObject := by
  unfold maneuverPath
  simp only []
  split
  · rw [List.length_take]
    exact min_le_left _ _
  · rename_i h
    exact le_of_lt (not_le.mp h)

/-! ## C25: the cap on the walk of `maneuver` -/

/-- C25, as stated, fails: the cap does not fall with the range, it grows with it; at
range 2 it is 5 tiles and at range 4 it is 10 tiles. -/
theorem C25_counterexample :
    2 ≤ 4 ∧ maneuverCap 2 = 5 ∧ maneuverCap 4 = 10 ∧ ¬ (maneuverCap 2 ≥ maneuverCap 4) := by
  refine ⟨by decide, by decide!, by decide!, by decide!⟩

/-- C25 (amended): the cap `max(5, range/0.4)` on the walk of `maneuver` grows with the
distance to the nearest enemy: for all ranges `r1 <= r2` the cap for `r1` is at most
the cap for `r2` (closer enemies never allow a longer uninterrupted walk than farther
ones), and it is never below 5. In `maneuver` with no enemy in range the path handed
to `cutCorners` never has more tiles than the cap, and when `cutCorners` does not
lengthen paths neither has the path handed to `setWalkPath`. -/
theorem C25_cap_grows_with_range (X : Ext) (W : World) (E : Env) (S : Snapshot)
    (c : Creature) (walkQueue : List Pos) (rest : List ActionType) (my : Pos)
    (weaponL weaponR : Weapon)
    (hmy : E.positionTile = some my) (hl : c.weaponL = some weaponL)
    (hr : c.weaponR = some weaponR) :
    (∀ r1 r2 : Nat, r1 ≤ r2 → maneuverCap r1 ≤ maneuverCap r2)
      ∧ (∀ r : Nat, 5 ≤ maneuverCap r)
      ∧ (maneuverMove X W E S c walkQueue rest = Step.undefined
          ∨ ∃ extreme,
              maneuverMove X W E S c walkQueue rest
                = maneuverToward X W E S c walkQueue rest my weaponL weaponR extreme
              ∧ (maneuverPath X E S my weaponL weaponR extreme).length
                  ≤ maneuverCap S.rangeToNearestEnemyObject
              ∧ ((∀ p, (E.cutCorners p).length ≤ p.length) →
                  (E.cutCorners (maneuverPath X E S my weaponL weaponR extreme)).length
                    ≤ maneuverCap S.rangeToNearestEnemyObject)) := by
  refine ⟨maneuverCap_mono, maneuverCap_ge, ?_⟩
  rw [maneuverMove_eq X W E S c walkQueue rest my weaponL weaponR hmy hl hr]
  cases (if maneuverScore X W E c my > 0 then
      (computeBattlefield X.sqrt E.jitterDraw W c).battleField.min
    else (computeBattlefield X.sqrt E.jitterDraw W c).battleField.max) with
  | none => exact Or.inl rfl
  | some extreme =>
    refine Or.inr ⟨extreme, rfl, maneuverPath_length X E S my weaponL weaponR extreme, ?_⟩
    intro hcut
    exact le_trans (hcut _) (maneuverPath_length X E S my weaponL weaponR extreme)

/-- C25 (amended) at the skirmisher on tile (0, 0) with the nearest enemy at range 2:
the cap is 5 and the walk is defined. -/
theorem C25_cap_grows_with_range_witness :
    sampleEnv.positionTile = some (0, 0)
      ∧ skirmisher.weaponL = some sword ∧ skirmisher.weaponR = some sword
      ∧ maneuverCap alertSnapshot.rangeToNearestEnemyObject = 5
      ∧ (maneuverMove sampleExt sampleWorld sampleEnv alertSnapshot skirmisher []
          [ActionType.idle]).walkQueue.isSome = true
      ∧ (∀ r1 r2 : Nat, r1 ≤ r2 → maneuverCap r1 ≤ maneuverCap r2) :=
  ⟨rfl, rfl, rfl, by decide!, by decide!,
    (C25_cap_grows_with_range sampleExt sampleWorld sampleEnv alertSnapshot skirmisher []
      [ActionType.idle] (0, 0) sword sword rfl rfl rfl).1⟩

/-! ## C26: which end of the battlefield `maneuver` walks to -/

/-- C26, as stated, fails: the skirmisher stands on (0, 0) with the enemy on (3, 0);
its own tile has the negative score -1/20, the battlefield minimum is at (2, 0) and
the maximum at (0, 0); the destination queued is the tile of the maximum, (0, 0), not
the tile of the minimum. -/
theorem C26_counterexample :
    maneuverScore sampleExt sampleWorld sampleEnv skirmisher (0, 0) = -1 / 20
      ∧ (computeBattlefield sampleExt.sqrt sampleEnv.jitterDraw sampleWorld
          skirmisher).battleField.min = some ((2, 0), -1 / 4)
      ∧ (computeBattlefield sampleExt.sqrt sampleEnv.jitterDraw sampleWorld
          skirmisher).battleField.max = some ((0, 0), -1 / 20)
      ∧ (maneuverMove sampleExt sampleWorld sampleEnv alertSnapshot skirmisher []
          [ActionType.idle]).walkQueue = some [(0, 0)] := by
  refine ⟨by decide!, by decide!, by decide!, by decide!⟩

/-- C26 (amended): in `maneuver` with no enemy in range, when the score of the agent's
current tile is positive the destination is drawn around the battlefield's global
minimum (the branch the source labels "Attack"), and when it is zero or negative
around the global maximum (the branch labelled "Retreat"). -/
theorem C26_positive_score_walks_to_minimum (X : Ext) (W : World) (E : Env) (S : Snapshot)
    (c : Creature) (walkQueue : List Pos) (rest : List ActionType) (my : Pos)
    (weaponL weaponR : Weapon)
    (hmy : E.positionTile = some my) (hl : c.weaponL = some weaponL)
    (hr : c.weaponR = some weaponR) :
    (maneuverScore X W E c my > 0 →
        ∀ extreme,
          (computeBattlefield X.sqrt E.jitterDraw W c).battleField.min = some extreme →
          maneuverMove X W E S c walkQueue rest
            = maneuverToward X W E S c walkQueue rest my weaponL weaponR extreme)
      ∧ (maneuverScore X W E c my ≤ 0 →
        ∀ extreme,
          (computeBattlefield X.sqrt E.jitterDraw W c).battleField.max = some extreme →
          maneuverMove X W E S c walkQueue rest
            = maneuverToward X W E S c walkQueue rest my weaponL weaponR extreme) := by
  rw [maneuverMove_eq X W E S c walkQueue rest my weaponL weaponR hmy hl hr]
  refine ⟨?_, ?_⟩
  · intro hpos extreme hmin
    rw [if_pos hpos, hmin]
  · intro hle extreme hmax
    rw [if_neg (not_lt.mpr hle), hmax]

/-- C26 (amended) at the skirmisher, whose tile has a negative score: it walks to the
tile of the maximum. -/
theorem C26_positive_score_walks_to_minimum_witness :
    sampleEnv.positionTile = some (0, 0)
      ∧ skirmisher.weaponL = some sword ∧ skirmisher.weaponR = some sword
      ∧ maneuverScore sampleExt sampleWorld sampleEnv skirmisher (0, 0) ≤ 0
      ∧ maneuverMove sampleExt sampleWorld sampleEnv alertSnapshot skirmisher []
          [ActionType.idle]
        = maneuverToward sampleExt sampleWorld sampleEnv alertSnapshot skirmisher []
            [ActionType.idle] (0, 0) sword sword ((0, 0), -1 / 20) :=
  ⟨rfl, rfl, rfl, by decide!,
    (C26_positive_score_walks_to_minimum sampleExt sampleWorld sampleEnv alertSnapshot
      skirmisher [] [ActionType.idle] (0, 0) sword sword rfl rfl rfl).2 (by decide!)
      ((0, 0), -1 / 20) (by decide!)⟩

/-! ## C27: the strafe is not rotated -/

theorem strafe_eq (X : Ext) (W : World) (E : Env) (S : Snapshot) (c : Creature) (e : Nat)
    (my : Pos) (hdraw : randomDouble 0 1 E.strafeDraw < 3 / 10)
    (he : S.nearestEnemyObject = some e) (hmy : E.positionTile = some my) :
    strafe X W E S c
      = if W.tileExists (strafeTarget X W E c e my) then
          some (E.setWalkPath c.walkQueue
            (E.path (some my) (some (strafeTarget X W E c e my))) 2 false).2
        else some c.walkQueue := by
  unfold strafe
  simp only [hdraw, if_true, he, hmy]
  rfl

/-- C27 fails on the code: the quaternion built at line 1223 is never applied, so the
strafe target lies along the vector toward the enemy, not across it. The vector added
to the position tile is always parallel to the vector to the enemy (their cross
product is 0), and the target is the position tile plus that vector. For a creature at (0, 0) with the nearest enemy on tile (1, 0) and
magnitude 2 the target is (2, 0): the displacement (2, 0) and the vector to the enemy
(1, 0) have dot product 2. -/
theorem C27_strafe_along_enemy_vector :
    (∀ (X : Ext) (W : World) (E : Env) (c : Creature) (e : Nat),
        (strafeVector X W E c e).1 * (enemyVector W c e).2
          - (strafeVector X W E c e).2 * (enemyVector W c e).1 = 0)
      ∧ (∀ (X : Ext) (W : World) (E : Env) (S : Snapshot) (c : Creature) (e : Nat) (my : Pos),
          randomDouble 0 1 E.strafeDraw < 3 / 10 → S.nearestEnemyObject = some e →
          E.positionTile = some my →
          strafe X W E S c
            = if W.tileExists (strafeTarget X W E c e my) then
                some (E.setWalkPath c.walkQueue
                  (E.path (some my) (some (strafeTarget X W E c e my))) 2 false).2
              else some c.walkQueue)
      ∧ strafe sampleExt nearWorld strafeEnv alertSnapshot Creature.new = some [(2, 0)]
      ∧ strafeTarget sampleExt nearWorld strafeEnv Creature.new 0 (0, 0) = (2, 0)
      ∧ enemyVector nearWorld Creature.new 0 = (1, 0)
      ∧ strafeVector sampleExt nearWorld strafeEnv Creature.new 0 = (2, 0)
      ∧ (strafeVector sampleExt nearWorld strafeEnv Creature.new 0).1
            * (enemyVector nearWorld Creature.new 0).1
          + (strafeVector sampleExt nearWorld strafeEnv Creature.new 0).2
            * (enemyVector nearWorld Creature.new 0).2 = 2 := by
  refine ⟨?_, strafe_eq, by decide!, by decide!, by decide!, by decide!, by decide!⟩
  intro X W E c e
  unfold strafeVector enemyVector
  simp only []
  split <;> ring

/-! ## C28: the wander target of idle -/

/-- C28 fails on the code: `tempX` and `tempY` (line 499) are assigned only inside the
loop over the reachable allies of a non-worker (lines 507-527). For every worker (dig
rate not below 0.1), and for every non-worker that decides to follow and has no
reachable ally, the path query of line 560 is issued with the unassigned values. The
freshly constructed creature (a worker at (0, 0)) wandering with dice roll 0.5 queues
a walk to whatever the unassigned `tempX` holds: to (2, 0) when it holds 2 and to
(1, 0) when it holds 1. -/
theorem C28_wander_target_unassigned :
    (∀ (W : World) (E : Env) (c : Creature), ¬ c.digRate < 1 / 10 →
        idleWander W E c = wanderTo E c (none, none))
      ∧ (∀ (W : World) (E : Env) (c : Creature), c.digRate < 1 / 10 →
          randomDouble 0 1 E.followDraw < 3 / 10 → c.reachableAlliedObjects = [] →
          idleWander W E c = wanderTo E c (none, none))
      ∧ (∀ (E : Env) (c : Creature) (p : Pos), E.positionTile = some p →
          wanderTo E c (none, none)
            = (E.setWalkPath c.walkQueue
                (E.cutCorners (E.pathXY p.1 p.2 E.uninitX E.uninitY)) 2 false).2)
      ∧ (evalIdle sampleExt sampleWorld { sampleEnv with uninitX := 2 } Creature.new
          []).walkQueue = some [(2, 0)]
      ∧ (evalIdle sampleExt sampleWorld { sampleEnv with uninitX := 1 } Creature.new
          []).walkQueue = some [(1, 0)]
      ∧ (evalIdle sampleExt sampleWorld { sampleEnv with uninitX := 2, followDraw := 0 }
          homeless []).walkQueue = some [(2, 0)] := by
  refine ⟨?_, ?_, ?_, by decide!, by decide!, by decide!⟩
  · intro W E c h
    unfold idleWander
    rw [if_neg h]
  · intro W E c h hf h0
    unfold idleWander
    rw [if_pos h, if_pos hf, h0]
    rfl
  · intro E c p hp
    unfold wanderTo
    simp only [hp, Option.getD_none]

/-! ## C29: what the candidate pool of `claimTile` holds -/

theorem claimableTiles_foldl_all (W : World) (E : Env) (color : Int) (P : Pos → Bool)
    (hP : ∀ p, claimedFor W color p = true → P p = true) (visibleTiles : List Pos) :
    ∀ acc : List Pos, acc.all P = true →
      (visibleTiles.foldl
        (fun acc v =>
          if claimable W color v then
            acc ++ (E.neighborTiles v).filter (claimedFor W color)
          else acc) acc).all P = true := by
  induction visibleTiles with
  | nil => intro acc h; exact h
  | cons v rest ih =>
    intro acc h
    simp only [List.foldl_cons]
    apply ih
    split
    · rw [List.all_append, h, Bool.true_and]
      rw [List.all_eq_true]
      intro p hp
      exact hP p (List.mem_filter.mp hp).2
    · exact h

theorem claimedFor_not_claimable (W : World) (color : Int) (p : Pos)
    (h : claimedFor W color p = true) : (!claimable W color p) = true := by
  unfold claimedFor at h
  unfold claimable
  simp only [Bool.and_eq_true, decide_eq_true_eq] at h
  have h2 : ¬ (W.tile p).colorDouble < 1 := not_lt.mpr h.2
  simp [h.1, h2]

/-- C29 fails on the code: the inner loop over the neighbours reassigns `tempTile`
(line 719) before `claimableTiles.push_back(tempTile)` (line 722), so what is pushed
is not the claimable visible tile but its neighbour that is fully claimed for the
agent's faction. Every entry of the pool is fully claimed for the faction and none is
claimable. On the corridor with (0, 0), (1, 0) claimed and (2, 0) open the pool is
`[(1, 0)]` and the creature on (0, 0) starts walking to the claimed tile (1, 0). -/
theorem C29_pool_holds_claimed_tiles :
    (∀ (W : World) (E : Env) (color : Int) (visibleTiles : List Pos),
        (claimableTiles W E color visibleTiles).all (claimedFor W color) = true)
      ∧ (∀ (W : World) (E : Env) (color : Int) (visibleTiles : List Pos),
        (claimableTiles W E color visibleTiles).all (fun p => !claimable W color p) = true)
      ∧ claimable sampleWorld 0 (2, 0) = true
      ∧ claimableTiles sampleWorld sampleEnv 0 [(0, 0), (1, 0), (2, 0)] = [(1, 0)]
      ∧ claimedFor sampleWorld 0 (1, 0) = true
      ∧ (evalClaimTile sampleWorld sampleEnv calmSnapshot claimer
          [ActionType.idle]).walkQueue = some [(1, 0)] := by
  refine ⟨?_, ?_, by decide!, by decide!, by decide!, by decide!⟩
  · intro W E color visibleTiles
    exact claimableTiles_foldl_all W E color _ (fun _ h => h) visibleTiles [] rfl
  · intro W E color visibleTiles
    exact claimableTiles_foldl_all W E color _ (claimedFor_not_claimable W color)
      visibleTiles [] rfl

/-! ## C30: the selection loops of `claimTile` end -/

theorem randomUint_lt (raw n : Nat) (h : 1 ≤ n) : randomUint raw 0 (n - 1) < n := by
  unfold randomUint
  have : n - 1 - 0 + 1 = n := by omega
  rw [this, Nat.zero_add]
  exact Nat.mod_lt _ (by omega)

theorem candidate_mem (pool : List Pos) (raw : Nat) (h : 1 ≤ pool.length) :
    pool.getD (randomUint raw 0 (pool.length - 1)) (0, 0) ∈ pool := by
  have hlt := randomUint_lt raw pool.length h
  rw [List.getD_eq_getElem _ _ hlt]
  exact List.getElem_mem _

theorem selectCandidateWithin_some (W : World) (E : Env) (color : Int) (pool : List Pos)
    (outer : Nat) (hpool : 1 ≤ pool.length) (fuel : Nat) :
    ∀ t, pool.length ≤ t + fuel → t ≤ pool.length - 1 →
      ∃ r, selectCandidateWithin W E color pool outer fuel t = some r
        ∧ r.2 ≤ pool.length - 1 ∧ r.1 ∈ pool
        ∧ selectCandidate W E color pool outer fuel t = r := by
  induction fuel with
  | zero => intro t h1 h2; omega
  | succ n ih =>
    intro t h1 h2
    simp only [selectCandidateWithin, selectCandidate]
    split
    · exact ⟨_, rfl, h2, candidate_mem pool _ hpool, rfl⟩
    · split
      · exact ⟨_, rfl, h2, candidate_mem pool _ hpool, rfl⟩
      · rename_i hlt
        exact ih (t + 1) (by omega) (by omega)

theorem claimFarLoopWithin_some (W : World) (E : Env) (color : Int) (myTile : Pos)
    (fuel : Nat) :
    ∀ (outer : Nat) (pool walkQueue : List Pos), pool.length ≤ fuel →
      claimFarLoopWithin W E color myTile fuel outer pool walkQueue
        = some (claimFarLoop W E color myTile fuel outer pool walkQueue) := by
  induction fuel with
  | zero =>
    intro outer pool walkQueue h
    have h0 : pool.length = 0 := by omega
    simp [claimFarLoopWithin, claimFarLoop, h0]
  | succ n ih =>
    intro outer pool walkQueue h
    by_cases h0 : pool.length = 0
    · simp [claimFarLoopWithin, claimFarLoop, h0]
    · obtain ⟨r, hr, _, hmem, hagree⟩ :=
        selectCandidateWithin_some W E color pool outer (by omega) pool.length 0
          (by omega) (by omega)
      simp only [claimFarLoopWithin, claimFarLoop, h0, if_false, hr, hagree]
      split
      · rfl
      · apply ih
        rw [List.length_erase_of_mem hmem]
        omega

theorem claimBar_last (k n : Nat) (h : 2 ≤ n) : (claimBar k (n - 1) n).leZero = true := by
  have h1 : ¬ (n - 1 = 0) := by omega
  have hpos : ((n - 1 : Nat) : ℚ) ≠ 0 := by exact_mod_cast h1
  have hk : (0 : ℚ) ≤ (k : ℚ) := by exact_mod_cast Nat.zero_le k
  simp only [claimBar, h1, if_false, Bar.leZero, decide_eq_true_eq]
  rw [div_self hpos]
  linarith

/-- C30, as stated, fails for a pool of one candidate: after `n - 1 = 0` rejections the
bar of the candidate (1, 0), which has one claimed neighbour, is `1 - 1/4 - 0/0.0`,
not a number, so it is not `<= 0`; the loop is left in its first pass all the same. -/
theorem C30_counterexample :
    [((1, 0) : Pos)].length = 1
      ∧ ((sampleEnv.neighborTiles (1, 0)).filter (claimedFor sampleWorld 0)).length = 1
      ∧ (claimBar 1 0 [((1, 0) : Pos)].length).leZero = false
      ∧ selectCandidateWithin sampleWorld sampleEnv 0 [(1, 0)] 0 1 0 = some ((1, 0), 0) := by
  refine ⟨rfl, by decide!, by decide!, by decide!⟩

/-- C30 (amended): for every pool of `n >= 1` candidates and every sequence of draws,
the inner selection loop is left after at most `n` passes (at most `n - 1`
rejections) with a candidate of the pool; for `n >= 2` the bar after `n - 1`
rejections is `<= 0`, for `n = 1` the bar is not a number (the loop is left through
the safety catch). The outer loop removes one pool entry per failed candidate and is
left within as many passes as the pool has entries at the start. -/
theorem C30_selection_ends (W : World) (E : Env) (color : Int) (myTile : Pos)
    (pool : List Pos) (outer : Nat) (walkQueue : List Pos) (hpool : 1 ≤ pool.length) :
    (∃ r, selectCandidateWithin W E color pool outer pool.length 0 = some r
        ∧ r.2 + 1 ≤ pool.length ∧ r.1 ∈ pool
        ∧ selectCandidate W E color pool outer pool.length 0 = r)
      ∧ (∀ k : Nat, 2 ≤ pool.length →
          (claimBar k (pool.length - 1) pool.length).leZero = true)
      ∧ (∀ k : Nat, pool.length = 1 → claimBar k (pool.length - 1) pool.length = Bar.nan)
      ∧ claimFarLoopWithin W E color myTile pool.length outer pool walkQueue
          = some (claimFarLoop W E color myTile pool.length outer pool walkQueue)
      ∧ (∀ p ∈ pool, (pool.erase p).length + 1 = pool.length) := by
  refine ⟨?_, ?_, ?_, ?_, ?_⟩
  · obtain ⟨r, h1, h2, h3, h4⟩ :=
      selectCandidateWithin_some W E color pool outer hpool pool.length 0 (by omega) (by omega)
    exact ⟨r, h1, by omega, h3, h4⟩
  · intro k h2
    exact claimBar_last k pool.length h2
  · intro k h1
    simp [claimBar, h1]
  · exact claimFarLoopWithin_some W E color myTile pool.length outer pool walkQueue (le_refl _)
  · intro p hp
    rw [List.length_erase_of_mem hp]
    omega

/-- C30 (amended) at the pool `[(5, 5), (7, 7)]` on the fully claimed grid. -/
theorem C30_selection_ends_witness :
    1 ≤ [((5, 5) : Pos), (7, 7)].length
      ∧ (∃ r, selectCandidateWithin claimedWorld gridEnv 0 [(5, 5), (7, 7)] 0
            [((5, 5) : Pos), (7, 7)].length 0 = some r
          ∧ r.2 + 1 ≤ [((5, 5) : Pos), (7, 7)].length ∧ r.1 ∈ [((5, 5) : Pos), (7, 7)]
          ∧ selectCandidate claimedWorld gridEnv 0 [(5, 5), (7, 7)] 0
              [((5, 5) : Pos), (7, 7)].length 0 = r)
      ∧ claimFarLoopWithin claimedWorld gridEnv 0 (0, 0) [((5, 5) : Pos), (7, 7)].length 0
          [(5, 5), (7, 7)] []
        = some (claimFarLoop claimedWorld gridEnv 0 (0, 0) [((5, 5) : Pos), (7, 7)].length 0
            [(5, 5), (7, 7)] []) :=
  ⟨by decide,
    (C30_selection_ends claimedWorld gridEnv 0 (0, 0) [(5, 5), (7, 7)] 0 [] (by decide)).1,
    (C30_selection_ends claimedWorld gridEnv 0 (0, 0) [(5, 5), (7, 7)] 0 []
      (by decide)).2.2.2.1⟩

/-! ## C31: when idle decides to deposit -/

theorem evalIdle_deposit (X : Ext) (W : World) (E : Env) (c : Creature)
    (rest : List ActionType) (hw : c.digRate > 1 / 10)
    (h1 : 4 / 10 ≤ randomDouble 0 1 E.diceRoll)
    (h2 : randomDouble 0 1 E.diceRoll
      < 4 / 10 + 6 / 10 * (c.gold / X.maxGoldCarriedByWorkers)) :
    evalIdle X W E c rest
      = Step.next { c with actionQueue := ActionType.depositGold :: ActionType.idle :: rest }
          W true := by
  have ha : ¬ randomDouble 0 1 E.diceRoll < 2 / 10 := by
    intro h; linarith
  have hb : ¬ randomDouble 0 1 E.diceRoll < 4 / 10 := not_lt.mpr h1
  unfold evalIdle
  simp only [ha, hb, false_and, if_false, h2, hw, and_self, if_true]

theorem evalIdle_queue (X : Ext) (W : World) (E : Env) (c : Creature)
    (rest : List ActionType) (hq : c.actionQueue = ActionType.idle :: rest) :
    (evalIdle X W E c rest).queue
      = if randomDouble 0 1 E.diceRoll < 2 / 10 ∧ c.danceRate > 1 / 10 then
          some (ActionType.claimTile :: ActionType.idle :: rest)
        else if randomDouble 0 1 E.diceRoll < 4 / 10 ∧ c.digRate > 1 / 10 then
          some (ActionType.digTile :: ActionType.idle :: rest)
        else if randomDouble 0 1 E.diceRoll
            < 4 / 10 + 6 / 10 * (c.gold / X.maxGoldCarriedByWorkers)
            ∧ c.digRate > 1 / 10 then
          some (ActionType.depositGold :: ActionType.idle :: rest)
        else if randomDouble 0 1 E.diceRoll < 6 / 10 then
          some (ActionType.walkToTile :: ActionType.idle :: rest)
        else some (ActionType.idle :: rest) := by
  unfold evalIdle
  simp only []
  repeat' split
  all_goals first
    | rfl
    | exact congrArg some hq

/-- C31: with idle on top and dice roll `d` in `[0, 1)` (and a positive
`maxGoldCarriedByWorkers`): a worker (`digRate > 0.1`) pushes `depositGold` exactly when
`0.4 <= d < 0.4 + 0.6 * gold / maxGoldCarriedByWorkers`; with no gold carried it never
pushes `depositGold`; with carried gold at capacity every `d >= 0.4` pushes
`depositGold`, so the worker neither wanders nor stays idle; a non-worker
(`digRate <= 0.1`) pushes neither `digTile` nor `depositGold`. -/
theorem C31_idle_deposit (X : Ext) (W : World) (E : Env) (c : Creature)
    (rest : List ActionType) (hq : c.actionQueue = ActionType.idle :: rest)
    (hmax : 0 < X.maxGoldCarriedByWorkers)
    (hd : 0 ≤ randomDouble 0 1 E.diceRoll ∧ randomDouble 0 1 E.diceRoll < 1) :
    (c.digRate > 1 / 10 →
        ((evalIdle X W E c rest).queue
            = some (ActionType.depositGold :: ActionType.idle :: rest)
          ↔ 4 / 10 ≤ randomDouble 0 1 E.diceRoll
            ∧ randomDouble 0 1 E.diceRoll
              < 4 / 10 + 6 / 10 * (c.gold / X.maxGoldCarriedByWorkers))
        ∧ (4 / 10 ≤ randomDouble 0 1 E.diceRoll →
            randomDouble 0 1 E.diceRoll
              < 4 / 10 + 6 / 10 * (c.gold / X.maxGoldCarriedByWorkers) →
            evalIdle X W E c rest
              = Step.next
                  { c with actionQueue := ActionType.depositGold :: ActionType.idle :: rest }
                  W true)
        ∧ (c.gold = 0 →
            (evalIdle X W E c rest).queue
              ≠ some (ActionType.depositGold :: ActionType.idle :: rest))
        ∧ (c.gold = X.maxGoldCarriedByWorkers → 4 / 10 ≤ randomDouble 0 1 E.diceRoll →
            evalIdle X W E c rest
              = Step.next
                  { c with actionQueue := ActionType.depositGold :: ActionType.idle :: rest }
                  W true))
      ∧ (c.digRate ≤ 1 / 10 →
        (evalIdle X W E c rest).queue ≠ some (ActionType.digTile :: ActionType.idle :: rest)
          ∧ (evalIdle X W E c rest).queue
            ≠ some (ActionType.depositGold :: ActionType.idle :: rest)) := by
  have hqueue := evalIdle_queue X W E c rest hq
  refine ⟨?_, ?_⟩
  · intro hw
    have hiff : (evalIdle X W E c rest).queue
          = some (ActionType.depositGold :: ActionType.idle :: rest)
        ↔ 4 / 10 ≤ randomDouble 0 1 E.diceRoll
          ∧ randomDouble 0 1 E.diceRoll
            < 4 / 10 + 6 / 10 * (c.gold / X.maxGoldCarriedByWorkers) := by
      rw [hqueue]
      constructor
      · intro h
        split_ifs at h with a b d e
        · simp at h
        · simp at h
        · refine ⟨?_, d.1⟩
          by_contra hlt
          exact b ⟨not_le.mp hlt, hw⟩
        · simp at h
        · simp at h
      · rintro ⟨h1, h2⟩
        have ha : ¬ randomDouble 0 1 E.diceRoll < 2 / 10 := by
          intro h; linarith
        have hb : ¬ randomDouble 0 1 E.diceRoll < 4 / 10 := not_lt.mpr h1
        simp only [ha, hb, false_and, if_false, h2, hw, and_self, if_true]
    refine ⟨hiff, ?_, ?_, ?_⟩
    · intro h1 h2
      exact evalIdle_deposit X W E c rest hw h1 h2
    · intro hg hcon
      have := hiff.mp hcon
      rw [hg] at this
      simp only [Int.cast_zero, zero_div, mul_zero, add_zero] at this
      linarith [this.1, this.2]
    · intro hg h1
      apply evalIdle_deposit X W E c rest hw h1
      rw [hg, div_self (ne_of_gt hmax)]
      linarith [hd.2]
  · intro hn
    have hnw : ¬ c.digRate > 1 / 10 := not_lt.mpr hn
    rw [hqueue]
    simp only [hnw, and_false, if_false]
    constructor
    · split_ifs <;> simp
    · split_ifs <;> simp

/-- C31 at a worker carrying gold at capacity with dice roll 0.5: it pushes
`depositGold`. -/
theorem C31_idle_deposit_witness :
    ladenWorker.actionQueue = [ActionType.idle]
      ∧ 0 < sampleExt.maxGoldCarriedByWorkers
      ∧ (0 ≤ randomDouble 0 1 sampleEnv.diceRoll ∧ randomDouble 0 1 sampleEnv.diceRoll < 1)
      ∧ evalIdle sampleExt sampleWorld sampleEnv ladenWorker []
        = Step.next
            { ladenWorker with actionQueue := [ActionType.depositGold, ActionType.idle] }
            sampleWorld true :=
  ⟨rfl, by decide!, by decide!,
    ((C31_idle_deposit sampleExt sampleWorld sampleEnv ladenWorker [] rfl (by decide!)
      (by decide!)).1 (by decide!)).2.2.2 rfl (by decide!)⟩

/-! ## C32: `doLevelUp` -/

/-- C32, as stated, fails in its last part: the growth factor does not diminish over
successive levels, it grows. With the sample logarithm the factor on reaching level 2
is 5 and on reaching level 3 it is 6 (with the natural logarithm: about 1.74 and
1.87); a worker of dig rate 1 goes to 5 and then to 30. It also fails at the largest
level of the `unsigned int` counter: from level 4294967295 `level++` leads to level 0,
and the dig rate is multiplied by the factor of level 0. -/
theorem C32_counterexample :
    growthFactor sampleExt.log 2 = 5
      ∧ growthFactor sampleExt.log 3 = 6
      ∧ ¬ (growthFactor sampleExt.log 3 ≤ growthFactor sampleExt.log 2)
      ∧ (doLevelUp sampleExt.log apprentice).digRate = 5
      ∧ (doLevelUp sampleExt.log (doLevelUp sampleExt.log apprentice)).digRate = 30
      ∧ elder.level = 4294967295
      ∧ (doLevelUp sampleExt.log elder).level = 0
      ∧ (doLevelUp sampleExt.log elder).digRate = growthFactor sampleExt.log 0 := by
  refine ⟨by decide!, by decide!, by decide!, by decide!, by decide!, rfl, by decide!,
    by decide!⟩

/-- C32 (amended): for a creature below the largest level of the counter
(`level < 4294967295`), one call of `doLevelUp` increases the level by exactly 1,
`maxHP` by `hpPerLevel` and `maxMana` by `manaPerLevel`, leaves experience, hp, mana
and the action queue unchanged, and sets the dig rate to
`min(60, digRate * (1 + log(log(level'+1)+1)))` when `digRate > 0.1` (`level'` the new
level) and to `min(60, digRate)` otherwise; hence the dig rate never exceeds 60 after
a level-up. The factor does not diminish: for a monotone logarithm it is
non-decreasing in the level. -/
theorem C32_doLevelUp (log : ℚ → ℚ) (c : Creature) (hl : c.level < 4294967295) :
    (doLevelUp log c).level = c.level + 1
      ∧ (doLevelUp log c).maxHP = c.maxHP + c.hpPerLevel
      ∧ (doLevelUp log c).maxMana = c.maxMana + c.manaPerLevel
      ∧ (doLevelUp log c).exp = c.exp
      ∧ (doLevelUp log c).hp = c.hp
      ∧ (doLevelUp log c).mana = c.mana
      ∧ (doLevelUp log c).actionQueue = c.actionQueue
      ∧ (c.digRate > 1 / 10 →
          (doLevelUp log c).digRate = min 60 (c.digRate * growthFactor log (c.level + 1)))
      ∧ (c.digRate ≤ 1 / 10 → (doLevelUp log c).digRate = min 60 c.digRate)
      ∧ (doLevelUp log c).digRate ≤ 60
      ∧ ((∀ x y : ℚ, x ≤ y → log x ≤ log y) →
          ∀ L1 L2 : Nat, L1 ≤ L2 → growthFactor log L1 ≤ growthFactor log L2) := by
  have hM : levelModulus = 4294967296 := rfl
  have hnext : (c.level + 1) % levelModulus = c.level + 1 :=
    Nat.mod_eq_of_lt (by omega)
  have hmin : ∀ d : ℚ, (if d > 60 then (60 : ℚ) else d) = min 60 d := by
    intro d
    by_cases h : d > 60
    · rw [if_pos h, min_eq_left (le_of_lt h)]
    · rw [if_neg h, min_eq_right (not_lt.mp h)]
  have hrate : (doLevelUp log c).digRate
      = min 60 (if c.digRate > 1 / 10 then
          c.digRate * (1 + log (log (((c.level + 1 : Nat) : ℚ) + 1) + 1))
        else c.digRate) := by
    rw [← hnext]
    show (if (if c.digRate > 1 / 10 then
            c.digRate * (1 + log (log ((((c.level + 1) % levelModulus : Nat) : ℚ) + 1) + 1))
          else c.digRate) > 60 then (60 : ℚ)
        else (if c.digRate > 1 / 10 then
            c.digRate * (1 + log (log ((((c.level + 1) % levelModulus : Nat) : ℚ) + 1) + 1))
          else c.digRate)) = _
    exact hmin _
  refine ⟨doLevelUp_level_small log c (by omega), rfl, rfl, rfl, rfl, rfl, rfl,
    ?_, ?_, ?_, ?_⟩
  · intro h
    rw [hrate, if_pos h]
    rfl
  · intro h
    rw [hrate, if_neg (not_lt.mpr h)]
  · rw [hrate]
    exact min_le_left _ _
  · intro hmono L1 L2 h
    unfold growthFactor
    have h1 : (L1 : ℚ) + 1 ≤ (L2 : ℚ) + 1 := by
      have : (L1 : ℚ) ≤ (L2 : ℚ) := by exact_mod_cast h
      linarith
    have h2 := hmono _ _ h1
    have h3 := hmono (log ((L1 : ℚ) + 1) + 1) (log ((L2 : ℚ) + 1) + 1) (by linarith)
    linarith

/-- C32 (amended) at the worker of level 1 and dig rate 1 with the sample logarithm:
it reaches level 2 and dig rate 5. -/
theorem C32_doLevelUp_witness :
    apprentice.level < 4294967295
      ∧ (doLevelUp sampleExt.log apprentice).level = 1 + 1
      ∧ apprentice.digRate > 1 / 10
      ∧ (doLevelUp sampleExt.log apprentice).digRate
          = min 60 (apprentice.digRate * growthFactor sampleExt.log (1 + 1))
      ∧ (doLevelUp sampleExt.log apprentice).digRate ≤ 60 :=
  ⟨by decide, (C32_doLevelUp sampleExt.log apprentice (by decide)).1, by decide!,
    (C32_doLevelUp sampleExt.log apprentice (by decide)).2.2.2.2.2.2.2.1 (by decide!),
    (C32_doLevelUp sampleExt.log apprentice (by decide)).2.2.2.2.2.2.2.2.2.1⟩

/-! ## C33: `getReachableAttackableObjects` -/

theorem reachableLoop_spec (W : World) (path : Option Pos → Option Pos → List Pos)
    (myTile : Option Pos) (objs : List Nat) :
    ∀ acc : List Nat × Nat × Option Nat × Bool, ReachableInv W path myTile acc →
      (reachableLoop W path myTile objs acc).1
          = acc.1 ++ objs.filter (fun o => decide (2 ≤ pathLength W path myTile o))
        ∧ ReachableInv W path myTile (reachableLoop W path myTile objs acc) := by
  induction objs with
  | nil =>
    intro acc h
    exact ⟨by simp [reachableLoop], h⟩
  | cons o rest ih =>
    intro acc h
    obtain ⟨vec, m, n, s⟩ := acc
    obtain ⟨hs, hinv⟩ := h
    simp only [] at hs hinv
    simp only [reachableLoop]
    have hlen : (path myTile (some (W.object o).coveredTile)).length
        = pathLength W path myTile o := rfl
    rw [hlen]
    by_cases h2 : pathLength W path myTile o ≥ 2
    · rw [if_pos h2]
      have hfilter : (o :: rest).filter (fun o => decide (2 ≤ pathLength W path myTile o))
          = o :: rest.filter (fun o => decide (2 ≤ pathLength W path myTile o)) := by
        rw [List.filter_cons_of_pos]
        simpa using h2
      rw [hfilter]
      cases s with
      | false =>
        have hvec : vec = [] := by
          by_contra hne
          exact absurd (hs.mpr hne) (by simp)
        subst hvec
        simp only [Bool.not_false, if_true]
        have hnew : ReachableInv W path myTile
            ([] ++ [o], pathLength W path myTile o, some o, true) := by
          refine ⟨by simp, fun _ => ⟨?_, ?_, by simp⟩⟩
          · intro x hx
            simp only [List.nil_append, List.mem_singleton] at hx
            rw [hx]
          · simp
        obtain ⟨h1, h3⟩ := ih _ hnew
        exact ⟨by rw [h1]; simp, h3⟩
      | true =>
        obtain ⟨hall, hn, hsome⟩ := hinv rfl
        simp only [Bool.not_true, Bool.false_eq_true, if_false]
        by_cases hlt : pathLength W path myTile o < m
        · rw [if_pos hlt]
          have hnew : ReachableInv W path myTile
              (vec ++ [o], pathLength W path myTile o, some o, true) := by
            refine ⟨by simp, fun _ => ⟨?_, ?_, by simp⟩⟩
            · intro x hx
              rcases List.mem_append.mp hx with hx | hx
              · exact le_of_lt (lt_of_lt_of_le hlt (hall x hx))
              · rw [List.mem_singleton.mp hx]
            · show some o = (vec ++ [o]).find?
                (fun x => decide (pathLength W path myTile x = pathLength W path myTile o))
              have hnone : vec.find?
                  (fun x => decide (pathLength W path myTile x = pathLength W path myTile o))
                  = none := by
                rw [List.find?_eq_none]
                intro x hx
                have := hall x hx
                simp only [decide_eq_true_eq]
                omega
              rw [List.find?_append, hnone]
              simp
          obtain ⟨h1, h3⟩ := ih _ hnew
          exact ⟨by rw [h1]; simp, h3⟩
        · rw [if_neg hlt]
          have hnew : ReachableInv W path myTile (vec ++ [o], m, n, true) := by
            refine ⟨by simp, fun _ => ⟨?_, ?_, hsome⟩⟩
            · intro x hx
              rcases List.mem_append.mp hx with hx | hx
              · exact hall x hx
              · rw [List.mem_singleton.mp hx]
                exact not_lt.mp hlt
            · show n = (vec ++ [o]).find? (fun x => decide (pathLength W path myTile x = m))
              rw [List.find?_append, ← hn]
              cases n with
              | none => exact absurd rfl hsome
              | some v => rfl
          obtain ⟨h1, h3⟩ := ih _ hnew
          exact ⟨by rw [h1]; simp, h3⟩
    · rw [if_neg h2]
      have hfilter : (o :: rest).filter (fun o => decide (2 ≤ pathLength W path myTile o))
          = rest.filter (fun o => decide (2 ≤ pathLength W path myTile o)) := by
        rw [List.filter_cons_of_neg]
        simpa using h2
      rw [hfilter]
      exact ih _ ⟨hs, hinv⟩

/-- C33: for every list of objects, `getReachableAttackableObjects` returns exactly the
objects whose path from the agent's tile has at least 2 tiles, in input order; when
the result is non-empty, `minRange` is the minimum path length over the returned
objects (a lower bound that the nearest object attains) and `nearestObject` is the
first returned object attaining it; when the result is empty, `minRange` is the
sentinel 999999. For the objects 1, 0, 2, 0 at 1, 4, 6 and 4 tiles the result is
0, 2, 0 with `minRange` 4 and nearest object 0. -/
theorem C33_reachable_objects (W : World) (path : Option Pos → Option Pos → List Pos)
    (myTile : Option Pos) (objs : List Nat) :
    (getReachableAttackableObjects W path myTile objs).1
        = objs.filter (fun o => decide (2 ≤ pathLength W path myTile o))
      ∧ ((getReachableAttackableObjects W path myTile objs).1 ≠ [] →
          (∀ o ∈ (getReachableAttackableObjects W path myTile objs).1,
              (getReachableAttackableObjects W path myTile objs).2.1
                ≤ pathLength W path myTile o)
            ∧ ∃ o, (getReachableAttackableObjects W path myTile objs).2.2 = some o
                ∧ (getReachableAttackableObjects W path myTile objs).1.find?
                    (fun x => decide (pathLength W path myTile x
                      = (getReachableAttackableObjects W path myTile objs).2.1)) = some o
                ∧ pathLength W path myTile o
                    = (getReachableAttackableObjects W path myTile objs).2.1)
      ∧ ((getReachableAttackableObjects W path myTile objs).1 = [] →
          (getReachableAttackableObjects W path myTile objs).2.1 = 999999)
      ∧ getReachableAttackableObjects spreadWorld linePath (some (0, 0)) [1, 0, 2, 0]
          = ([0, 2, 0], 4, some 0) := by
  have hinit : ReachableInv W path myTile ([], 0, none, false) :=
    ⟨by simp, fun h => absurd h (by simp)⟩
  obtain ⟨hvec, hs, hinv⟩ := reachableLoop_spec W path myTile objs _ hinit
  simp only [List.nil_append] at hvec
  refine ⟨hvec, ?_, ?_, by decide!⟩
  · intro hne
    have hset : (reachableLoop W path myTile objs ([], 0, none, false)).2.2.2 = true :=
      hs.mpr hne
    obtain ⟨hall, hn, hsome⟩ := hinv hset
    have hmin : (getReachableAttackableObjects W path myTile objs).2.1
        = (reachableLoop W path myTile objs ([], 0, none, false)).2.1 := by
      show (if (reachableLoop W path myTile objs ([], 0, none, false)).2.2.2 = true then
          (reachableLoop W path myTile objs ([], 0, none, false)).2.1 else 999999) = _
      rw [if_pos hset]
    rw [hmin]
    refine ⟨hall, ?_⟩
    cases hnear : (reachableLoop W path myTile objs ([], 0, none, false)).2.2.1 with
    | none => exact absurd hnear hsome
    | some o =>
      refine ⟨o, hnear, ?_, ?_⟩
      · show (reachableLoop W path myTile objs ([], 0, none, false)).1.find? _ = some o
        rw [← hn, hnear]
      · have hfound := hn.symm.trans hnear
        have := List.find?_some hfound
        simpa using this
  · intro hempty
    have hset : ¬ (reachableLoop W path myTile objs ([], 0, none, false)).2.2.2 = true :=
      fun h => (hs.mp h) hempty
    show (if (reachableLoop W path myTile objs ([], 0, none, false)).2.2.2 = true then
      (reachableLoop W path myTile objs ([], 0, none, false)).2.1 else 999999) = 999999
    rw [if_neg hset]

/-! ## C35: the level-up loop ends -/

/-- When some level `top` from the present one on, within the range of the counter,
has a threshold above the experience, the level-up loop ends within the passes that
lead to `top`, at the least level from the present one on whose threshold exceeds the
experience. -/
theorem levelUpLoopFuel_least (log : ℚ → ℚ) (top : Nat) (htop : top < levelModulus)
    (fuel : Nat) :
    ∀ c : Creature, c.level ≤ top → c.exp < levelThreshold top →
      top - c.level < fuel →
      (levelUpLoopFuel log fuel c).exp < levelThreshold (levelUpLoopFuel log fuel c).level
        ∧ c.level ≤ (levelUpLoopFuel log fuel c).level
        ∧ (levelUpLoopFuel log fuel c).level ≤ top
        ∧ ∀ L, c.level ≤ L → L < (levelUpLoopFuel log fuel c).level →
            levelThreshold L ≤ c.exp := by
  induction fuel with
  | zero =>
    intro c _ _ hf
    omega
  | succ n ih =>
    intro c hl he hf
    by_cases hc : c.exp ≥ levelThreshold c.level
    · have hne : c.level ≠ top := by
        intro h
        rw [h] at hc
        exact absurd he (not_lt.mpr hc)
      have hnext : (doLevelUp log c).level = c.level + 1 :=
        doLevelUp_level_small log c (by omega)
      simp only [levelUpLoopFuel, hc, if_true]
      obtain ⟨h1, h2, h3, h4⟩ := ih (doLevelUp log c) (by rw [hnext]; omega)
        (by rw [doLevelUp_exp]; exact he) (by rw [hnext]; omega)
      rw [hnext] at h2 h4
      rw [doLevelUp_exp] at h4
      refine ⟨h1, by omega, h3, ?_⟩
      intro L hL1 hL2
      by_cases hLe : L = c.level
      · rw [hLe]
        exact hc
      · exact h4 L (by omega) hL2
    · rw [levelUpLoopFuel_stop log (n + 1) c (not_le.mp hc)]
      refine ⟨not_le.mp hc, le_refl _, hl, ?_⟩
      intro L hL1 hL2
      omega

/-- The thresholds of the levels an `unsigned int` holds stay below `2 * 10^19`. -/
theorem levelThreshold_bounded (L : Nat) (h : L < levelModulus) :
    levelThreshold L < 20000000000000000000 := by
  have hM : levelModulus = 4294967296 := rfl
  unfold levelThreshold
  have h1 : (5 * L) % levelModulus < 4294967296 := by
    rw [hM]
    exact Nat.mod_lt _ (by decide)
  have h2 : L / 3 ≤ 1431655765 := by omega
  have h1q : (((5 * L) % levelModulus : Nat) : ℚ) < 4294967296 := by exact_mod_cast h1
  have h2q : ((L / 3 : Nat) : ℚ) ≤ 1431655765 := by exact_mod_cast h2
  have h0 : (0 : ℚ) ≤ ((L / 3 : Nat) : ℚ) := by positivity
  have h3 : (((L / 3 : Nat) : ℚ)) ^ 2 ≤ (1431655765 : ℚ) ^ 2 := pow_le_pow_left₀ h0 h2q 2
  have h4 : (1431655765 : ℚ) ^ 2 = 2049638229457735225 := by norm_num
  linarith

/-- C35, as stated, fails: `5*level` wraps at level 858993460, whose threshold is below
that of level 858993459, and the thresholds of all levels of the 32-bit counter stay
below `2 * 10^19`; a creature holding the experience `2 * 10^19` never leaves the
level-up loop, whatever number of passes is allowed. -/
theorem C35_counterexample :
    levelThreshold 858993460 < levelThreshold 858993459
      ∧ (∀ L, L < levelModulus → levelThreshold L < 20000000000000000000)
      ∧ sage.exp = 20000000000000000000
      ∧ (∀ fuel, levelled (levelUpLoopFuel sampleExt.log fuel sage) = false) := by
  refine ⟨by decide!, levelThreshold_bounded, rfl, ?_⟩
  intro fuel
  have hl : sage.level < levelModulus := by decide
  have hall : ∀ j, levelThreshold ((sage.level + j) % levelModulus) ≤ sage.exp := by
    intro j
    exact le_of_lt (levelThreshold_bounded _ (Nat.mod_lt _ (by decide)))
  have h := levelUpLoopFuel_runs sampleExt.log fuel sage hl hall
  unfold levelled
  exact decide_eq_false (not_lt.mpr h)

/-- C35 (amended): for every level `L ≤ 858993458` the bound of the loop is
`5*L + 5*(L div 3)^2` and strictly below that of level `L + 1`, and `doLevelUp` does
not change the experience; hence for every creature and every experience value that
is exceeded by the threshold of some level `top` from the creature's level on, within
the range of the 32-bit counter, the level-up loop of `doTurn` ends: its condition is
false in the state it leaves, every allowance of at least `2^32` passes yields that
same state, the experience is unchanged, and the level reached is the least level
`L' ≥ L` whose threshold exceeds the experience. This is the case in particular for a
creature at a level of at most 858993459 whose experience is below 409927650186514340,
the threshold of level 858993459. -/
theorem C35_level_loop_ends (log : ℚ → ℚ) (c : Creature) (top : Nat)
    (hl : c.level ≤ top) (htop : top ≤ 4294967295) (he : c.exp < levelThreshold top) :
    (∀ L : Nat, L ≤ 858993458 →
        levelThreshold L = 5 * (L : ℚ) + 5 * (((L / 3 : Nat) : ℚ)) ^ 2
          ∧ levelThreshold L < levelThreshold (L + 1))
      ∧ (doLevelUp log c).exp = c.exp
      ∧ levelled (levelUpLoop log c) = true
      ∧ (∀ more, levelUpLoopFuel log (levelModulus + more) c = levelUpLoop log c)
      ∧ (levelUpLoop log c).exp = c.exp
      ∧ c.level ≤ (levelUpLoop log c).level
      ∧ (levelUpLoop log c).level ≤ top
      ∧ c.exp < levelThreshold (levelUpLoop log c).level
      ∧ (∀ L, c.level ≤ L → L < (levelUpLoop log c).level → levelThreshold L ≤ c.exp)
      ∧ levelThreshold 858993459 = 409927650186514340 := by
  have hM : levelModulus = 4294967296 := rfl
  have hT : levelThreshold 858993459 = 409927650186514340 := by decide!
  obtain ⟨h1, h2, h3, h4⟩ := levelUpLoopFuel_least log top (by omega) levelModulus c hl he
    (by omega)
  have hexp : (levelUpLoop log c).exp = c.exp := levelUpLoopFuel_exp log _ c
  have hlev : levelled (levelUpLoop log c) = true := decide_eq_true h1
  refine ⟨?_, rfl, hlev, levelUpLoop_indep log c hlev, hexp, h2, h3, ?_, h4, hT⟩
  · intro L hL
    exact ⟨levelThreshold_small L (by omega), levelThreshold_lt_succ L (by omega)⟩
  · rw [← hexp]
    exact h1

/-- C35 (amended) at a fresh creature holding 25 experience, with the threshold 30 of
level 5 above it: the loop ends at level 5, the least level whose threshold exceeds
25. -/
theorem C35_level_loop_ends_witness :
    ({ Creature.new with exp := 25 } : Creature).level ≤ 5
      ∧ 5 ≤ 4294967295
      ∧ ({ Creature.new with exp := 25 } : Creature).exp < levelThreshold 5
      ∧ levelled (levelUpLoop sampleExt.log { Creature.new with exp := 25 }) = true
      ∧ (levelUpLoop sampleExt.log { Creature.new with exp := 25 }).level = 5
      ∧ levelThreshold 4 = 25 ∧ levelThreshold 5 = 30 :=
  ⟨by decide, by decide, by decide!,
    (C35_level_loop_ends sampleExt.log { Creature.new with exp := 25 } 5 (by decide)
      (by decide) (by decide!)).2.2.1,
    by decide!, by decide!, by decide!⟩

/-! ## C36: the entry below `walkToTile` -/

theorem evaluated_hasIdle (X : Ext) (c : Creature) (h : Evaluated X c) : HasIdle c := by
  induction h with
  | first c cS c1 W T S hr hp hf =>
    have h0 : HasIdle (regenerateAndLevel X.log c) := by
      unfold HasIdle
      rw [regenerateAndLevel_actionQueue]
      exact reachable_hasIdle X c hr
    have h1 : HasIdle cS := by
      unfold HasIdle
      rw [perceive_actionQueue W T _ cS S hp]
      exact h0
    exact pushFindHome_hasIdle T _ c1 (pushManeuver_hasIdle T S cS h1) hf
  | again c c1 W W1 E S a rest _ hq hstep ih =>
    have := evalAction_hasIdle X W E S c a rest hq ih
    rw [hstep] at this
    exact this

theorem hasIdle_below_walk (c : Creature) (q : List ActionType) (h : HasIdle c)
    (hq : c.actionQueue = ActionType.walkToTile :: q) :
    ∃ below rest, q = below :: rest := by
  unfold HasIdle at h
  rw [hq] at h
  cases q with
  | nil => simp at h
  | cons below rest => exact ⟨below, rest, rfl⟩

/-- C36: in every state in which a pass of the switch starts during a tick begun in a
state reachable from construction (and in every reachable state itself), if
`walkToTile` is the top entry then the action queue has at least two entries, so the
read of `actionQueue[1]` is within bounds and the evaluation is defined. -/
theorem C36_entry_below_walkToTile (X : Ext) (c : Creature) (q : List ActionType)
    (h : Evaluated X c ∨ Reachable X c) (hq : c.actionQueue = ActionType.walkToTile :: q) :
    2 ≤ c.actionQueue.length
      ∧ (∃ below rest, c.actionQueue = ActionType.walkToTile :: below :: rest)
      ∧ ∀ (W : World) (E : Env) (S : Snapshot),
          evalAction X W E S c ActionType.walkToTile q ≠ Step.undefined := by
  have hidle : HasIdle c := by
    rcases h with h | h
    · exact evaluated_hasIdle X c h
    · exact reachable_hasIdle X c h
  obtain ⟨below, rest, hrest⟩ := hasIdle_below_walk c q hidle hq
  subst hrest
  refine ⟨by rw [hq]; simp, ⟨below, rest, hq⟩, ?_⟩
  intro W E S
  show evalWalkToTile W E c (below :: rest) ≠ Step.undefined
  by_cases hab : specWalkAborted W E c below
  · rw [evalWalkToTile_aborted W E c below rest hab]
    split <;> exact fun hcon => Step.noConfusion hcon
  · rw [evalWalkToTile_kept W E c below rest hab]
    split <;> exact fun hcon => Step.noConfusion hcon

/-- C36 at the state a homeless creature reaches after the tick in which it starts
walking to a quarters room: `walkToTile` lies on top of `findHome` and `idle`. -/
theorem C36_entry_below_walkToTile_witness :
    ∃ c : Creature, Reachable sampleExt c
      ∧ c.actionQueue = [ActionType.walkToTile, ActionType.findHome, ActionType.idle]
      ∧ 2 ≤ c.actionQueue.length
      ∧ ∀ (W : World) (E : Env) (S : Snapshot),
          evalAction sampleExt W E S c ActionType.walkToTile
            [ActionType.findHome, ActionType.idle] ≠ Step.undefined := by
  have hq : (doTurn sampleExt alertTick (fun _ => homeEnv) 5 homeless sampleWorld).queue
      = some [ActionType.walkToTile, ActionType.findHome, ActionType.idle] := by decide!
  have hdone : (doTurn sampleExt alertTick (fun _ => homeEnv) 5 homeless sampleWorld).isDone
      = true := by decide!
  cases hout : doTurn sampleExt alertTick (fun _ => homeEnv) 5 homeless sampleWorld with
  | done c1 W1 =>
    rw [hout] at hq
    simp only [Outcome.queue, Option.some.injEq] at hq
    have hr : Reachable sampleExt c1 :=
      Reachable.tick homeless c1 sampleWorld W1 alertTick (fun _ => homeEnv) 5
        (Reachable.construct _ rfl) hout
    exact ⟨c1, hr, hq,
      (C36_entry_below_walkToTile sampleExt c1 [ActionType.findHome, ActionType.idle]
        (Or.inr hr) hq).1,
      (C36_entry_below_walkToTile sampleExt c1 [ActionType.findHome, ActionType.idle]
        (Or.inr hr) hq).2.2⟩
  | emptyQueue =>
    rw [hout] at hdone
    exact Bool.noConfusion hdone
  | undefined =>
    rw [hout] at hdone
    exact Bool.noConfusion hdone
  | levelLoop =>
    rw [hout] at hdone
    exact Bool.noConfusion hdone
  | outOfFuel c1 W1 =>
    rw [hout] at hdone
    exact Bool.noConfusion hdone

/-! ## C38: `getEnemyObjectsInRange` -/

theorem getEnemyObjectsInRange_eq (W : World) (c : Creature) (my : Pos) (objs : List Nat)
    (weaponL weaponR : Weapon) (hl : c.weaponL = some weaponL) (hr : c.weaponR = some weaponR) :
    getEnemyObjectsInRange W c (some my) objs
      = some (objs.filter (fun o =>
          decide (distSquared my (W.object o).coveredTile
            < max weaponL.range weaponR.range * max weaponL.range weaponR.range))) := by
  unfold getEnemyObjectsInRange
  by_cases h0 : objs.length = 0
  · rw [if_pos h0, List.length_eq_zero.mp h0]
    rfl
  · rw [if_neg h0]
    simp only [hl, hr]
    rfl

theorem evalAttackObject_nobody (X : Ext) (W : World) (E : Env) (c : Creature)
    (rest : List ActionType) (h : c.enemyObjectsInRange = []) :
    evalAttackObject X W E c rest
      = if c.reachableEnemyObjects.length = 0 then
          Step.next { c with actionQueue := rest } W true
        else
          Step.next
            { c with actionQueue := ActionType.maneuver :: ActionType.attackObject :: rest }
            W true := by
  unfold evalAttackObject
  simp only [h]

theorem evalAction_noAttack (X : Ext) (W : World) (E : Env) (S : Snapshot) (c : Creature)
    (a : ActionType) (rest : List ActionType) (h : c.enemyObjectsInRange = []) :
    (evalAction X W E S c a rest).NoAttack W := by
  cases a with
  | idle =>
    show (evalIdle X W E c rest).NoAttack W
    unfold evalIdle
    simp only []
    repeat' split
    all_goals exact ⟨h, rfl⟩
  | walkToTile =>
    show (evalWalkToTile W E c rest).NoAttack W
    unfold evalWalkToTile
    simp only []
    repeat' split
    all_goals first
      | exact ⟨h, rfl⟩
      | trivial
  | claimTile =>
    show (evalClaimTile W E S c rest).NoAttack W
    unfold evalClaimTile
    simp only []
    repeat' split
    all_goals exact ⟨h, rfl⟩
  | digTile =>
    show (evalDigTile X W E S c rest).NoAttack W
    unfold evalDigTile digSearch
    simp only []
    repeat' split
    all_goals exact ⟨h, rfl⟩
  | depositGold =>
    show (evalDepositGold X W E c rest).NoAttack W
    unfold evalDepositGold
    simp only []
    repeat' split
    all_goals exact ⟨h, rfl⟩
  | findHome =>
    show (evalFindHome W E c rest).NoAttack W
    unfold evalFindHome
    simp only []
    repeat' split
    all_goals exact ⟨h, rfl⟩
  | attackObject =>
    show (evalAttackObject X W E c rest).NoAttack W
    rw [evalAttackObject_nobody X W E c rest h]
    split <;> exact ⟨h, rfl⟩
  | maneuver =>
    show (evalManeuver X W E S c rest).NoAttack W
    unfold evalManeuver maneuverMove
    simp only []
    repeat' split
    all_goals first
      | exact ⟨h, rfl⟩
      | trivial

theorem dispatchLoop_noAttack (X : Ext) (S : Snapshot) (envs : Nat → Env) (fuel : Nat) :
    ∀ (i : Nat) (c : Creature) (W : World), c.enemyObjectsInRange = [] →
      ∀ W1, (dispatchLoop X S envs fuel i c W).world = some W1 → W1.object = W.object := by
  induction fuel with
  | zero =>
    intro i c W _ W1 h
    simp only [dispatchLoop, Outcome.world, Option.some.injEq] at h
    rw [← h]
  | succ n ih =>
    intro i c W hc W1 h
    cases hq : c.actionQueue with
    | nil => simp [dispatchLoop, hq, Outcome.world] at h
    | cons a rest =>
      have hstep := evalAction_noAttack X W (envs i) S c a rest hc
      simp only [dispatchLoop, hq] at h
      cases hev : evalAction X W (envs i) S c a rest with
      | undefined =>
        rw [hev] at h
        simp [Outcome.world] at h
      | next c1 W2 lb =>
        rw [hev] at hstep h
        obtain ⟨h1, h2⟩ := hstep
        cases lb with
        | true =>
          have := ih (i + 1) c1 W2 h1 W1 h
          rw [this, h2]
        | false =>
          simp only [Outcome.world, Option.some.injEq] at h
          rw [← h, h2]

/-- C38: for a creature holding two weapons and standing on a tile,
`getEnemyObjectsInRange` returns exactly the input enemies whose first covered tile
lies at squared distance strictly less than `max(left.range, right.range)^2` from the
agent's tile, in input order. Consequently, when both weapons have range 0 it returns
no enemy (not even one on the agent's own tile), the perception phase leaves no enemy
in range, the case `attackObject` then only pops itself or pushes `maneuver`, and no
pass of the dispatch loop changes an object of the world: no attack is resolved. -/
theorem C38_enemies_in_range (W : World) (c : Creature) (my : Pos) (objs : List Nat)
    (weaponL weaponR : Weapon) (hl : c.weaponL = some weaponL) (hr : c.weaponR = some weaponR) :
    getEnemyObjectsInRange W c (some my) objs
        = some (objs.filter (fun o =>
            decide (distSquared my (W.object o).coveredTile
              < max weaponL.range weaponR.range * max weaponL.range weaponR.range)))
      ∧ (weaponL.range = 0 → weaponR.range = 0 →
          getEnemyObjectsInRange W c (some my) objs = some []
            ∧ (∀ (T : TickEnv) (c1 : Creature) (S : Snapshot), T.positionTile = some my →
                perceive W T c = some (c1, S) → c1.enemyObjectsInRange = []))
      ∧ (∀ (X : Ext) (E : Env) (rest : List ActionType) (c1 : Creature),
          c1.enemyObjectsInRange = [] →
          evalAttackObject X W E c1 rest
            = if c1.reachableEnemyObjects.length = 0 then
                Step.next { c1 with actionQueue := rest } W true
              else
                Step.next
                  { c1 with
                    actionQueue := ActionType.maneuver :: ActionType.attackObject :: rest }
                  W true)
      ∧ (∀ (X : Ext) (S : Snapshot) (envs : Nat → Env) (fuel i : Nat) (c1 : Creature),
          c1.enemyObjectsInRange = [] →
          ∀ W1, (dispatchLoop X S envs fuel i c1 W).world = some W1 →
            W1.object = W.object) := by
  have hnone : ∀ l : List Nat, weaponL.range = 0 → weaponR.range = 0 →
      getEnemyObjectsInRange W c (some my) l = some [] := by
    intro l h1 h2
    rw [getEnemyObjectsInRange_eq W c my l weaponL weaponR hl hr, h1, h2]
    have hneg : ∀ o, ¬ distSquared my (W.object o).coveredTile < max (0 : ℚ) 0 * max 0 0 := by
      intro o
      have hpos : (0 : ℚ) ≤ distSquared my (W.object o).coveredTile := by
        unfold distSquared
        exact_mod_cast add_nonneg (sq_nonneg _) (sq_nonneg _)
      simp only [max_self, mul_zero, not_lt]
      exact hpos
    congr 1
    rw [List.filter_eq_nil_iff]
    intro o _
    simpa using hneg o
  refine ⟨getEnemyObjectsInRange_eq W c my objs weaponL weaponR hl hr, ?_, ?_, ?_⟩
  · intro h1 h2
    refine ⟨hnone objs h1 h2, ?_⟩
    intro T c1 S hT hper
    unfold perceive at hper
    simp only [hT, hnone T.visibleEnemyObjects h1 h2, Option.some.injEq, Prod.mk.injEq] at hper
    rw [← hper.1]
  · intro X E rest c1 h
    exact evalAttackObject_nobody X W E c1 rest h
  · intro X S envs fuel i c1 h W1 hW
    exact dispatchLoop_noAttack X S envs fuel i c1 W h W1 hW

/-- C38 at a creature with two weapons of range 0 and an enemy on its own tile: no
enemy is in range. -/
theorem C38_enemies_in_range_witness :
    brawler.weaponL = some fist ∧ brawler.weaponR = some fist
      ∧ (spreadWorld.object 1).coveredTile = (0, 0)
      ∧ getEnemyObjectsInRange spreadWorld brawler (some (0, 0)) [1, 0] = some [] :=
  ⟨rfl, rfl, rfl,
    ((C38_enemies_in_range spreadWorld brawler (0, 0) [1, 0] fist fist rfl rfl).2.1
      rfl rfl).1⟩

/-! ## C37: a goal with sub-goals of both kinds -/

/-- C37 fails on the code: `operator<<` writes the success section and then the
failure section of a goal, but `instantiateFromStream` reads the failure section only
in the `else` branch of the test for the success section (line 152). A goal with one
success sub-goal and one failure sub-goal is read back with one success sub-goal and
no failure sub-goal, and the failure sub-goal is attached to the success sub-goal. -/
theorem C37_failure_subgoals_misplaced :
    writeGoal sampleFormat forkedGoal = forkedRecord.data
      ∧ forkedGoal.counts = ("KillAllEnemies", 1, 1)
      ∧ forkedGoal.successSubGoals.map Goal.counts = [("ClaimNTiles", 0, 0)]
      ∧ (instantiateFromStream sampleFormat 3 forkedRecord.data).map
          (fun r => (r.1.map Goal.counts, r.2)) = some (some ("KillAllEnemies", 1, 0), [])
      ∧ (instantiateFromStream sampleFormat 3 forkedRecord.data).map
          (fun r => r.1.map (fun g => g.successSubGoals.map Goal.counts))
        = some (some [("ClaimNTiles", 0, 1)])
      ∧ (instantiateFromStream sampleFormat 3 forkedRecord.data).map
          (fun r => r.1.map (fun g =>
            g.successSubGoals.map (fun h => h.failureSubGoals.map Goal.counts)))
        = some (some [[("MineNGold", 0, 0)]]) := by
  refine ⟨by decide, by decide, by decide, by decide!, by decide!, by decide!⟩

/-! ## C34: a goal without sub-goals -/

theorem recognised_token (name : String) (h : recognised name = true) :
    isToken name.data = true := by
  unfold recognised at h
  simp only [Bool.or_eq_true, decide_eq_true_eq] at h
  rcases h with (((h | h) | h) | h) | h <;> subst h <;> decide

theorem getLine_line (line rest : List Char) (h : '\n' ∉ line) :
    getLine (line ++ '\n' :: rest) = (line, rest) := by
  induction line with
  | nil =>
    show getLine ('\n' :: rest) = ([], rest)
    simp only [getLine, if_true]
  | cons ch tail ih =>
    have hch : ch ≠ '\n' := fun hc => h (hc ▸ List.mem_cons_self _ _)
    have ht := ih (fun hc => h (List.mem_cons_of_mem _ hc))
    show getLine (ch :: (tail ++ '\n' :: rest)) = (ch :: tail, rest)
    simp only [getLine, if_neg hch, ht]

theorem stripLeading_tab (s : List Char) : stripLeading ('\t' :: s) = stripLeading s := by
  simp only [stripLeading]
  simp

theorem stripLeading_kept (s : List Char)
    (h : ∀ ch ∈ s.head?, ch ≠ '\n' ∧ ch ≠ '\t' ∧ ch ≠ ' ') : stripLeading s = s := by
  cases s with
  | nil => rfl
  | cons ch rest =>
    have := h ch (by simp)
    simp only [stripLeading]
    rw [if_neg]
    rintro (h1 | h1 | h1)
    · exact this.1 h1
    · exact this.2.1 h1
    · exact this.2.2 h1

/-- C34: for every goal of a recognised kind without sub-goals whose arguments contain
no newline, do not start with a newline, tab or blank, and are not the text NULL,
reading with `Goal::instantiateFromStream` what `operator<<` wrote yields the same
goal (the same name, the same arguments, no sub-goals) and consumes the text; empty
arguments are written as the token NULL and read back as the empty string. -/
theorem C34_goal_round_trip (F : StreamFormat) (fuel : Nat) (g : Goal)
    (hname : recognised g.name = true)
    (hs : g.successSubGoals = []) (hf : g.failureSubGoals = [])
    (hnl : '\n' ∉ g.arguments.data)
    (hlead : ∀ ch ∈ g.arguments.data.head?, ch ≠ '\n' ∧ ch ≠ '\t' ∧ ch ≠ ' ')
    (hnull : g.arguments ≠ "NULL") :
    instantiateFromStream F (fuel + 1) (writeGoal F g) = some (some g, [])
      ∧ (g.arguments = "" → writeGoal F g = g.name.data ++ "\tNULL\n".data) := by
  obtain ⟨name, arguments, successSubGoals, failureSubGoals⟩ := g
  simp only [] at hname hs hf hnl hlead hnull
  subst hs
  subst hf
  have htok := recognised_token name hname
  by_cases hempty : arguments.data = []
  · have harg : arguments = "" := by
      cases arguments
      simp only [] at hempty
      subst hempty
      rfl
    subst harg
    have hw : writeGoal F ⟨name, "", [], []⟩ = name.data ++ '\t' :: "NULL\n".data := by
      simp [writeGoal]
    refine ⟨?_, fun _ => hw⟩
    rw [hw]
    simp only [instantiateFromStream, readString_token _ _ htok]
    have hline : getLine ('\t' :: "NULL\n".data) = ('\t' :: "NULL".data, []) := by decide
    have hstrip : stripLeading ('\t' :: "NULL".data) = "NULL".data := by decide
    simp only [hline, hstrip, if_true, hname]
  · have hlen : arguments.length > 0 := by
      have : arguments.data.length > 0 := List.length_pos.mpr hempty
      exact this
    have hw : writeGoal F ⟨name, arguments, [], []⟩
        = name.data ++ '\t' :: (arguments.data ++ '\n' :: []) := by
      simp [writeGoal, hlen]
    refine ⟨?_, fun h => absurd (by
      have h1 : arguments = "" := h
      rw [h1]) hempty⟩
    rw [hw]
    simp only [instantiateFromStream, readString_token _ _ htok]
    have hline : getLine ('\t' :: (arguments.data ++ '\n' :: []))
        = ('\t' :: arguments.data, []) := by
      have := getLine_line ('\t' :: arguments.data) [] (by
        intro hmem
        rcases List.mem_cons.mp hmem with h1 | h1
        · exact absurd h1 (by decide)
        · exact hnl h1)
      exact this
    have hstrip : stripLeading ('\t' :: arguments.data) = arguments.data := by
      rw [stripLeading_tab, stripLeading_kept _ hlead]
    have hnn : ¬ (arguments.data = "NULL".data) := by
      intro hcon
      apply hnull
      cases arguments
      simp only [] at hcon
      subst hcon
      rfl
    simp only [hline, hstrip, if_neg hnn, hname, if_true]

/-- C34 at the goal `ClaimNTiles` with the arguments "20 4". -/
theorem C34_goal_round_trip_witness :
    recognised (plainGoal "ClaimNTiles" "20 4").name = true
      ∧ writeGoal sampleFormat (plainGoal "ClaimNTiles" "20 4") = "ClaimNTiles\t20 4\n".data
      ∧ instantiateFromStream sampleFormat 1 (writeGoal sampleFormat (plainGoal "ClaimNTiles" "20 4"))
        = some (some (plainGoal "ClaimNTiles" "20 4"), []) :=
  ⟨by decide, by decide,
    (C34_goal_round_trip sampleFormat 0 (plainGoal "ClaimNTiles" "20 4") (by decide) rfl rfl
      (by decide) (by decide) (by decide)).1⟩

/-! ## C39: the reads of `MiniMap::swap` -/

theorem withinArray_iff (mWidth mHeight : Nat) (idx : Nat × Nat) :
    withinArray (allocateMiniMapMemory mWidth mHeight) idx = true
      ↔ idx.1 < mHeight ∧ idx.2 < mWidth := by
  unfold withinArray allocateMiniMapMemory
  by_cases h : idx.1 < mHeight
  · have hget : (List.replicate mHeight mWidth).get? idx.1 = some mWidth := by
      rw [List.get?_eq_getElem?, List.getElem?_replicate, if_pos h]
    rw [hget]
    simp [h]
  · have hget : (List.replicate mHeight mWidth).get? idx.1 = none := by
      rw [List.get?_eq_getElem?, List.getElem?_replicate, if_neg h]
    rw [hget]
    simp [h]

theorem mem_swapReads (mWidth mHeight : Nat) (idx : Nat × Nat) :
    idx ∈ swapReads mWidth mHeight ↔ idx.1 < mWidth ∧ idx.2 < mHeight := by
  unfold swapReads
  simp only [List.mem_flatten, List.mem_map, List.mem_range]
  constructor
  · rintro ⟨l, ⟨ii, hii, rfl⟩, hmem⟩
    simp only [List.mem_map, List.mem_range] at hmem
    obtain ⟨jj, hjj, rfl⟩ := hmem
    exact ⟨hii, hjj⟩
  · rintro ⟨h1, h2⟩
    refine ⟨_, ⟨idx.1, h1, rfl⟩, ?_⟩
    simp only [List.mem_map, List.mem_range]
    exact ⟨idx.2, h2, rfl⟩

/-- C39 fails on the code: `allocateMiniMapMemory` makes `mHeight` rows of `mWidth`
entries, while `swap` reads `mTiles[ii][jj]` with `ii < mWidth` and `jj < mHeight`. All
reads are within the array exactly when width and height are equal or one of them is
0. For width 2 and height 1 the read `mTiles[1][0]` is in a row that was never
allocated; for width 1 and height 2 the read `mTiles[0][1]` is past the end of its
row. -/
theorem C39_swap_reads_out_of_bounds :
    (∀ mWidth mHeight : Nat,
        (swapReads mWidth mHeight).all (withinArray (allocateMiniMapMemory mWidth mHeight))
            = true
          ↔ mWidth = mHeight ∨ mWidth = 0 ∨ mHeight = 0)
      ∧ swapReads 2 1 = [(0, 0), (1, 0)]
      ∧ allocateMiniMapMemory 2 1 = [2]
      ∧ withinArray (allocateMiniMapMemory 2 1) (1, 0) = false
      ∧ swapReads 1 2 = [(0, 0), (0, 1)]
      ∧ allocateMiniMapMemory 1 2 = [1, 1]
      ∧ withinArray (allocateMiniMapMemory 1 2) (0, 1) = false := by
  refine ⟨?_, by decide, by decide, by decide, by decide, by decide, by decide⟩
  intro mWidth mHeight
  rw [List.all_eq_true]
  constructor
  · intro h
    by_contra hcon
    have h1 : mWidth ≠ mHeight := fun e => hcon (Or.inl e)
    have h2 : 0 < mWidth := Nat.pos_of_ne_zero (fun e => hcon (Or.inr (Or.inl e)))
    have h3 : 0 < mHeight := Nat.pos_of_ne_zero (fun e => hcon (Or.inr (Or.inr e)))
    by_cases hlt : mHeight < mWidth
    · have hmem : (mWidth - 1, 0) ∈ swapReads mWidth mHeight :=
        (mem_swapReads mWidth mHeight _).mpr ⟨by simp; omega, h3⟩
      have := (withinArray_iff mWidth mHeight _).mp (h _ hmem)
      simp only [] at this
      omega
    · have hmem : (0, mHeight - 1) ∈ swapReads mWidth mHeight :=
        (mem_swapReads mWidth mHeight _).mpr ⟨h2, by simp; omega⟩
      have := (withinArray_iff mWidth mHeight _).mp (h _ hmem)
      simp only [] at this
      omega
  · intro h idx hmem
    have hm := (mem_swapReads mWidth mHeight idx).mp hmem
    apply (withinArray_iff mWidth mHeight idx).mpr
    rcases h with h | h | h
    · subst h
      exact hm
    · omega
    · omega

end OpenDungeons
